import Mathlib

/-!
Library management server: loans and inventory

A shallow embedding of the controllers of the library management server
(`controllers/assignmentController.js`, `controllers/bookController.js`,
`controllers/userController.js`) together with the schema rules of
`models/Book.js` and `models/Assignment.js` that run when a document is saved.

Modelling conventions

* A collection is a list of documents; `findById` and `findOne` return the first
  match, `save` of a loaded document rewrites the first document with that `_id`,
  `findByIdAndDelete` erases the first document with that `_id`.
* Object ids are natural numbers; a new document takes `Store.nextId`.
* Dates are integers (milliseconds since the epoch).  Every `new Date()` of a
  controller is an explicit argument.
* Numbers are integers.
* A controller returns the response it sends and the store it leaves behind.
  A rejected save (schema validation, unique index) is the `catch` branch: status 500.
* Schema rules on text fields are a parameter, `TextRules`: the validators (required,
  length, pattern, enumeration), the setters (`trim`, `lowercase`, `uppercase`) that
  run when a value is assigned to a document or cast in a query filter or in an update,
  and the name capitalisation of the `pre('save')` hook of `models/User.js`.
* Validators of an update (`runValidators: true`) are called with `this` bound to the
  query, not to a document: a field read through `this` is `undefined` there.
* The `createdAt`/`updatedAt` stamps and the `populate` join of a response are not
  represented: they touch no field that is modelled here.
-/

namespace Lms

/-! ## Data model -/

/-- Values of `Assignment.status` (`enum: ['issued', 'returned']`). -/
inductive Status where
  | issued
  | returned
  deriving DecidableEq, Repr

/-- Document of `models/Book.js`. -/
structure Book where
  _id : Nat
  title : String
  author : String
  isbn : String
  totalCopies : Int
  availableCopies : Int
  category : String
  deriving DecidableEq, Repr

/-- Document of `models/User.js`. -/
structure User where
  _id : Nat
  name : String
  email : String
  studentId : String
  phone : String
  deriving DecidableEq, Repr

/-- Document of `models/Assignment.js`; `returnDate` is `null` until the return. -/
structure Assignment where
  _id : Nat
  bookId : Nat
  userId : Nat
  issueDate : Int
  dueDate : Int
  returnDate : Option Int
  status : Status
  deriving DecidableEq, Repr

/-- The three collections and the next fresh object id. -/
structure Store where
  books : List Book
  users : List User
  assignments : List Assignment
  nextId : Nat
  deriving DecidableEq, Repr

/-- The store of a fresh database. -/
def Store.empty : Store := ⟨[], [], [], 0⟩

/-- The `data` field of a response. -/
inductive Doc where
  | book (b : Book)
  | user (u : User)
  | assignment (a : Assignment)
  deriving DecidableEq, Repr

/-- The JSON body and status of `res.status(..).json(..)`. -/
structure Response where
  status : Nat
  success : Bool
  message : String
  data : Option Doc
  deriving DecidableEq, Repr

/-- Text rules of the Book and User schemas.  `book title author isbn category` and
`user name email studentId phone` are the outcomes of the text-field validators;
`trim` is the setter of the fields declared `trim: true` only, `setEmail` the setters of
`email` (`trim`, `lowercase`), `setStudentId` those of `studentId` (`trim`, `uppercase`),
and `capitalize` the rewriting of `name` by the `pre('save')` hook of `models/User.js`
(first letter of each word in upper case, the rest in lower case). -/
structure TextRules where
  book : String → String → String → String → Bool
  user : String → String → String → String → Bool
  trim : String → String
  setEmail : String → String
  setStudentId : String → String
  capitalize : String → String

/-! ## Collection primitives -/

/-- Rewrite the first element satisfying `p` (`updateOne`). -/
def updateOne {α : Type} (p : α → Bool) (f : α → α) : List α → List α
  | [] => []
  | x :: xs => if p x then f x :: xs else x :: updateOne p f xs

/-- Model of `Book.findById`. -/
def Book.findById (s : Store) (id : Nat) : Option Book :=
  s.books.find? (fun b => b._id == id)

/-- Model of `User.findById`. -/
def User.findById (s : Store) (id : Nat) : Option User :=
  s.users.find? (fun u => u._id == id)

/-- Model of `Assignment.findById`. -/
def Assignment.findById (s : Store) (id : Nat) : Option Assignment :=
  s.assignments.find? (fun a => a._id == id)

/-- Filter `{ bookId, userId, status: 'issued' }`. -/
def activeFor (bookId userId : Nat) (a : Assignment) : Bool :=
  a.bookId == bookId && a.userId == userId && a.status == Status.issued

/-- Filter `{ bookId, status: 'issued' }`. -/
def activeForBook (bookId : Nat) (a : Assignment) : Bool :=
  a.bookId == bookId && a.status == Status.issued

/-- Filter `{ userId, status: 'issued' }`. -/
def activeForUser (userId : Nat) (a : Assignment) : Bool :=
  a.userId == userId && a.status == Status.issued

/-- JavaScript truthiness of an optional string field of a request body. -/
def truthyStr : Option String → Bool
  | some x => x != ""
  | none => false

/-- JavaScript `x || d` for an optional string. -/
def orStr (x : Option String) (d : String) : String :=
  match x with
  | some v => if v != "" then v else d
  | none => d

/-- JavaScript `x || d` for an optional number. -/
def orNum (x : Option Int) (d : Int) : Int :=
  match x with
  | some v => if v != 0 then v else d
  | none => d

/-- JavaScript `v <= t` for a number `v` and a `t` that is a number or `undefined`
(`none`): `undefined` converts to `NaN`, and every comparison with `NaN` is false. -/
def leNum (v : Int) : Option Int → Bool
  | some t => decide (v ≤ t)
  | none => false

/-! ## Schema rules -/

/-- Number validators of `models/Book.js`: `totalCopies` has `min 1`, `max 1000`;
`availableCopies` has `min 0` and the validator `v <= this.totalCopies`. -/
def Book.validate (b : Book) : Bool :=
  decide (1 ≤ b.totalCopies) && decide (b.totalCopies ≤ 1000) &&
    decide (0 ≤ b.availableCopies) && decide (b.availableCopies ≤ b.totalCopies)

/-- What `this.totalCopies` reads inside a validator that runs on an update
(`runValidators: true`): `this` is the query there, which has no such field. -/
def Book.updateThisTotalCopies : Option Int := none

/-- Number validators of `models/Book.js` as they run on the fields of an update:
`min` and `max` see the value written; the validator of `availableCopies`,
`v <= this.totalCopies`, compares it with what `this.totalCopies` reads there. -/
def Book.validateUpdate (b : Book) : Bool :=
  decide (1 ≤ b.totalCopies) && decide (b.totalCopies ≤ 1000) &&
    decide (0 ≤ b.availableCopies) && leNum b.availableCopies Book.updateThisTotalCopies

/-- The `pre('save')` hook of `models/Book.js`. -/
def Book.preSave (b : Book) : Book :=
  if b.availableCopies > b.totalCopies then { b with availableCopies := b.totalCopies } else b

/-- The `pre('save')` hook of `models/User.js`. -/
def User.preSave (rules : TextRules) (u : User) : User :=
  { u with name := rules.capitalize u.name }

/-- Date validators of `models/Assignment.js`: `dueDate` must satisfy
`v > this.issueDate`; `returnDate` must satisfy `!v || v >= this.issueDate`. -/
def Assignment.validate (a : Assignment) : Bool :=
  decide (a.dueDate > a.issueDate) &&
    (match a.returnDate with
     | none => true
     | some r => decide (r ≥ a.issueDate))

/-- The `pre('save')` hook of `models/Assignment.js` on a document that carries a
`dueDate`: a returned document without `returnDate` gets the current time. -/
def Assignment.preSave (now : Int) (a : Assignment) : Assignment :=
  if a.status = Status.returned ∧ a.returnDate = none then { a with returnDate := some now } else a

/-- Model of `book.save()` on a loaded document: validation runs first, then the hook, then
the document with that `_id` is rewritten.  `none` is a rejected save. -/
def Book.save (s : Store) (b : Book) : Option Store :=
  if b.validate then
    some { s with books := updateOne (fun x => x._id == b._id) (fun _ => b.preSave) s.books }
  else none

/-- Model of `assignment.save()` on a loaded document. -/
def Assignment.save (s : Store) (now : Int) (a : Assignment) : Option Store :=
  if a.validate then
    some { s with
      assignments := updateOne (fun x => x._id == a._id) (fun _ => a.preSave now) s.assignments }
  else none

/-- Model of `assignment.save()` on a new document: validation, hook, then the insert, which
the unique index on `(bookId, userId)` restricted to `status: 'issued'` rejects when
an issued document for the pair is already stored. -/
def Assignment.insert (s : Store) (now : Int) (a : Assignment) : Option Store :=
  if a.validate then
    let a1 := a.preSave now
    if a1.status = Status.issued ∧ s.assignments.any (activeFor a1.bookId a1.userId) then none
    else some { s with assignments := s.assignments ++ [a1], nextId := s.nextId + 1 }
  else none

/-- Milliseconds in a day. -/
def msPerDay : Int := 24 * 60 * 60 * 1000

/-- Model of `d.setDate(d.getDate() + n)` on a server whose local time has a fixed offset
from UTC: the instant moves by `n` whole days. -/
def addDays (d : Int) (n : Int) : Int := d + n * msPerDay

/-! ## controllers/assignmentController.js -/

/-- Model of `issueBook`.  `now` is the first `new Date()` (the issue date), `now + lag` the
second one, from which the due date is computed. -/
def issueBook (s : Store) (now : Int) (lag : Nat) (bookId userId : Nat) : Response × Store :=
  match Book.findById s bookId with
  | none => (⟨404, false, "Book not found", none⟩, s)
  | some book =>
    if book.availableCopies ≤ 0 then
      (⟨400, false, "Book is not available for issue", none⟩, s)
    else
      match User.findById s userId with
      | none => (⟨404, false, "User not found", none⟩, s)
      | some _ =>
        match s.assignments.find? (activeFor bookId userId) with
        | some _ => (⟨400, false, "User has already borrowed this book", none⟩, s)
        | none =>
          let issueDate := now
          let dueDate := addDays (now + lag) 14
          let assignment : Assignment :=
            { _id := s.nextId, bookId := bookId, userId := userId, issueDate := issueDate,
              dueDate := dueDate, returnDate := none, status := Status.issued }
          match Assignment.insert s now assignment with
          | none => (⟨500, false, "Error issuing book", none⟩, s)
          | some s1 =>
            match Book.save s1 { book with availableCopies := book.availableCopies - 1 } with
            | none => (⟨500, false, "Error issuing book", none⟩, s1)
            | some s2 =>
              (⟨201, true, "Book issued successfully",
                (Assignment.findById s2 assignment._id).map Doc.assignment⟩, s2)

/-- Model of `returnBook`.  `now` is the `new Date()` stored as `returnDate`. -/
def returnBook (s : Store) (now : Int) (assignmentId : Nat) : Response × Store :=
  match Assignment.findById s assignmentId with
  | none => (⟨404, false, "Assignment not found", none⟩, s)
  | some assignment =>
    if assignment.status = Status.returned then
      (⟨400, false, "Book has already been returned", none⟩, s)
    else
      match Assignment.save s now
          { assignment with status := Status.returned, returnDate := some now } with
      | none => (⟨500, false, "Error returning book", none⟩, s)
      | some s1 =>
        match Book.findById s1 assignment.bookId with
        | none =>
          (⟨200, true, "Book returned successfully",
            (Assignment.findById s1 assignment._id).map Doc.assignment⟩, s1)
        | some book =>
          match Book.save s1 { book with availableCopies := book.availableCopies + 1 } with
          | none => (⟨500, false, "Error returning book", none⟩, s1)
          | some s2 =>
            (⟨200, true, "Book returned successfully",
              (Assignment.findById s2 assignment._id).map Doc.assignment⟩, s2)

/-! ## controllers/bookController.js -/

/-- Body of `POST /api/books` (`req.body` of `createBook`). -/
structure BookBody where
  title : String
  author : String
  isbn : String
  totalCopies : Int
  category : String
  deriving DecidableEq, Repr

/-- Body of `PUT /api/books/:id` (`req.body` of `updateBook`); every field is optional. -/
structure BookUpdate where
  title : Option String
  author : Option String
  isbn : Option String
  totalCopies : Option Int
  category : Option String
  deriving DecidableEq, Repr

/-- Model of `book.save()` on a new document: validation, hook, then the insert, which the
unique index on `isbn` rejects when the ISBN is already stored. -/
def Book.insert (rules : TextRules) (s : Store) (b : Book) : Option Store :=
  if rules.book b.title b.author b.isbn b.category && b.validate then
    if s.books.any (fun x => x.isbn == b.isbn) then none
    else some { s with books := s.books ++ [b.preSave], nextId := s.nextId + 1 }
  else none

/-- Model of `Book.findByIdAndUpdate(id, fields, { new: true, runValidators: true })`, `b`
holding the fields after their setters: the validators run on the fields of the update
(`Book.validateUpdate`), the unique index on `isbn` is checked against the other
documents, and the document with that `_id` is rewritten.  No save hook runs.  `none` is
a rejected update. -/
def Book.findByIdAndUpdate (rules : TextRules) (s : Store) (id : Nat) (b : Book) :
    Option Store :=
  if rules.book b.title b.author b.isbn b.category && b.validateUpdate then
    if s.books.any (fun x => x.isbn == b.isbn && x._id != id) then none
    else some { s with books := updateOne (fun x => x._id == id) (fun _ => b) s.books }
  else none

/-- Model of `createBook`.  The filter of `findOne` and the fields of `new Book` pass
through the setters of the schema. -/
def createBook (rules : TextRules) (s : Store) (body : BookBody) : Response × Store :=
  match s.books.find? (fun b => b.isbn == rules.trim body.isbn) with
  | some _ => (⟨400, false, "Book with this ISBN already exists", none⟩, s)
  | none =>
    let book : Book :=
      { _id := s.nextId, title := rules.trim body.title, author := rules.trim body.author,
        isbn := rules.trim body.isbn, totalCopies := body.totalCopies,
        availableCopies := body.totalCopies, category := rules.trim body.category }
    match Book.insert rules s book with
    | none => (⟨500, false, "Error creating book", none⟩, s)
    | some s1 => (⟨201, true, "Book created successfully", some (Doc.book book.preSave)⟩, s1)

/-- The tail of `updateBook`, from the computation of `issuedCopies` on.  The fields of
the update pass through the setters of the schema. -/
def updateBookCopies (rules : TextRules) (s : Store) (id : Nat) (body : BookUpdate)
    (book : Book) : Response × Store :=
  let issuedCopies := book.totalCopies - book.availableCopies
  let newAvailableCopies :=
    match body.totalCopies with
    | some t => if t != 0 then t - issuedCopies else book.availableCopies
    | none => book.availableCopies
  if newAvailableCopies < 0 then
    (⟨400, false, "Cannot reduce total copies below currently issued books", none⟩, s)
  else
    let updated : Book :=
      { _id := book._id,
        title := rules.trim (orStr body.title book.title),
        author := rules.trim (orStr body.author book.author),
        isbn := rules.trim (orStr body.isbn book.isbn),
        totalCopies := orNum body.totalCopies book.totalCopies,
        availableCopies := newAvailableCopies,
        category := rules.trim (orStr body.category book.category) }
    match Book.findByIdAndUpdate rules s id updated with
    | none => (⟨500, false, "Error updating book", none⟩, s)
    | some s1 => (⟨200, true, "Book updated successfully", some (Doc.book updated)⟩, s1)

/-- Model of `updateBook`.  The test `isbn !== book.isbn` compares the text of the request
as it came; the filter of `findOne` passes through the setter. -/
def updateBook (rules : TextRules) (s : Store) (id : Nat) (body : BookUpdate) :
    Response × Store :=
  match Book.findById s id with
  | none => (⟨404, false, "Book not found", none⟩, s)
  | some book =>
    if truthyStr body.isbn && body.isbn != some book.isbn then
      match s.books.find?
          (fun b => some b.isbn == body.isbn.map rules.trim && b._id != id) with
      | some _ => (⟨400, false, "Book with this ISBN already exists", none⟩, s)
      | none => updateBookCopies rules s id body book
    else updateBookCopies rules s id body book

/-- Model of `deleteBook`. -/
def deleteBook (s : Store) (id : Nat) : Response × Store :=
  match Book.findById s id with
  | none => (⟨404, false, "Book not found", none⟩, s)
  | some _ =>
    let activeAssignments := s.assignments.countP (activeForBook id)
    if activeAssignments > 0 then
      (⟨400, false, "Cannot delete book with active assignments", none⟩, s)
    else
      (⟨200, true, "Book deleted successfully", none⟩,
        { s with books := s.books.eraseP (fun b => b._id == id) })

/-! ## controllers/userController.js -/

/-- Body of `POST /api/users` (`req.body` of `createUser`). -/
structure UserBody where
  name : String
  email : String
  studentId : String
  phone : String
  deriving DecidableEq, Repr

/-- Body of `PUT /api/users/:id` (`req.body` of `updateUser`); every field is optional. -/
structure UserUpdate where
  name : Option String
  email : Option String
  studentId : Option String
  phone : Option String
  deriving DecidableEq, Repr

/-- Model of `user.save()` on a new document, `u` holding the fields after their setters:
validation, hook, then the insert, which the unique indexes on `email` and `studentId`
reject when a stored document has one of the two. -/
def User.insert (rules : TextRules) (s : Store) (u : User) : Option Store :=
  if rules.user u.name u.email u.studentId u.phone then
    if s.users.any (fun x => x.email == u.email || x.studentId == u.studentId) then none
    else some { s with users := s.users ++ [u.preSave rules], nextId := s.nextId + 1 }
  else none

/-- Model of `User.findByIdAndUpdate(id, fields, { new: true, runValidators: true })`, `u`
holding the fields after their setters; no validator of the User schema reads `this`.
No save hook runs. -/
def User.findByIdAndUpdate (rules : TextRules) (s : Store) (id : Nat) (u : User) :
    Option Store :=
  if rules.user u.name u.email u.studentId u.phone then
    if s.users.any
        (fun x => (x.email == u.email || x.studentId == u.studentId) && x._id != id) then none
    else some { s with users := updateOne (fun x => x._id == id) (fun _ => u) s.users }
  else none

/-- Model of `createUser`.  The filter of `findOne` and the fields of `new User` pass
through the setters of the schema; the response carries the document as saved. -/
def createUser (rules : TextRules) (s : Store) (body : UserBody) : Response × Store :=
  match s.users.find? (fun u =>
      u.email == rules.setEmail body.email ||
        u.studentId == rules.setStudentId body.studentId) with
  | some _ => (⟨400, false, "User with this email or student ID already exists", none⟩, s)
  | none =>
    let user : User :=
      { _id := s.nextId, name := rules.trim body.name, email := rules.setEmail body.email,
        studentId := rules.setStudentId body.studentId, phone := rules.trim body.phone }
    match User.insert rules s user with
    | none => (⟨500, false, "Error creating user", none⟩, s)
    | some s1 =>
      (⟨201, true, "User created successfully", some (Doc.user (user.preSave rules))⟩, s1)

/-- The tail of `updateUser`, from `findByIdAndUpdate` on.  The fields of the update pass
through the setters of the schema. -/
def updateUserFields (rules : TextRules) (s : Store) (id : Nat) (body : UserUpdate)
    (user : User) : Response × Store :=
  let updated : User :=
    { _id := user._id,
      name := rules.trim (orStr body.name user.name),
      email := rules.setEmail (orStr body.email user.email),
      studentId := rules.setStudentId (orStr body.studentId user.studentId),
      phone := rules.trim (orStr body.phone user.phone) }
  match User.findByIdAndUpdate rules s id updated with
  | none => (⟨500, false, "Error updating user", none⟩, s)
  | some s1 => (⟨200, true, "User updated successfully", some (Doc.user updated)⟩, s1)

/-- Model of `updateUser`.  The filter of `findOne` passes through the setters of the
schema. -/
def updateUser (rules : TextRules) (s : Store) (id : Nat) (body : UserUpdate) :
    Response × Store :=
  match User.findById s id with
  | none => (⟨404, false, "User not found", none⟩, s)
  | some user =>
    if truthyStr body.email || truthyStr body.studentId then
      match s.users.find? (fun u =>
          (u.email == rules.setEmail (orStr body.email user.email) ||
            u.studentId == rules.setStudentId (orStr body.studentId user.studentId)) &&
              u._id != id) with
      | some _ =>
        (⟨400, false, "Email or Student ID already exists for another user", none⟩, s)
      | none => updateUserFields rules s id body user
    else updateUserFields rules s id body user

/-- Model of `deleteUser`. -/
def deleteUser (s : Store) (id : Nat) : Response × Store :=
  match User.findById s id with
  | none => (⟨404, false, "User not found", none⟩, s)
  | some _ =>
    let activeAssignments := s.assignments.countP (activeForUser id)
    if activeAssignments > 0 then
      (⟨400, false, "Cannot delete user with active book assignments", none⟩, s)
    else
      (⟨200, true, "User deleted successfully", none⟩,
        { s with users := s.users.eraseP (fun u => u._id == id) })

/-! ## Derived fields of models/Assignment.js -/

/-- Model of `Math.ceil(a / b)` for a positive divisor `b` (the operands are far below
`2^53`, where the double quotient and the exact one have the same ceiling). -/
def ceilDiv (a b : Int) : Int :=
  if a % b = 0 then a / b else a / b + 1

/-- The virtual `isOverdue`; `now` is its `new Date()`. -/
def Assignment.isOverdue (a : Assignment) (now : Int) : Bool :=
  if a.status = Status.returned then false else decide (now > a.dueDate)

/-- The virtual `daysOverdue`; `now` is the `new Date()` of the `isOverdue` it reads,
`now + lag` its own `new Date()`. -/
def Assignment.daysOverdue (a : Assignment) (now : Int) (lag : Nat) : Int :=
  if a.status = Status.returned ∨ a.isOverdue now = false then 0
  else
    let diffTime := |now + lag - a.dueDate|
    ceilDiv diffTime (1000 * 60 * 60 * 24)

/-! ## Saving a new loan document -/

/-- The fields handed to `new Assignment({ .. })`; all but the two references may be
left out. -/
structure AssignmentFields where
  bookId : Nat
  userId : Nat
  issueDate : Option Int
  dueDate : Option Int
  returnDate : Option Int
  status : Option Status
  deriving DecidableEq, Repr

/-- A new loan document before it is saved; `dueDate` may still be missing. -/
structure AssignmentDraft where
  _id : Nat
  bookId : Nat
  userId : Nat
  issueDate : Int
  dueDate : Option Int
  returnDate : Option Int
  status : Status
  deriving DecidableEq, Repr

/-- Model of `new Assignment(fields)`: the schema defaults are applied (`issueDate: Date.now`,
`returnDate: null`, `status: 'issued'`); `dueDate` has no schema default. -/
def Assignment.construct (id : Nat) (now : Int) (f : AssignmentFields) : AssignmentDraft :=
  { _id := id, bookId := f.bookId, userId := f.userId,
    issueDate := f.issueDate.getD now,
    dueDate := f.dueDate,
    returnDate := f.returnDate,
    status := f.status.getD Status.issued }

/-- Validators of the Assignment schema on a new document: `dueDate` is required and
must satisfy `v > this.issueDate`; `returnDate` must satisfy `!v || v >= this.issueDate`. -/
def AssignmentDraft.validate (d : AssignmentDraft) : Bool :=
  match d.dueDate with
  | none => false
  | some due =>
    decide (due > d.issueDate) &&
      (match d.returnDate with
       | none => true
       | some r => decide (r ≥ d.issueDate))

/-- The `pre('save')` hook of `models/Assignment.js` on a new document (`this.isNew`):
a missing `dueDate` becomes `issueDate.getTime() + 14 * 24 * 60 * 60 * 1000`, and a
returned document without `returnDate` gets the current time. -/
def AssignmentDraft.preSave (now : Int) (d : AssignmentDraft) : AssignmentDraft :=
  let d1 :=
    match d.dueDate with
    | none => { d with dueDate := some (d.issueDate + 14 * 24 * 60 * 60 * 1000) }
    | some _ => d
  if d1.status = Status.returned ∧ d1.returnDate = none then
    { d1 with returnDate := some now }
  else d1

/-- The stored document of a draft that carries a `dueDate`. -/
def AssignmentDraft.toAssignment (d : AssignmentDraft) : Option Assignment :=
  match d.dueDate with
  | none => none
  | some due =>
    some { _id := d._id, bookId := d.bookId, userId := d.userId, issueDate := d.issueDate,
           dueDate := due, returnDate := d.returnDate, status := d.status }

/-- Model of `new Assignment(fields).save()`: Mongoose validates the document, and only
then runs the `pre('save')` hooks of the schema and inserts; the unique index on
`(bookId, userId)` restricted to `status: 'issued'` can reject the insert. -/
def Assignment.saveNew (s : Store) (now : Int) (f : AssignmentFields) : Option Store :=
  let d := Assignment.construct s.nextId now f
  if d.validate then
    match (d.preSave now).toAssignment with
    | none => none
    | some a =>
      if a.status = Status.issued ∧ s.assignments.any (activeFor a.bookId a.userId) then none
      else some { s with assignments := s.assignments ++ [a], nextId := s.nextId + 1 }
  else none

/-! ## Pagination -/

/-- The object returned by `getPaginationInfo` of `utils/helpers.js`. -/
structure PaginationInfo where
  currentPage : Int
  totalPages : Int
  totalItems : Int
  itemsPerPage : Int
  hasNextPage : Bool
  hasPrevPage : Bool
  nextPage : Option Int
  prevPage : Option Int
  deriving DecidableEq, Repr

/-- Model of `getPaginationInfo` for a positive `limit`. -/
def getPaginationInfo (page limit total : Int) : PaginationInfo :=
  let totalPages := ceilDiv total limit
  { currentPage := page,
    totalPages := totalPages,
    totalItems := total,
    itemsPerPage := limit,
    hasNextPage := decide (page < totalPages),
    hasPrevPage := decide (page > 1),
    nextPage := if page < totalPages then some (page + 1) else none,
    prevPage := if page > 1 then some (page - 1) else none }

/-- The `pagination` object of the responses of `getAllBooks` and `getAssignmentHistory`. -/
structure PageReport where
  currentPage : Int
  totalPages : Int
  total : Int
  hasNextPage : Bool
  hasPrevPage : Bool
  deriving DecidableEq, Repr

/-- The `pagination` object that `getAllBooks` and `getAssignmentHistory` build from the
parsed `page` and `limit` and the document count, for a positive `limit`. -/
def pageReport (page limit total : Int) : PageReport :=
  { currentPage := page,
    totalPages := ceilDiv total limit,
    total := total,
    hasNextPage := decide (page < ceilDiv total limit),
    hasPrevPage := decide (page > 1) }

/-! ## Requests that overlap, storage calls that fail -/

/-- The arguments of one `issueBook` request and its two clock readings. -/
structure IssueRequest where
  now : Int
  lag : Nat
  bookId : Nat
  userId : Nat
  deriving DecidableEq, Repr

/-- Where a running `issueBook` request stands: the `await` at which it is suspended,
with the local variables that are live there, or the response it has sent. -/
inductive IssuePc where
  | findBook
  | findUser (book : Book)
  | findLoan (book : Book)
  | saveLoan (book : Book)
  | saveBook (book : Book) (assignment : Assignment)
  | populate (assignment : Assignment)
  | done (res : Response)
  deriving DecidableEq, Repr

/-- How the awaited storage call ends: it runs against the store, or it throws for a
reason of its own (connection lost, time-out) without touching the store. -/
inductive Outcome where
  | ok
  | throws
  deriving DecidableEq, Repr

/-- One step of a running `issueBook` request: the awaited storage call is made against
the store as it is now, and the code up to the next `await` (or to the response) runs.
A call that throws lands in the `catch` block.  The new loan takes its id when its insert
runs. -/
def IssuePc.step (req : IssueRequest) (s : Store) (o : Outcome) (pc : IssuePc) :
    IssuePc × Store :=
  match pc, o with
  | IssuePc.done res, _ => (IssuePc.done res, s)
  | _, Outcome.throws => (IssuePc.done ⟨500, false, "Error issuing book", none⟩, s)
  | IssuePc.findBook, Outcome.ok =>
    match Book.findById s req.bookId with
    | none => (IssuePc.done ⟨404, false, "Book not found", none⟩, s)
    | some book =>
      if book.availableCopies ≤ 0 then
        (IssuePc.done ⟨400, false, "Book is not available for issue", none⟩, s)
      else (IssuePc.findUser book, s)
  | IssuePc.findUser book, Outcome.ok =>
    match User.findById s req.userId with
    | none => (IssuePc.done ⟨404, false, "User not found", none⟩, s)
    | some _ => (IssuePc.findLoan book, s)
  | IssuePc.findLoan book, Outcome.ok =>
    match s.assignments.find? (activeFor req.bookId req.userId) with
    | some _ =>
      (IssuePc.done ⟨400, false, "User has already borrowed this book", none⟩, s)
    | none => (IssuePc.saveLoan book, s)
  | IssuePc.saveLoan book, Outcome.ok =>
    let assignment : Assignment :=
      { _id := s.nextId, bookId := req.bookId, userId := req.userId,
        issueDate := req.now, dueDate := addDays (req.now + req.lag) 14,
        returnDate := none, status := Status.issued }
    match Assignment.insert s req.now assignment with
    | none => (IssuePc.done ⟨500, false, "Error issuing book", none⟩, s)
    | some s1 => (IssuePc.saveBook book assignment, s1)
  | IssuePc.saveBook book assignment, Outcome.ok =>
    match Book.save s { book with availableCopies := book.availableCopies - 1 } with
    | none => (IssuePc.done ⟨500, false, "Error issuing book", none⟩, s)
    | some s2 => (IssuePc.populate assignment, s2)
  | IssuePc.populate assignment, Outcome.ok =>
    (IssuePc.done ⟨201, true, "Book issued successfully",
      (Assignment.findById s assignment._id).map Doc.assignment⟩, s)

/-- The response of a request that has answered. -/
def IssuePc.answer : IssuePc → Option Response
  | IssuePc.done res => some res
  | _ => none

/-- A request run on its own from a given point, one storage call after the other. -/
def IssuePc.run (req : IssueRequest) : Store → IssuePc → List Outcome → IssuePc × Store
  | s, pc, [] => (pc, s)
  | s, pc, o :: os => IssuePc.run req (IssuePc.step req s o pc).2 (IssuePc.step req s o pc).1 os

/-- Two `issueBook` requests in flight and the store they share. -/
structure Race where
  store : Store
  left : IssuePc
  right : IssuePc
  deriving DecidableEq, Repr

/-- Which of the two requests makes its next storage call, and how the call ends. -/
inductive Turn where
  | left (o : Outcome)
  | right (o : Outcome)
  deriving DecidableEq, Repr

/-- One turn of two overlapping requests. -/
def Race.step (reqL reqR : IssueRequest) (c : Race) : Turn → Race
  | Turn.left o =>
    { c with store := (IssuePc.step reqL c.store o c.left).2,
             left := (IssuePc.step reqL c.store o c.left).1 }
  | Turn.right o =>
    { c with store := (IssuePc.step reqR c.store o c.right).2,
             right := (IssuePc.step reqR c.store o c.right).1 }

/-- A schedule of turns. -/
def Race.run (reqL reqR : IssueRequest) : Race → List Turn → Race
  | c, [] => c
  | c, t :: ts => Race.run reqL reqR (Race.step reqL reqR c t) ts

/-- The six storage calls of a request, none of them throwing. -/
def sixCalls : List Outcome :=
  [Outcome.ok, Outcome.ok, Outcome.ok, Outcome.ok, Outcome.ok, Outcome.ok]

/-- The schedule in which the left request runs to its response before the right one
starts. -/
def oneAfterTheOther : List Turn :=
  sixCalls.map Turn.left ++ sixCalls.map Turn.right

/-- Two requests overlap: each makes its three reads before the other inserts its loan;
then the left one inserts, and the right one inserts. -/
def readsThenInserts : List Turn :=
  [Turn.left Outcome.ok, Turn.left Outcome.ok, Turn.left Outcome.ok,
   Turn.right Outcome.ok, Turn.right Outcome.ok, Turn.right Outcome.ok,
   Turn.left Outcome.ok, Turn.right Outcome.ok]

/-- Two requests overlap: both read the book before either saves it, then each runs to
its response. -/
def bothReadFirst : List Turn :=
  [Turn.left Outcome.ok, Turn.right Outcome.ok,
   Turn.left Outcome.ok, Turn.left Outcome.ok, Turn.left Outcome.ok, Turn.left Outcome.ok,
   Turn.left Outcome.ok,
   Turn.right Outcome.ok, Turn.right Outcome.ok, Turn.right Outcome.ok, Turn.right Outcome.ok,
   Turn.right Outcome.ok]

/-- Two requests that have just arrived. -/
def Race.start (s : Store) : Race :=
  { store := s, left := IssuePc.findBook, right := IssuePc.findBook }

/-! ## Sequences of requests -/

/-- One request to a mutating controller, with the clock readings it makes. -/
inductive Op where
  | issueBook (now : Int) (lag : Nat) (bookId userId : Nat)
  | returnBook (now : Int) (assignmentId : Nat)
  | createBook (body : BookBody)
  | updateBook (id : Nat) (body : BookUpdate)
  | deleteBook (id : Nat)
  | createUser (body : UserBody)
  | updateUser (id : Nat) (body : UserUpdate)
  | deleteUser (id : Nat)
  deriving DecidableEq, Repr

/-- Serve one request. -/
def step (rules : TextRules) (s : Store) : Op → Response × Store
  | Op.issueBook now lag bookId userId => issueBook s now lag bookId userId
  | Op.returnBook now assignmentId => returnBook s now assignmentId
  | Op.createBook body => createBook rules s body
  | Op.updateBook id body => updateBook rules s id body
  | Op.deleteBook id => deleteBook s id
  | Op.createUser body => createUser rules s body
  | Op.updateUser id body => updateUser rules s id body
  | Op.deleteUser id => deleteUser s id

/-- Serve a sequence of requests one after the other. -/
def run (rules : TextRules) (s : Store) : List Op → Store
  | [] => s
  | op :: ops => run rules (step rules s op).2 ops

/-- Text rules whose validators accept every document and whose setters leave text as it
is; on text that is already in the form the setters give (as the sample data below) the
setters of the schemas do the same. -/
def TextRules.permissive : TextRules :=
  ⟨fun _ _ _ _ => true, fun _ _ _ _ => true, id, id, id, id⟩

/-! ## Properties of stores -/

/-- A stored loan for the pair `(bookId, userId)` with status `issued`. -/
def HasActiveLoan (s : Store) (bookId userId : Nat) : Prop :=
  ∃ a ∈ s.assignments, a.bookId = bookId ∧ a.userId = userId ∧ a.status = Status.issued

instance (s : Store) (bookId userId : Nat) : Decidable (HasActiveLoan s bookId userId) := by
  unfold HasActiveLoan
  infer_instance

/-- Inventory bounds of one book: `0 ≤ availableCopies ≤ totalCopies`. -/
def Book.InBounds (b : Book) : Prop :=
  0 ≤ b.availableCopies ∧ b.availableCopies ≤ b.totalCopies

/-- Every book of the store is within its inventory bounds. -/
def BoundsInv (s : Store) : Prop :=
  ∀ b ∈ s.books, b.InBounds

instance (b : Book) : Decidable b.InBounds := by
  unfold Book.InBounds
  infer_instance

instance (s : Store) : Decidable (BoundsInv s) := by
  unfold BoundsInv
  infer_instance

/-- Number of stored loans of a book with status `issued`
(`Assignment.countDocuments({ bookId, status: 'issued' })`). -/
def issuedCount (s : Store) (bookId : Nat) : Nat :=
  s.assignments.countP (activeForBook bookId)

/-- Inventory-ledger consistency: for every book, the copies that are not available are
exactly its issued loans. -/
def LedgerInv (s : Store) : Prop :=
  ∀ b ∈ s.books, b.totalCopies - b.availableCopies = (issuedCount s b._id : Int)

/-- What holds of every store that the controllers build from the empty one: ledger
consistency, the number rules of the Book schema, distinct book ids, and ids of books and
of the books referred to by loans below `nextId`. -/
structure StoreInv (s : Store) : Prop where
  ledger : LedgerInv s
  schema : ∀ b ∈ s.books, 1 ≤ b.totalCopies ∧ b.totalCopies ≤ 1000 ∧ 0 ≤ b.availableCopies
  bookIds : (s.books.map (fun b => b._id)).Nodup
  bookFresh : ∀ b ∈ s.books, b._id < s.nextId
  loanRefs : ∀ a ∈ s.assignments, a.bookId < s.nextId

/-- Anti-double-borrow: for every pair `(bookId, userId)` the ledger holds at most one
loan with status `issued`. -/
def AtMostOneActive (s : Store) : Prop :=
  ∀ bookId userId, s.assignments.countP (activeFor bookId userId) ≤ 1

instance (s : Store) : Decidable (LedgerInv s) := by
  unfold LedgerInv
  infer_instance

/-! ## Two requests for one book -/

/-- The outcome of the storage call of a turn. -/
def Turn.outcome : Turn → Outcome
  | Turn.left o => o
  | Turn.right o => o

/-- The turns of the left request. -/
def Turn.isLeft : Turn → Bool
  | Turn.left _ => true
  | Turn.right _ => false

/-- The turns of the right request. -/
def Turn.isRight : Turn → Bool
  | Turn.left _ => false
  | Turn.right _ => true

/-- Number of storage calls a request has behind it, 6 once it has answered. -/
def IssuePc.stage : IssuePc → Nat
  | IssuePc.findBook => 0
  | IssuePc.findUser _ => 1
  | IssuePc.findLoan _ => 2
  | IssuePc.saveLoan _ => 3
  | IssuePc.saveBook _ _ => 4
  | IssuePc.populate _ => 5
  | IssuePc.done _ => 6

/-- The book document that a suspended request holds in its variable `book` and will
still use. -/
def IssuePc.snapshot : IssuePc → Option Book
  | IssuePc.findUser b => some b
  | IssuePc.findLoan b => some b
  | IssuePc.saveLoan b => some b
  | IssuePc.saveBook b _ => some b
  | _ => none

/-- The request has inserted its loan and has not failed: it is about to save the book, or
to build its response, or it has answered 201. -/
def IssuePc.committed : IssuePc → Prop
  | IssuePc.saveBook _ _ => True
  | IssuePc.populate _ => True
  | IssuePc.done res => res.status = 201
  | _ => False

/-- The request has saved the book and has not failed: it is about to build its response,
or it has answered 201. -/
def IssuePc.saved : IssuePc → Prop
  | IssuePc.populate _ => True
  | IssuePc.done res => res.status = 201
  | _ => False

/-- The answers of a request that finds the other one ahead of it: 'Book is not available
for issue' and, when both requests name the same user, 'User has already borrowed this
book' or the 500 of an insert that the unique index rejects. -/
def LostRace (sameUser : Prop) (res : Response) : Prop :=
  res = ⟨400, false, "Book is not available for issue", none⟩ ∨
  (sameUser ∧
    (res = ⟨400, false, "User has already borrowed this book", none⟩ ∨
      res = ⟨500, false, "Error issuing book", none⟩))

/-- What holds at every moment of two requests for a book that was stored as `book`,
storage calls that throw included: the book is stored as it was or with
`availableCopies = 0`, and a suspended request holds the book as it was. -/
structure PairBounds (bookId : Nat) (book : Book) (st : Store) (a b : IssuePc) : Prop where
  stored : Book.findById st bookId = some book ∨
    Book.findById st bookId = some { book with availableCopies := 0 }
  snapA : ∀ x, a.snapshot = some x → x = book
  snapB : ∀ x, b.snapshot = some x → x = book

/-- What holds at every moment of two requests `reqA`, `reqB` for a book that was stored as
`book` in the store `s0`, when no storage call throws: the users are those of `s0`; the
book is stored as it was, or with `availableCopies = 0` by a request that has saved it; an
issued loan for the pair of a request was inserted by a request for that pair; and a
request that has answered something else than 201 has found the other one ahead of it. -/
structure PairInv (s0 : Store) (bookId : Nat) (book : Book) (reqA reqB : IssueRequest)
    (st : Store) (a b : IssuePc) : Prop where
  users : st.users = s0.users
  stored : Book.findById st bookId = some book ∨
    (Book.findById st bookId = some { book with availableCopies := 0 } ∧
      (a.saved ∨ b.saved))
  snapA : ∀ x, a.snapshot = some x → x = book
  snapB : ∀ x, b.snapshot = some x → x = book
  loanA : HasActiveLoan st bookId reqA.userId →
    a.committed ∨ (b.committed ∧ reqA.userId = reqB.userId)
  loanB : HasActiveLoan st bookId reqB.userId →
    b.committed ∨ (a.committed ∧ reqB.userId = reqA.userId)
  doneA : ∀ res, a = IssuePc.done res →
    res.status = 201 ∨ (b.committed ∧ LostRace (reqA.userId = reqB.userId) res)
  doneB : ∀ res, b = IssuePc.done res →
    res.status = 201 ∨ (a.committed ∧ LostRace (reqB.userId = reqA.userId) res)

/-! ## A sample store -/

/-- Sample book. -/
def sampleBook (id : Nat) (total available : Int) : Book :=
  { _id := id, title := "Dune", author := "Frank Herbert", isbn := "0441172717",
    totalCopies := total, availableCopies := available, category := "Fiction" }

/-- Sample user. -/
def sampleUser (id : Nat) : User :=
  { _id := id, name := "Ann Lee", email := "ann@lib.org", studentId := "S100",
    phone := "0123456789" }

/-- Sample loan issued at time `1000`. -/
def sampleLoan (id bookId userId : Nat) (status : Status) (returned : Option Int) : Assignment :=
  { _id := id, bookId := bookId, userId := userId, issueDate := 1000,
    dueDate := addDays 1000 14, returnDate := returned, status := status }

/-- Two books, two users and three loans: book 1 has one of its three copies out (to
user 4, user 3 has returned his), book 2 has its only copy out (to user 4). -/
def sampleStore : Store :=
  { books := [sampleBook 1 3 2, sampleBook 2 1 0],
    users := [sampleUser 3, sampleUser 4],
    assignments :=
      [sampleLoan 5 2 4 Status.issued none, sampleLoan 6 1 4 Status.issued none,
       sampleLoan 7 1 3 Status.returned (some 2000)],
    nextId := 8 }

/-- One book with all its three copies on the shelf, one user, no loan. -/
def shelfStore : Store :=
  { books := [sampleBook 1 3 3], users := [sampleUser 2], assignments := [], nextId := 3 }

/-- One book with a single copy, on the shelf, one user, no loan. -/
def lastCopyStore : Store :=
  { books := [sampleBook 1 1 1], users := [sampleUser 2], assignments := [], nextId := 3 }

/-- A ledger with an issued loan of book 9, which is not in the store. -/
def orphanStore : Store :=
  { books := [sampleBook 1 3 3], users := [sampleUser 2],
    assignments := [sampleLoan 5 9 2 Status.issued none], nextId := 10 }

/-- A book is added with three copies, a user is registered and borrows the book, then an
update of the book to five copies is asked for. -/
def sampleOps : List Op :=
  [Op.createBook ⟨"Dune", "Frank Herbert", "0441172717", 3, "Fiction"⟩,
   Op.createUser ⟨"Ann Lee", "ann@lib.org", "S100", "0123456789"⟩,
   Op.issueBook 3000 0 0 1,
   Op.updateBook 0 ⟨none, none, none, some 5, none⟩]

/-- A second sample user. -/
def otherUser (id : Nat) : User :=
  { _id := id, name := "Bob Ray", email := "bob@lib.org", studentId := "S200",
    phone := "0987654321" }

/-- One book with a single copy, on the shelf, and two users. -/
def raceStore : Store :=
  { books := [sampleBook 1 1 1], users := [sampleUser 2, otherUser 3], assignments := [],
    nextId := 4 }

/-! ## Lemmas on the collection primitives -/

theorem updateOne_length {α : Type} (p : α → Bool) (f : α → α) (l : List α) :
    (updateOne p f l).length = l.length := by
  induction l with
  | nil => rfl
  | cons x xs ih =>
    unfold updateOne
    split <;> simp [ih]

theorem updateOne_of_find_none {α : Type} (p : α → Bool) (f : α → α) (l : List α)
    (h : l.find? p = none) : updateOne p f l = l := by
  induction l with
  | nil => rfl
  | cons x xs ih =>
    unfold updateOne
    by_cases hx : p x = true
    · simp [List.find?_cons, hx] at h
    · simp only [Bool.not_eq_true] at hx
      simp only [List.find?_cons, hx] at h
      simp [hx, ih h]

theorem find_split {α : Type} (p : α → Bool) (l : List α) (x : α)
    (h : l.find? p = some x) :
    ∃ pre post, l = pre ++ x :: post ∧ (∀ y ∈ pre, p y = false) ∧ p x = true := by
  induction l with
  | nil => simp at h
  | cons y ys ih =>
    by_cases hy : p y = true
    · simp only [List.find?_cons, hy, Option.some.injEq] at h
      subst h
      exact ⟨[], ys, rfl, by simp, hy⟩
    · simp only [Bool.not_eq_true] at hy
      simp only [List.find?_cons, hy] at h
      obtain ⟨pre, post, hl, hpre, hx⟩ := ih h
      refine ⟨y :: pre, post, by simp [hl], ?_, hx⟩
      intro z hz
      rcases List.mem_cons.1 hz with rfl | hz
      · exact hy
      · exact hpre z hz

theorem updateOne_append {α : Type} (p : α → Bool) (f : α → α) (pre post : List α) (x : α)
    (hpre : ∀ y ∈ pre, p y = false) (hx : p x = true) :
    updateOne p f (pre ++ x :: post) = pre ++ f x :: post := by
  induction pre with
  | nil => simp [updateOne, hx]
  | cons y ys ih =>
    have hy : p y = false := hpre y (List.mem_cons_self _ _)
    have := ih (fun z hz => hpre z (List.mem_cons_of_mem _ hz))
    simp [updateOne, hy, this]

theorem eraseP_append_first {α : Type} (p : α → Bool) (pre post : List α) (x : α)
    (hpre : ∀ y ∈ pre, p y = false) (hx : p x = true) :
    (pre ++ x :: post).eraseP p = pre ++ post := by
  induction pre with
  | nil => simp [List.eraseP_cons, hx]
  | cons y ys ih =>
    have hy : p y = false := hpre y (List.mem_cons_self _ _)
    have := ih (fun z hz => hpre z (List.mem_cons_of_mem _ hz))
    simp [List.eraseP_cons, hy, this]

theorem find_append_first {α : Type} (q : α → Bool) (pre post : List α) (x : α)
    (hpre : ∀ y ∈ pre, q y = false) :
    (pre ++ x :: post).find? q = if q x then some x else post.find? q := by
  induction pre with
  | nil => simp [List.find?_cons]; split <;> simp_all
  | cons y ys ih =>
    have hy : q y = false := hpre y (List.mem_cons_self _ _)
    have := ih (fun z hz => hpre z (List.mem_cons_of_mem _ hz))
    simp [List.find?_cons, hy, this]

/-! ## Issuing a loan -/

theorem activeFor_iff (bookId userId : Nat) (a : Assignment) :
    activeFor bookId userId a = true ↔
      a.bookId = bookId ∧ a.userId = userId ∧ a.status = Status.issued := by
  simp [activeFor, and_assoc]

theorem find_activeFor_isSome (s : Store) (bookId userId : Nat) :
    HasActiveLoan s bookId userId ↔
      ∃ a, s.assignments.find? (activeFor bookId userId) = some a := by
  constructor
  · rintro ⟨a, ha, h⟩
    cases hf : s.assignments.find? (activeFor bookId userId) with
    | some x => exact ⟨x, rfl⟩
    | none =>
      rw [List.find?_eq_none] at hf
      exact absurd ((activeFor_iff _ _ _).2 h) (hf a ha)
  · rintro ⟨a, ha⟩
    exact ⟨a, List.mem_of_find?_eq_some ha, (activeFor_iff _ _ _).1 (List.find?_some ha)⟩

theorem find_activeFor_none (s : Store) (bookId userId : Nat) :
    ¬ HasActiveLoan s bookId userId ↔
      s.assignments.find? (activeFor bookId userId) = none := by
  rw [find_activeFor_isSome]
  cases s.assignments.find? (activeFor bookId userId) <;> simp

theorem any_activeFor_false (s : Store) (bookId userId : Nat)
    (h : s.assignments.find? (activeFor bookId userId) = none) :
    s.assignments.any (activeFor bookId userId) = false := by
  rw [List.find?_eq_none] at h
  rw [List.any_eq_false]
  exact h

/-- The loan document that `issueBook` builds. -/
theorem newLoan_validate (id bookId userId : Nat) (now : Int) (lag : Nat) :
    Assignment.validate
      { _id := id, bookId := bookId, userId := userId, issueDate := now,
        dueDate := addDays (now + lag) 14, returnDate := none, status := Status.issued }
      = true := by
  simp only [Assignment.validate, addDays, msPerDay, Bool.and_true, decide_eq_true_eq]
  omega

/-- When the four checks pass, the insert of the new loan is accepted. -/
theorem insert_newLoan (s : Store) (now : Int) (lag : Nat) (bookId userId : Nat)
    (hf : s.assignments.find? (activeFor bookId userId) = none) :
    Assignment.insert s now
      { _id := s.nextId, bookId := bookId, userId := userId, issueDate := now,
        dueDate := addDays (now + lag) 14, returnDate := none, status := Status.issued }
      = some { s with
          assignments := s.assignments ++
            [{ _id := s.nextId, bookId := bookId, userId := userId, issueDate := now,
               dueDate := addDays (now + lag) 14, returnDate := none,
               status := Status.issued }],
          nextId := s.nextId + 1 } := by
  have hany := any_activeFor_false s bookId userId hf
  simp [Assignment.insert, newLoan_validate, Assignment.preSave, hany]

/-- C1: `issueBook` checks its four preconditions in a fixed order and reports the first
one that fails: a missing book gives 404 'Book not found' whatever the user is; otherwise
a book with `availableCopies <= 0` gives 400 'Book is not available for issue' whatever the
user and the ledger are; otherwise a missing user gives 404 'User not found'; otherwise an
issued loan for the pair gives 400 'User has already borrowed this book'; and the call
answers 201 only when all four checks pass. -/
theorem issueBook_precondition_order (s : Store) (now : Int) (lag : Nat)
    (bookId userId : Nat) :
    (Book.findById s bookId = none →
      (issueBook s now lag bookId userId).1.status = 404 ∧
      (issueBook s now lag bookId userId).1.message = "Book not found") ∧
    (∀ book, Book.findById s bookId = some book → book.availableCopies ≤ 0 →
      (issueBook s now lag bookId userId).1.status = 400 ∧
      (issueBook s now lag bookId userId).1.message = "Book is not available for issue") ∧
    (∀ book, Book.findById s bookId = some book → 0 < book.availableCopies →
      User.findById s userId = none →
      (issueBook s now lag bookId userId).1.status = 404 ∧
      (issueBook s now lag bookId userId).1.message = "User not found") ∧
    (∀ book user, Book.findById s bookId = some book → 0 < book.availableCopies →
      User.findById s userId = some user → HasActiveLoan s bookId userId →
      (issueBook s now lag bookId userId).1.status = 400 ∧
      (issueBook s now lag bookId userId).1.message = "User has already borrowed this book") ∧
    ((issueBook s now lag bookId userId).1.status = 201 →
      ∃ book user, Book.findById s bookId = some book ∧ 0 < book.availableCopies ∧
        User.findById s userId = some user ∧ ¬ HasActiveLoan s bookId userId) := by
  refine ⟨?_, ?_, ?_, ?_, ?_⟩
  · intro hb
    simp [issueBook, hb]
  · intro book hb ha
    simp [issueBook, hb, ha]
  · intro book hb ha hu
    simp [issueBook, hb, not_le.2 ha, hu]
  · intro book user hb ha hu hl
    obtain ⟨a, hfa⟩ := (find_activeFor_isSome s bookId userId).1 hl
    simp [issueBook, hb, not_le.2 ha, hu, hfa]
  · intro h
    unfold issueBook at h
    cases hb : Book.findById s bookId with
    | none => simp [hb] at h
    | some book =>
      by_cases ha : book.availableCopies ≤ 0
      · simp [hb, ha] at h
      · cases hu : User.findById s userId with
        | none => simp [hb, ha, hu] at h
        | some user =>
          cases hf : s.assignments.find? (activeFor bookId userId) with
          | some a => simp [hb, ha, hu, hf] at h
          | none =>
            exact ⟨book, user, rfl, not_le.1 ha, rfl, (find_activeFor_none s bookId userId).2 hf⟩

/-- Witness for C1 on the sample store: an unknown book, the book without a free copy
(asked for by an unknown user), an unknown user, the pair that already holds a loan, and
a call that passes the four checks. -/
theorem issueBook_precondition_order_witness :
    ((issueBook sampleStore 3000 0 9 77).1.status = 404 ∧
      (issueBook sampleStore 3000 0 9 77).1.message = "Book not found") ∧
    ((issueBook sampleStore 3000 0 2 77).1.status = 400 ∧
      (issueBook sampleStore 3000 0 2 77).1.message = "Book is not available for issue") ∧
    ((issueBook sampleStore 3000 0 1 77).1.status = 404 ∧
      (issueBook sampleStore 3000 0 1 77).1.message = "User not found") ∧
    ((issueBook sampleStore 3000 0 1 4).1.status = 400 ∧
      (issueBook sampleStore 3000 0 1 4).1.message = "User has already borrowed this book") ∧
    (∃ book user, Book.findById sampleStore 1 = some book ∧ 0 < book.availableCopies ∧
        User.findById sampleStore 3 = some user ∧ ¬ HasActiveLoan sampleStore 1 3) :=
  ⟨(issueBook_precondition_order sampleStore 3000 0 9 77).1 (by decide),
   (issueBook_precondition_order sampleStore 3000 0 2 77).2.1 (sampleBook 2 1 0)
      (by decide) (by decide),
   (issueBook_precondition_order sampleStore 3000 0 1 77).2.2.1 (sampleBook 1 3 2)
      (by decide) (by decide) (by decide),
   (issueBook_precondition_order sampleStore 3000 0 1 4).2.2.2.1 (sampleBook 1 3 2)
      (sampleUser 4) (by decide) (by decide) (by decide) (by decide),
   (issueBook_precondition_order sampleStore 3000 0 1 3).2.2.2.2 (by decide)⟩

theorem Book.preSave_of_validate (b : Book) (h : b.validate = true) : b.preSave = b := by
  simp only [Book.validate, Bool.and_eq_true, decide_eq_true_eq] at h
  simp [Book.preSave, not_lt.2 h.2]

theorem Book.inBounds_of_validate (b : Book) (h : b.validate = true) : b.InBounds := by
  simp only [Book.validate, Bool.and_eq_true, decide_eq_true_eq] at h
  exact ⟨h.1.2, h.2⟩

/-- The store after an accepted `book.save()`. -/
theorem Book.save_book_eq_some (s s1 : Store) (b : Book) (h : Book.save s b = some s1) :
    b.validate = true ∧
      s1 = { s with books := updateOne (fun x => x._id == b._id) (fun _ => b) s.books } := by
  unfold Book.save at h
  by_cases hv : b.validate = true
  · simp only [hv, if_true, Option.some.injEq] at h
    rw [Book.preSave_of_validate b hv] at h
    exact ⟨hv, h.symm⟩
  · simp [hv] at h

theorem Book.findById_split_books (s : Store) (id : Nat) (book : Book)
    (h : Book.findById s id = some book) :
    ∃ pre post, s.books = pre ++ book :: post ∧ (∀ b ∈ pre, b._id ≠ id) ∧ book._id = id := by
  obtain ⟨pre, post, hl, hpre, hx⟩ := find_split _ _ _ h
  refine ⟨pre, post, hl, ?_, by simpa using hx⟩
  intro b hb
  simpa using hpre b hb

/-- The successful run of `issueBook`, step by step. -/
theorem issueBook_success (s : Store) (now : Int) (lag : Nat) (bookId userId : Nat)
    (h : (issueBook s now lag bookId userId).1.status = 201) :
    ∃ book user, Book.findById s bookId = some book ∧ 0 < book.availableCopies ∧
      User.findById s userId = some user ∧
      s.assignments.find? (activeFor bookId userId) = none ∧
      Book.validate { book with availableCopies := book.availableCopies - 1 } = true ∧
      (issueBook s now lag bookId userId).2 =
        { books := updateOne (fun x => x._id == book._id)
            (fun _ => { book with availableCopies := book.availableCopies - 1 }) s.books,
          users := s.users,
          assignments := s.assignments ++
            [{ _id := s.nextId, bookId := bookId, userId := userId, issueDate := now,
               dueDate := addDays (now + lag) 14, returnDate := none,
               status := Status.issued }],
          nextId := s.nextId + 1 } := by
  unfold issueBook at h
  cases hb : Book.findById s bookId with
  | none => simp [hb] at h
  | some book =>
    by_cases ha : book.availableCopies ≤ 0
    · simp [hb, ha] at h
    · cases hu : User.findById s userId with
      | none => simp [hb, ha, hu] at h
      | some user =>
        cases hf : s.assignments.find? (activeFor bookId userId) with
        | some a => simp [hb, ha, hu, hf] at h
        | none =>
          simp only [hb, ha, hu, hf, if_false, insert_newLoan s now lag bookId userId hf] at h
          cases hs : Book.save
              { s with
                assignments := s.assignments ++
                  [{ _id := s.nextId, bookId := bookId, userId := userId, issueDate := now,
                     dueDate := addDays (now + lag) 14, returnDate := none,
                     status := Status.issued }],
                nextId := s.nextId + 1 }
              { book with availableCopies := book.availableCopies - 1 } with
          | none => simp [hs] at h
          | some s2 =>
            obtain ⟨hv, hs2⟩ := Book.save_book_eq_some _ _ _ hs
            refine ⟨book, user, rfl, not_le.1 ha, rfl, rfl, hv, ?_⟩
            simp [issueBook, hb, ha, hu, hf, insert_newLoan s now lag bookId userId hf, hs, hs2]

/-- C2: a successful `issueBook` appends exactly one loan, for that book and user and with
status `issued`, to the ledger (the loans already there stay as they are), lowers
`availableCopies` of the book by exactly 1 and leaves its other fields, every other book
and every user unchanged. -/
theorem issueBook_success_effect (s : Store) (now : Int) (lag : Nat) (bookId userId : Nat)
    (h : (issueBook s now lag bookId userId).1.status = 201) :
    ∃ book pre post,
      s.books = pre ++ book :: post ∧ (∀ b ∈ pre, b._id ≠ bookId) ∧ book._id = bookId ∧
      (issueBook s now lag bookId userId).2.books =
        pre ++ { book with availableCopies := book.availableCopies - 1 } :: post ∧
      (issueBook s now lag bookId userId).2.users = s.users ∧
      ∃ loan : Assignment,
        (issueBook s now lag bookId userId).2.assignments = s.assignments ++ [loan] ∧
        loan.bookId = bookId ∧ loan.userId = userId ∧ loan.status = Status.issued := by
  obtain ⟨book, user, hb, -, -, -, -, hs⟩ := issueBook_success s now lag bookId userId h
  obtain ⟨pre, post, hl, hpre, hid⟩ := Book.findById_split_books s bookId book hb
  refine ⟨book, pre, post, hl, hpre, hid, ?_, ?_,
    { _id := s.nextId, bookId := bookId, userId := userId, issueDate := now,
      dueDate := addDays (now + lag) 14, returnDate := none, status := Status.issued },
    ?_, rfl, rfl, rfl⟩
  · rw [hs, hl]
    exact updateOne_append _ _ pre post book (by simpa [hid] using hpre) (by simp)
  · rw [hs]
  · rw [hs]

/-- Witness for C2: on the shelf store (one book, total 3, available 3) the call succeeds
and leaves the book with 2 available copies out of 3. -/
theorem issueBook_success_effect_witness :
    (issueBook shelfStore 3000 0 1 2).2.books = [sampleBook 1 3 2] ∧
    ∃ book pre post,
      shelfStore.books = pre ++ book :: post ∧ (∀ b ∈ pre, b._id ≠ 1) ∧ book._id = 1 ∧
      (issueBook shelfStore 3000 0 1 2).2.books =
        pre ++ { book with availableCopies := book.availableCopies - 1 } :: post ∧
      (issueBook shelfStore 3000 0 1 2).2.users = shelfStore.users ∧
      ∃ loan : Assignment,
        (issueBook shelfStore 3000 0 1 2).2.assignments = shelfStore.assignments ++ [loan] ∧
        loan.bookId = 1 ∧ loan.userId = 2 ∧ loan.status = Status.issued :=
  ⟨by decide, issueBook_success_effect shelfStore 3000 0 1 2 (by decide)⟩

/-! ## Inventory bounds -/

theorem mem_updateOne {α : Type} (p : α → Bool) (f : α → α) (l : List α) (x : α)
    (h : x ∈ updateOne p f l) : x ∈ l ∨ ∃ y ∈ l, p y = true ∧ x = f y := by
  induction l with
  | nil => simp [updateOne] at h
  | cons y ys ih =>
    by_cases hy : p y = true
    · have h' : x = f y ∨ x ∈ ys := by simpa [updateOne, hy] using h
      rcases h' with h' | h'
      · exact Or.inr ⟨y, List.mem_cons_self _ _, hy, h'⟩
      · exact Or.inl (List.mem_cons_of_mem _ h')
    · have h' : x = y ∨ x ∈ updateOne p f ys := by simpa [updateOne, hy] using h
      rcases h' with h' | h'
      · exact Or.inl (h' ▸ List.mem_cons_self _ _)
      · rcases ih h' with h1 | ⟨z, hz, hpz, hxz⟩
        · exact Or.inl (List.mem_cons_of_mem _ h1)
        · exact Or.inr ⟨z, List.mem_cons_of_mem _ hz, hpz, hxz⟩

theorem Assignment.insert_loan_eq_some (s s1 : Store) (now : Int) (a : Assignment)
    (h : Assignment.insert s now a = some s1) :
    s1 = { s with assignments := s.assignments ++ [a.preSave now], nextId := s.nextId + 1 } := by
  unfold Assignment.insert at h
  by_cases hv : a.validate = true
  · simp only [hv, if_true] at h
    split at h
    · simp at h
    · simpa using h.symm
  · simp [hv] at h

theorem Assignment.save_loan_eq_some (s s1 : Store) (now : Int) (a : Assignment)
    (h : Assignment.save s now a = some s1) :
    a.validate = true ∧
      s1 = { s with
        assignments := updateOne (fun x => x._id == a._id) (fun _ => a.preSave now) s.assignments } := by
  unfold Assignment.save at h
  by_cases hv : a.validate = true
  · simp only [hv, if_true, Option.some.injEq] at h
    exact ⟨hv, h.symm⟩
  · simp [hv] at h

/-- The validators of an update reject every value of `availableCopies`: the comparison
`v <= this.totalCopies` is made with `undefined`. -/
theorem Book.validateUpdate_eq_false (b : Book) : b.validateUpdate = false := by
  simp [Book.validateUpdate, Book.updateThisTotalCopies, leNum]

/-- Every `Book.findByIdAndUpdate` with `availableCopies` among its fields is rejected. -/
theorem Book.findByIdAndUpdate_eq_none (rules : TextRules) (s : Store) (id : Nat) (b : Book) :
    Book.findByIdAndUpdate rules s id b = none := by
  simp [Book.findByIdAndUpdate, Book.validateUpdate_eq_false]

/-- The tail of `updateBook` leaves the store as it was. -/
theorem updateBookCopies_store (rules : TextRules) (s : Store) (id : Nat) (body : BookUpdate)
    (book : Book) : (updateBookCopies rules s id body book).2 = s := by
  unfold updateBookCopies
  dsimp only
  split
  · rfl
  · rw [Book.findByIdAndUpdate_eq_none]

/-- Controller `updateBook` leaves the store as it was, whatever it answers. -/
theorem updateBook_store (rules : TextRules) (s : Store) (id : Nat) (body : BookUpdate) :
    (updateBook rules s id body).2 = s := by
  unfold updateBook
  split
  · rfl
  · split
    · split
      · rfl
      · exact updateBookCopies_store rules s id body _
    · exact updateBookCopies_store rules s id body _

/-- An accepted `book.save()` keeps the inventory bounds. -/
theorem Book.save_bounds (s s1 : Store) (b : Book) (h : Book.save s b = some s1)
    (hinv : BoundsInv s) : BoundsInv s1 := by
  obtain ⟨hv, rfl⟩ := Book.save_book_eq_some s s1 b h
  intro x hx
  rcases mem_updateOne _ _ _ _ hx with hx | ⟨y, -, -, hxy⟩
  · exact hinv x hx
  · rw [hxy]
    exact Book.inBounds_of_validate b hv

theorem issueBook_bounds (s : Store) (now : Int) (lag : Nat) (bookId userId : Nat)
    (hinv : BoundsInv s) : BoundsInv (issueBook s now lag bookId userId).2 := by
  unfold issueBook
  split
  · exact hinv
  · split
    · exact hinv
    · split
      · exact hinv
      · split
        · exact hinv
        · dsimp only
          split
          · exact hinv
          · rename_i s1 hs1
            have h1 : BoundsInv s1 := by
              rw [Assignment.insert_loan_eq_some _ _ _ _ hs1]
              exact hinv
            split
            · exact h1
            · rename_i s2 hs2
              exact Book.save_bounds s1 s2 _ hs2 h1

theorem returnBook_bounds (s : Store) (now : Int) (assignmentId : Nat)
    (hinv : BoundsInv s) : BoundsInv (returnBook s now assignmentId).2 := by
  unfold returnBook
  split
  · exact hinv
  · split
    · exact hinv
    · split
      · exact hinv
      · rename_i s1 hs1
        have h1 : BoundsInv s1 := by
          rw [(Assignment.save_loan_eq_some _ _ _ _ hs1).2]
          exact hinv
        split
        · exact h1
        · split
          · exact h1
          · rename_i s2 hs2
            exact Book.save_bounds s1 s2 _ hs2 h1

theorem updateBookCopies_bounds (rules : TextRules) (s : Store) (id : Nat) (body : BookUpdate)
    (book : Book) (hinv : BoundsInv s) :
    BoundsInv (updateBookCopies rules s id body book).2 := by
  rw [updateBookCopies_store]
  exact hinv

theorem updateBook_bounds (rules : TextRules) (s : Store) (id : Nat) (body : BookUpdate)
    (hinv : BoundsInv s) : BoundsInv (updateBook rules s id body).2 := by
  unfold updateBook
  split
  · exact hinv
  · split
    · split
      · exact hinv
      · exact updateBookCopies_bounds rules s id body _ hinv
    · exact updateBookCopies_bounds rules s id body _ hinv

/-- C3: if every book of the store satisfies `0 ≤ availableCopies ≤ totalCopies`, then so
does every book of the store left by any `issueBook`, `returnBook` or `updateBook` call,
whatever its arguments and whether it succeeds or fails. -/
theorem inventory_bounds_preserved (rules : TextRules) (s : Store)
    (hinv : ∀ b ∈ s.books, 0 ≤ b.availableCopies ∧ b.availableCopies ≤ b.totalCopies) :
    (∀ now lag bookId userId, ∀ b ∈ (issueBook s now lag bookId userId).2.books,
      0 ≤ b.availableCopies ∧ b.availableCopies ≤ b.totalCopies) ∧
    (∀ now assignmentId, ∀ b ∈ (returnBook s now assignmentId).2.books,
      0 ≤ b.availableCopies ∧ b.availableCopies ≤ b.totalCopies) ∧
    (∀ id body, ∀ b ∈ (updateBook rules s id body).2.books,
      0 ≤ b.availableCopies ∧ b.availableCopies ≤ b.totalCopies) :=
  ⟨fun now lag bookId userId => issueBook_bounds s now lag bookId userId hinv,
   fun now assignmentId => returnBook_bounds s now assignmentId hinv,
   fun id body => updateBook_bounds rules s id body hinv⟩

/-- Witness for C3 on the sample store: a successful issue, a successful return, a return
that is answered 'already returned' and an update that asks for five copies. -/
theorem inventory_bounds_preserved_witness :
    (∀ b ∈ sampleStore.books, 0 ≤ b.availableCopies ∧ b.availableCopies ≤ b.totalCopies) ∧
    (∀ b ∈ (issueBook sampleStore 3000 0 1 3).2.books,
      0 ≤ b.availableCopies ∧ b.availableCopies ≤ b.totalCopies) ∧
    (∀ b ∈ (returnBook sampleStore 3000 6).2.books,
      0 ≤ b.availableCopies ∧ b.availableCopies ≤ b.totalCopies) ∧
    (∀ b ∈ (returnBook sampleStore 3000 7).2.books,
      0 ≤ b.availableCopies ∧ b.availableCopies ≤ b.totalCopies) ∧
    (∀ b ∈ (updateBook TextRules.permissive sampleStore 1
        ⟨none, none, none, some 5, none⟩).2.books,
      0 ≤ b.availableCopies ∧ b.availableCopies ≤ b.totalCopies) :=
  ⟨by decide,
   (inventory_bounds_preserved TextRules.permissive sampleStore (by decide)).1 3000 0 1 3,
   (inventory_bounds_preserved TextRules.permissive sampleStore (by decide)).2.1 3000 6,
   (inventory_bounds_preserved TextRules.permissive sampleStore (by decide)).2.1 3000 7,
   (inventory_bounds_preserved TextRules.permissive sampleStore (by decide)).2.2 1
      ⟨none, none, none, some 5, none⟩⟩

/-! ## The store left by `issueBook` and `returnBook` -/

/-- The loan document built by `issueBook`. -/
theorem issueBook_store (s : Store) (now : Int) (lag : Nat) (bookId userId : Nat) :
    (issueBook s now lag bookId userId).2 = s ∨
    ∃ book, Book.findById s bookId = some book ∧ 0 < book.availableCopies ∧
      s.assignments.find? (activeFor bookId userId) = none ∧
      ((Book.validate { book with availableCopies := book.availableCopies - 1 } = false ∧
        (issueBook s now lag bookId userId).2 =
          { s with
            assignments := s.assignments ++
              [{ _id := s.nextId, bookId := bookId, userId := userId, issueDate := now,
                 dueDate := addDays (now + lag) 14, returnDate := none,
                 status := Status.issued }],
            nextId := s.nextId + 1 }) ∨
       (Book.validate { book with availableCopies := book.availableCopies - 1 } = true ∧
        (issueBook s now lag bookId userId).1.status = 201 ∧
        (issueBook s now lag bookId userId).2 =
          { books := updateOne (fun x => x._id == book._id)
              (fun _ => { book with availableCopies := book.availableCopies - 1 }) s.books,
            users := s.users,
            assignments := s.assignments ++
              [{ _id := s.nextId, bookId := bookId, userId := userId, issueDate := now,
                 dueDate := addDays (now + lag) 14, returnDate := none,
                 status := Status.issued }],
            nextId := s.nextId + 1 })) := by
  cases hb : Book.findById s bookId with
  | none => left; simp [issueBook, hb]
  | some book =>
    by_cases ha : book.availableCopies ≤ 0
    · left; simp [issueBook, hb, ha]
    · cases hu : User.findById s userId with
      | none => left; simp [issueBook, hb, ha, hu]
      | some user =>
        cases hf : s.assignments.find? (activeFor bookId userId) with
        | some a => left; simp [issueBook, hb, ha, hu, hf]
        | none =>
          right
          refine ⟨book, rfl, not_le.1 ha, rfl, ?_⟩
          by_cases hv : Book.validate { book with availableCopies := book.availableCopies - 1 } = true
          · right
            refine ⟨hv, ?_, ?_⟩ <;>
            simp [issueBook, hb, ha, hu, hf, insert_newLoan s now lag bookId userId hf,
              Book.save, hv, Book.preSave_of_validate _ hv]
          · left
            simp only [Bool.not_eq_true] at hv
            refine ⟨hv, ?_⟩
            simp [issueBook, hb, ha, hu, hf, insert_newLoan s now lag bookId userId hf,
              Book.save, hv]

/-- The loan document written by `returnBook`. -/
theorem returned_preSave (a : Assignment) (now : Int) :
    Assignment.preSave now { a with status := Status.returned, returnDate := some now } =
      { a with status := Status.returned, returnDate := some now } := by
  simp [Assignment.preSave]

theorem returnBook_store (s : Store) (now : Int) (assignmentId : Nat) :
    (returnBook s now assignmentId).2 = s ∨
    ∃ loan, Assignment.findById s assignmentId = some loan ∧ loan.status = Status.issued ∧
      Assignment.validate { loan with status := Status.returned, returnDate := some now } = true ∧
      ((Book.findById s loan.bookId = none ∧
        (returnBook s now assignmentId).1.status = 200 ∧
        (returnBook s now assignmentId).2 =
          { s with
            assignments := updateOne (fun x => x._id == loan._id)
              (fun _ => { loan with status := Status.returned, returnDate := some now })
              s.assignments }) ∨
       (∃ book, Book.findById s loan.bookId = some book ∧
        Book.validate { book with availableCopies := book.availableCopies + 1 } = false ∧
        (returnBook s now assignmentId).1.status = 500 ∧
        (returnBook s now assignmentId).2 =
          { s with
            assignments := updateOne (fun x => x._id == loan._id)
              (fun _ => { loan with status := Status.returned, returnDate := some now })
              s.assignments }) ∨
       (∃ book, Book.findById s loan.bookId = some book ∧
        Book.validate { book with availableCopies := book.availableCopies + 1 } = true ∧
        (returnBook s now assignmentId).1.status = 200 ∧
        (returnBook s now assignmentId).2 =
          { s with
            books := updateOne (fun x => x._id == book._id)
              (fun _ => { book with availableCopies := book.availableCopies + 1 }) s.books,
            assignments := updateOne (fun x => x._id == loan._id)
              (fun _ => { loan with status := Status.returned, returnDate := some now })
              s.assignments })) := by
  cases hl : Assignment.findById s assignmentId with
  | none => left; simp [returnBook, hl]
  | some loan =>
    by_cases hst : loan.status = Status.returned
    · left; simp [returnBook, hl, hst]
    · have hiss : loan.status = Status.issued := by
        cases h : loan.status with
        | issued => rfl
        | returned => exact absurd h hst
      by_cases hv : Assignment.validate
          { loan with status := Status.returned, returnDate := some now } = true
      · right
        refine ⟨loan, rfl, hiss, hv, ?_⟩
        cases hb : Book.findById s loan.bookId with
        | none =>
          have hb' : List.find? (fun b => b._id == loan.bookId) s.books = none := hb
          left
          refine ⟨rfl, ?_, ?_⟩ <;>
          simp [returnBook, hl, hst, Assignment.save, hv, returned_preSave, Book.findById, hb']
        | some book =>
          have hb' : List.find? (fun b => b._id == loan.bookId) s.books = some book := hb
          right
          by_cases hbv : Book.validate { book with availableCopies := book.availableCopies + 1 } = true
          · right
            refine ⟨book, rfl, hbv, ?_, ?_⟩ <;>
            simp [returnBook, hl, hst, Assignment.save, hv, returned_preSave, Book.findById, hb',
              Book.save, hbv, Book.preSave_of_validate _ hbv]
          · left
            simp only [Bool.not_eq_true] at hbv
            refine ⟨book, rfl, hbv, ?_, ?_⟩ <;>
            simp [returnBook, hl, hst, Assignment.save, hv, returned_preSave, Book.findById, hb',
              Book.save, hbv]
      · left
        simp only [Bool.not_eq_true] at hv
        simp [returnBook, hl, hst, Assignment.save, hv]

/-! ## Inventory-ledger consistency -/

theorem StoreInv.of_eq {s s' : Store} (h : StoreInv s) (hb : s'.books = s.books)
    (ha : s'.assignments = s.assignments) (hn : s.nextId ≤ s'.nextId) : StoreInv s' := by
  refine ⟨?_, ?_, ?_, ?_, ?_⟩
  · intro b hbm
    rw [hb] at hbm
    simpa [issuedCount, ha] using h.ledger b hbm
  · intro b hbm
    rw [hb] at hbm
    exact h.schema b hbm
  · rw [hb]
    exact h.bookIds
  · intro b hbm
    rw [hb] at hbm
    exact lt_of_lt_of_le (h.bookFresh b hbm) hn
  · intro a ham
    rw [ha] at ham
    exact lt_of_lt_of_le (h.loanRefs a ham) hn

theorem StoreInv.of_empty : StoreInv Store.empty := by
  refine ⟨?_, ?_, ?_, ?_, ?_⟩ <;> simp [Store.empty, LedgerInv]

/-- In a list of books with distinct ids, the books around one of them have other ids. -/
theorem ids_around (pre post : List Book) (b : Book)
    (h : ((pre ++ b :: post).map (fun x => x._id)).Nodup) :
    ∀ x, x ∈ pre ∨ x ∈ post → x._id ≠ b._id := by
  intro x hx
  rw [List.map_append, List.map_cons, List.nodup_append] at h
  obtain ⟨-, h2, h3⟩ := h
  rcases hx with hx | hx
  · intro he
    exact h3 (List.mem_map_of_mem (fun x => x._id) hx) (by rw [he]; exact List.mem_cons_self _ _)
  · intro he
    rw [List.nodup_cons] at h2
    exact h2.1 (by rw [← he]; exact List.mem_map_of_mem (fun x => x._id) hx)

theorem activeForBook_iff (bookId : Nat) (a : Assignment) :
    activeForBook bookId a = true ↔ a.bookId = bookId ∧ a.status = Status.issued := by
  simp [activeForBook]

/-- A book to which no loan refers has no issued loan. -/
theorem issuedCount_eq_zero (s : Store) (k : Nat) (h : ∀ a ∈ s.assignments, a.bookId ≠ k) :
    issuedCount s k = 0 := by
  unfold issuedCount
  rw [List.countP_eq_zero]
  intro a ha
  simp [activeForBook, h a ha]

/-- The issued loans of book `k` after one more loan has been appended. -/
theorem countP_append_loan (l : List Assignment) (a : Assignment) (k : Nat) :
    (l ++ [a]).countP (activeForBook k) =
      l.countP (activeForBook k) + if activeForBook k a = true then 1 else 0 := by
  rw [List.countP_append, List.countP_cons, List.countP_nil]
  simp

/-- The issued loans of book `k` before and after the first loan with a given id, which is
issued, has been rewritten as returned. -/
theorem countP_return (l : List Assignment) (loan loan' : Assignment) (id k : Nat)
    (hf : l.find? (fun x => x._id == id) = some loan) (hst : loan.status = Status.issued)
    (hst' : loan'.status = Status.returned) :
    (updateOne (fun x => x._id == id) (fun _ => loan') l).countP (activeForBook k) +
        (if loan.bookId = k then 1 else 0) =
      l.countP (activeForBook k) := by
  obtain ⟨pre, post, hl, hpre, hx⟩ := find_split _ _ _ hf
  rw [hl, updateOne_append _ _ pre post loan hpre hx]
  simp only [List.countP_append, List.countP_cons]
  have h1 : activeForBook k loan' = false := by simp [activeForBook, hst']
  by_cases hk : loan.bookId = k
  · have h2 : activeForBook k loan = true := by simp [activeForBook, hst, hk]
    simp only [h1, h2, hk, if_true]
    simp
    omega
  · have h2 : activeForBook k loan = false := by simp [activeForBook, hk]
    simp [h1, h2, hk]

/-- An issued loan of the ledger is counted. -/
theorem issuedCount_pos (s : Store) (a : Assignment) (ha : a ∈ s.assignments)
    (hst : a.status = Status.issued) : 0 < issuedCount s a.bookId := by
  unfold issuedCount
  rw [List.countP_pos_iff]
  exact ⟨a, ha, by simp [activeForBook, hst]⟩

theorem mem_replace {α : Type} (pre post : List α) (b x : α) (h : x ∈ pre ++ b :: post) :
    x = b ∨ x ∈ pre ∨ x ∈ post := by
  rcases List.mem_append.1 h with h | h
  · exact Or.inr (Or.inl h)
  · rcases List.mem_cons.1 h with h | h
    · exact Or.inl h
    · exact Or.inr (Or.inr h)

theorem mem_of_around {α : Type} (pre post : List α) (b x : α) (h : x ∈ pre ∨ x ∈ post) :
    x ∈ pre ++ b :: post := by
  rcases h with h | h
  · exact List.mem_append_left _ h
  · exact List.mem_append_right _ (List.mem_cons_of_mem _ h)

/-- Controller `issueBook` keeps the invariant of reachable stores. -/
theorem issueBook_inv (s : Store) (now : Int) (lag : Nat) (bookId userId : Nat)
    (h : StoreInv s) : StoreInv (issueBook s now lag bookId userId).2 := by
  rcases issueBook_store s now lag bookId userId with hs | ⟨book, hb, ha, -, hcase⟩
  · rw [hs]; exact h
  · have hmem : book ∈ s.books := List.mem_of_find?_eq_some hb
    obtain ⟨pre, post, hl, hpre, hid⟩ := Book.findById_split_books s bookId book hb
    have hsch := h.schema book hmem
    have hled := h.ledger book hmem
    have hval : Book.validate { book with availableCopies := book.availableCopies - 1 } = true := by
      simp only [Book.validate, Bool.and_eq_true, decide_eq_true_eq]
      omega
    rcases hcase with ⟨hv, -⟩ | ⟨-, -, hs⟩
    · rw [hval] at hv; cases hv
    · rw [hs]
      have hbooks : updateOne (fun x => x._id == book._id)
          (fun _ => { book with availableCopies := book.availableCopies - 1 }) s.books =
          pre ++ { book with availableCopies := book.availableCopies - 1 } :: post := by
        rw [hl]
        exact updateOne_append _ _ pre post book (by simpa [hid] using hpre) (by simp)
      rw [hbooks]
      have haround := ids_around pre post book (hl ▸ h.bookIds)
      refine ⟨?_, ?_, ?_, ?_, ?_⟩
      · intro x hx
        simp only [issuedCount, countP_append_loan]
        rcases mem_replace _ _ _ _ hx with hx | hx
        · subst hx
          have : activeForBook book._id
              { _id := s.nextId, bookId := bookId, userId := userId, issueDate := now,
                dueDate := addDays (now + lag) 14, returnDate := none,
                status := Status.issued } = true := by
            simp [activeForBook, hid]
          simp only [this, if_true]
          simp only [issuedCount] at hled
          push_cast
          omega
        · have hne : x._id ≠ book._id := haround x hx
          have : activeForBook x._id
              { _id := s.nextId, bookId := bookId, userId := userId, issueDate := now,
                dueDate := addDays (now + lag) 14, returnDate := none,
                status := Status.issued } = false := by
            simp [activeForBook, ← hid, Ne.symm hne]
          simp only [this]
          have := h.ledger x (hl ▸ mem_of_around pre post book x hx)
          simpa [issuedCount] using this
      · intro x hx
        rcases mem_replace _ _ _ _ hx with hx | hx
        · subst hx
          exact ⟨hsch.1, hsch.2.1, by simp only; omega⟩
        · exact h.schema x (hl ▸ mem_of_around pre post book x hx)
      · have hn := h.bookIds
        rw [hl] at hn
        simpa using hn
      · intro x hx
        simp only
        rcases mem_replace _ _ _ _ hx with hx | hx
        · subst hx
          exact Nat.lt_succ_of_lt (h.bookFresh book hmem)
        · exact Nat.lt_succ_of_lt (h.bookFresh x (hl ▸ mem_of_around pre post book x hx))
      · intro a ham
        simp only at ham ⊢
        rcases List.mem_append.1 ham with ham | ham
        · exact Nat.lt_succ_of_lt (h.loanRefs a ham)
        · rw [List.mem_singleton] at ham
          subst ham
          simp only
          rw [← hid]
          exact Nat.lt_succ_of_lt (h.bookFresh book hmem)

/-- Rewriting a loan as returned keeps the books that loans refer to. -/
theorem loanRefs_return (s : Store) (loan loan' : Assignment) (id : Nat)
    (hf : s.assignments.find? (fun x => x._id == id) = some loan)
    (hb : loan'.bookId = loan.bookId) (h : ∀ a ∈ s.assignments, a.bookId < s.nextId) :
    ∀ a ∈ updateOne (fun x => x._id == id) (fun _ => loan') s.assignments,
      a.bookId < s.nextId := by
  intro a ha
  rcases mem_updateOne _ _ _ _ ha with ha | ⟨y, -, -, hay⟩
  · exact h a ha
  · rw [hay, hb]
    exact h loan (List.mem_of_find?_eq_some hf)

/-- Controller `returnBook` keeps the invariant of reachable stores. -/
theorem returnBook_inv (s : Store) (now : Int) (assignmentId : Nat)
    (h : StoreInv s) : StoreInv (returnBook s now assignmentId).2 := by
  rcases returnBook_store s now assignmentId with hs | ⟨loan, hl, hst, -, hcase⟩
  · rw [hs]; exact h
  · have hlmem : loan ∈ s.assignments := List.mem_of_find?_eq_some hl
    have hlid : loan._id = assignmentId := by
      have := List.find?_some hl
      simpa using this
    have hfind : s.assignments.find? (fun x => x._id == loan._id) = some loan := by
      rw [hlid]; exact hl
    have hcount : ∀ k, (updateOne (fun x => x._id == loan._id)
          (fun _ => { loan with status := Status.returned, returnDate := some now })
          s.assignments).countP (activeForBook k) + (if loan.bookId = k then 1 else 0) =
        s.assignments.countP (activeForBook k) :=
      fun k => countP_return s.assignments loan _ loan._id k hfind hst rfl
    have hrefs := loanRefs_return s loan
      { loan with status := Status.returned, returnDate := some now } loan._id hfind rfl
      h.loanRefs
    rcases hcase with ⟨hb, -, hs⟩ | ⟨book, hb, hv, -, -⟩ | ⟨book, hb, -, -, hs⟩
    · rw [hs]
      refine ⟨?_, h.schema, h.bookIds, h.bookFresh, hrefs⟩
      intro x hx
      have hne : x._id ≠ loan.bookId := by
        have := List.find?_eq_none.1 hb x hx
        simpa using this
      have hc := hcount x._id
      simp only [if_neg (Ne.symm hne), add_zero] at hc
      simp only [issuedCount, hc]
      exact h.ledger x hx
    · exfalso
      have hmem : book ∈ s.books := List.mem_of_find?_eq_some hb
      have hbid : book._id = loan.bookId := by
        have := List.find?_some hb
        simpa using this
      have hsch := h.schema book hmem
      have hled := h.ledger book hmem
      have hpos := issuedCount_pos s loan hlmem hst
      rw [← hbid] at hpos
      have hval : Book.validate { book with availableCopies := book.availableCopies + 1 } = true := by
        simp only [Book.validate, Bool.and_eq_true, decide_eq_true_eq]
        omega
      rw [hval] at hv
      cases hv
    · rw [hs]
      have hmem : book ∈ s.books := List.mem_of_find?_eq_some hb
      obtain ⟨pre, post, hbl, hpre, hbid⟩ := Book.findById_split_books s loan.bookId book hb
      have hsch := h.schema book hmem
      have hled := h.ledger book hmem
      have hbooks : updateOne (fun x => x._id == book._id)
          (fun _ => { book with availableCopies := book.availableCopies + 1 }) s.books =
          pre ++ { book with availableCopies := book.availableCopies + 1 } :: post := by
        rw [hbl]
        exact updateOne_append _ _ pre post book (by simpa [hbid] using hpre) (by simp)
      rw [hbooks]
      have haround := ids_around pre post book (hbl ▸ h.bookIds)
      refine ⟨?_, ?_, ?_, ?_, hrefs⟩
      · intro x hx
        rcases mem_replace _ _ _ _ hx with hx | hx
        · subst hx
          have hc := hcount book._id
          simp only [if_pos hbid.symm] at hc
          simp only [issuedCount] at hled ⊢
          omega
        · have hne : x._id ≠ loan.bookId := hbid ▸ haround x hx
          have hc := hcount x._id
          simp only [if_neg (Ne.symm hne), add_zero] at hc
          simp only [issuedCount, hc]
          exact h.ledger x (hbl ▸ mem_of_around pre post book x hx)
      · intro x hx
        rcases mem_replace _ _ _ _ hx with hx | hx
        · subst hx
          exact ⟨hsch.1, hsch.2.1, by simp only; omega⟩
        · exact h.schema x (hbl ▸ mem_of_around pre post book x hx)
      · have hn := h.bookIds
        rw [hbl] at hn
        simpa using hn
      · intro x hx
        rcases mem_replace _ _ _ _ hx with hx | hx
        · subst hx
          exact h.bookFresh book hmem
        · exact h.bookFresh x (hbl ▸ mem_of_around pre post book x hx)

theorem Book.insert_book_eq_some (rules : TextRules) (s s1 : Store) (b : Book)
    (h : Book.insert rules s b = some s1) :
    b.validate = true ∧
      s1 = { s with books := s.books ++ [b], nextId := s.nextId + 1 } := by
  unfold Book.insert at h
  split at h
  · rename_i hv
    simp only [Bool.and_eq_true] at hv
    split at h
    · simp at h
    · rw [Book.preSave_of_validate b hv.2] at h
      exact ⟨hv.2, by simpa using h.symm⟩
  · simp at h

/-- Controller `createBook` keeps the invariant of reachable stores. -/
theorem createBook_inv (rules : TextRules) (s : Store) (body : BookBody)
    (h : StoreInv s) : StoreInv (createBook rules s body).2 := by
  unfold createBook
  split
  · exact h
  · dsimp only
    split
    · exact h
    · rename_i s1 hs1
      obtain ⟨hv, rfl⟩ := Book.insert_book_eq_some _ _ _ _ hs1
      simp only [Book.validate, Bool.and_eq_true, decide_eq_true_eq] at hv
      refine ⟨?_, ?_, ?_, ?_, ?_⟩
      · intro x hx
        rcases List.mem_append.1 hx with hx | hx
        · exact h.ledger x hx
        · rw [List.mem_singleton] at hx
          subst hx
          have hz : issuedCount s s.nextId = 0 :=
            issuedCount_eq_zero s s.nextId (fun a ha => Nat.ne_of_lt (h.loanRefs a ha))
          simp only [issuedCount] at hz ⊢
          simp [hz]
      · intro x hx
        rcases List.mem_append.1 hx with hx | hx
        · exact h.schema x hx
        · rw [List.mem_singleton] at hx
          subst hx
          exact ⟨hv.1.1.1, hv.1.1.2, hv.1.2⟩
      · simp only [List.map_append, List.map_cons, List.map_nil]
        rw [List.nodup_append]
        refine ⟨h.bookIds, List.nodup_singleton _, ?_⟩
        intro k hk hk'
        rw [List.mem_singleton] at hk'
        obtain ⟨x, hx, hxk⟩ := List.mem_map.1 hk
        have := h.bookFresh x hx
        omega
      · intro x hx
        rcases List.mem_append.1 hx with hx | hx
        · exact Nat.lt_succ_of_lt (h.bookFresh x hx)
        · rw [List.mem_singleton] at hx
          subst hx
          exact Nat.lt_succ_self _
      · intro a ha
        exact Nat.lt_succ_of_lt (h.loanRefs a ha)

/-- The tail of `updateBook` keeps the invariant of reachable stores. -/
theorem updateBookCopies_inv (rules : TextRules) (s : Store) (id : Nat) (body : BookUpdate)
    (book : Book) (h : StoreInv s) :
    StoreInv (updateBookCopies rules s id body book).2 := by
  rw [updateBookCopies_store]
  exact h

/-- Controller `updateBook` keeps the invariant of reachable stores. -/
theorem updateBook_inv (rules : TextRules) (s : Store) (id : Nat) (body : BookUpdate)
    (h : StoreInv s) : StoreInv (updateBook rules s id body).2 := by
  unfold updateBook
  split
  · exact h
  · rename_i book hb
    split
    · split
      · exact h
      · exact updateBookCopies_inv rules s id body book h
    · exact updateBookCopies_inv rules s id body book h

/-- Controller `deleteBook` keeps the invariant of reachable stores. -/
theorem deleteBook_inv (s : Store) (id : Nat) (h : StoreInv s) :
    StoreInv (deleteBook s id).2 := by
  unfold deleteBook
  split
  · exact h
  · dsimp only
    split
    · exact h
    · have hsub : (s.books.eraseP (fun b => b._id == id)).Sublist s.books :=
        List.eraseP_sublist _
      refine ⟨?_, ?_, ?_, ?_, h.loanRefs⟩
      · intro x hx
        exact h.ledger x (hsub.subset hx)
      · intro x hx
        exact h.schema x (hsub.subset hx)
      · exact (hsub.map _).nodup h.bookIds
      · intro x hx
        exact h.bookFresh x (hsub.subset hx)

/-- Controller `createUser` keeps the invariant of reachable stores. -/
theorem createUser_inv (rules : TextRules) (s : Store) (body : UserBody)
    (h : StoreInv s) : StoreInv (createUser rules s body).2 := by
  unfold createUser
  split
  · exact h
  · dsimp only
    split
    · exact h
    · rename_i s1 hs1
      unfold User.insert at hs1
      split at hs1
      · split at hs1
        · simp at hs1
        · simp only [Option.some.injEq] at hs1
          subst hs1
          exact h.of_eq rfl rfl (Nat.le_succ _)
      · simp at hs1

/-- The tail of `updateUser` keeps the invariant of reachable stores. -/
theorem updateUserFields_inv (rules : TextRules) (s : Store) (id : Nat) (body : UserUpdate)
    (user : User) (h : StoreInv s) : StoreInv (updateUserFields rules s id body user).2 := by
  unfold updateUserFields
  dsimp only
  split
  · exact h
  · rename_i s1 hs1
    unfold User.findByIdAndUpdate at hs1
    split at hs1
    · split at hs1
      · simp at hs1
      · simp only [Option.some.injEq] at hs1
        subst hs1
        exact h.of_eq rfl rfl (Nat.le_refl _)
    · simp at hs1

/-- Controller `updateUser` keeps the invariant of reachable stores. -/
theorem updateUser_inv (rules : TextRules) (s : Store) (id : Nat) (body : UserUpdate)
    (h : StoreInv s) : StoreInv (updateUser rules s id body).2 := by
  unfold updateUser
  split
  · exact h
  · split
    · split
      · exact h
      · exact updateUserFields_inv rules s id body _ h
    · exact updateUserFields_inv rules s id body _ h

/-- Controller `deleteUser` keeps the invariant of reachable stores. -/
theorem deleteUser_inv (s : Store) (id : Nat) (h : StoreInv s) :
    StoreInv (deleteUser s id).2 := by
  unfold deleteUser
  split
  · exact h
  · dsimp only
    split
    · exact h
    · exact h.of_eq rfl rfl (Nat.le_refl _)

/-- Every request keeps the invariant of reachable stores. -/
theorem step_inv (rules : TextRules) (s : Store) (op : Op) (h : StoreInv s) :
    StoreInv (step rules s op).2 := by
  cases op with
  | issueBook now lag bookId userId => exact issueBook_inv s now lag bookId userId h
  | returnBook now assignmentId => exact returnBook_inv s now assignmentId h
  | createBook body => exact createBook_inv rules s body h
  | updateBook id body => exact updateBook_inv rules s id body h
  | deleteBook id => exact deleteBook_inv s id h
  | createUser body => exact createUser_inv rules s body h
  | updateUser id body => exact updateUser_inv rules s id body h
  | deleteUser id => exact deleteUser_inv s id h

theorem run_inv (rules : TextRules) (ops : List Op) (s : Store) (h : StoreInv s) :
    StoreInv (run rules s ops) := by
  induction ops generalizing s with
  | nil => exact h
  | cons op ops ih => exact ih _ (step_inv rules s op h)

/-- C4: in the store reached from the empty store by any sequence of `createBook`,
`updateBook`, `deleteBook`, `createUser`, `updateUser`, `deleteUser`, `issueBook` and
`returnBook` requests, every book satisfies
`totalCopies - availableCopies = number of its loans with status 'issued'`. -/
theorem ledger_consistent_from_empty (rules : TextRules) (ops : List Op) :
    ∀ b ∈ (run rules Store.empty ops).books,
      b.totalCopies - b.availableCopies =
        (((run rules Store.empty ops).assignments.countP
          (fun a => a.bookId == b._id && a.status == Status.issued) : Nat) : Int) := by
  intro b hb
  exact (run_inv rules ops Store.empty StoreInv.of_empty).ledger b hb

/-- Witness for C4: after the sample requests (the update to five copies is rejected by
the validators of the update) the book has its three copies, two of them available, and
the ledger holds its one issued loan. -/
theorem ledger_consistent_from_empty_witness :
    sampleBook 0 3 2 ∈ (run TextRules.permissive Store.empty sampleOps).books ∧
    (sampleBook 0 3 2).totalCopies - (sampleBook 0 3 2).availableCopies =
      (((run TextRules.permissive Store.empty sampleOps).assignments.countP
        (fun a => a.bookId == (sampleBook 0 3 2)._id && a.status == Status.issued) : Nat) :
        Int) ∧
    (run TextRules.permissive Store.empty sampleOps).assignments.countP
        (fun a => a.bookId == 0 && a.status == Status.issued) = 1 :=
  ⟨by decide,
   ledger_consistent_from_empty TextRules.permissive sampleOps (sampleBook 0 3 2) (by decide),
   by decide⟩

/-! ## At most one active loan for a book and a user -/

theorem countP_activeFor_eq_zero (l : List Assignment) (bookId userId : Nat)
    (h : l.find? (activeFor bookId userId) = none) :
    l.countP (activeFor bookId userId) = 0 := by
  rw [List.find?_eq_none] at h
  rw [List.countP_eq_zero]
  exact h

/-- Appending an issued loan for a pair that has none keeps at most one per pair. -/
theorem atMostOne_append (l : List Assignment) (a : Assignment)
    (hf : l.find? (activeFor a.bookId a.userId) = none)
    (h : ∀ b u, l.countP (activeFor b u) ≤ 1) :
    ∀ b u, (l ++ [a]).countP (activeFor b u) ≤ 1 := by
  intro b u
  rw [List.countP_append, List.countP_cons, List.countP_nil]
  by_cases hp : activeFor b u a = true
  · obtain ⟨hb, hu, -⟩ := (activeFor_iff b u a).1 hp
    subst hb hu
    rw [countP_activeFor_eq_zero l _ _ hf]
    simp [hp]
  · simp only [Bool.not_eq_true] at hp
    simpa [hp] using h b u

/-- Rewriting a loan as returned does not raise the number of active loans of a pair. -/
theorem countP_activeFor_return (l : List Assignment) (loan' : Assignment) (id b u : Nat)
    (hst' : loan'.status = Status.returned) :
    (updateOne (fun x => x._id == id) (fun _ => loan') l).countP (activeFor b u) ≤
      l.countP (activeFor b u) := by
  cases hf : l.find? (fun x => x._id == id) with
  | none => rw [updateOne_of_find_none _ _ _ hf]
  | some loan =>
    obtain ⟨pre, post, hl, hpre, hx⟩ := find_split _ _ _ hf
    rw [hl, updateOne_append _ _ pre post loan hpre hx]
    simp only [List.countP_append, List.countP_cons]
    have h1 : activeFor b u loan' = false := by simp [activeFor, hst']
    simp only [h1, Bool.false_eq_true, if_false, add_zero]
    omega

theorem issueBook_atMostOne (s : Store) (now : Int) (lag : Nat) (bookId userId : Nat)
    (h : AtMostOneActive s) : AtMostOneActive (issueBook s now lag bookId userId).2 := by
  rcases issueBook_store s now lag bookId userId with hs | ⟨book, -, -, hf, hcase⟩
  · rw [hs]; exact h
  · rcases hcase with ⟨-, hs⟩ | ⟨-, -, hs⟩ <;>
    · rw [hs]
      exact atMostOne_append s.assignments _ hf h

theorem returnBook_atMostOne (s : Store) (now : Int) (assignmentId : Nat)
    (h : AtMostOneActive s) : AtMostOneActive (returnBook s now assignmentId).2 := by
  rcases returnBook_store s now assignmentId with hs | ⟨loan, -, -, -, hcase⟩
  · rw [hs]; exact h
  · rcases hcase with ⟨-, -, hs⟩ | ⟨book, -, -, -, hs⟩ | ⟨book, -, -, -, hs⟩ <;>
    · rw [hs]
      intro b u
      exact le_trans (countP_activeFor_return s.assignments _ loan._id b u rfl) (h b u)

/-- The answer to a second `issueBook` for the same book and user right after a
successful one. -/
theorem issueBook_twice (s : Store) (now : Int) (lag : Nat) (bookId userId : Nat)
    (now' : Int) (lag' : Nat)
    (h : (issueBook s now lag bookId userId).1.status = 201) :
    ∃ book, Book.findById s bookId = some book ∧
      (issueBook (issueBook s now lag bookId userId).2 now' lag' bookId userId).1.status = 400 ∧
      (issueBook (issueBook s now lag bookId userId).2 now' lag' bookId userId).2 =
        (issueBook s now lag bookId userId).2 ∧
      (issueBook (issueBook s now lag bookId userId).2 now' lag' bookId userId).1.message =
        if 1 < book.availableCopies then "User has already borrowed this book"
        else "Book is not available for issue" := by
  obtain ⟨book, user, hb, ha, hu, hf, -, hs⟩ := issueBook_success s now lag bookId userId h
  obtain ⟨pre, post, hl, hpre, hid⟩ := Book.findById_split_books s bookId book hb
  refine ⟨book, hb, ?_⟩
  rw [hs]
  have hbooks : updateOne (fun x => x._id == book._id)
      (fun _ => { book with availableCopies := book.availableCopies - 1 }) s.books =
      pre ++ { book with availableCopies := book.availableCopies - 1 } :: post := by
    rw [hl]
    exact updateOne_append _ _ pre post book (by simpa [hid] using hpre) (by simp)
  rw [hbooks]
  have hb1 : List.find? (fun b => b._id == bookId)
      (pre ++ { book with availableCopies := book.availableCopies - 1 } :: post) =
      some { book with availableCopies := book.availableCopies - 1 } := by
    rw [find_append_first _ pre post _ (by simpa using hpre)]
    simp [hid]
  have hu1 : List.find? (fun u => u._id == userId) s.users = some user := hu
  have hf1 : List.find? (activeFor bookId userId)
      (s.assignments ++
        [{ _id := s.nextId, bookId := bookId, userId := userId, issueDate := now,
           dueDate := addDays (now + lag) 14, returnDate := none,
           status := Status.issued }]) =
      some { _id := s.nextId, bookId := bookId, userId := userId, issueDate := now,
             dueDate := addDays (now + lag) 14, returnDate := none,
             status := Status.issued } := by
    rw [List.find?_append, hf]
    simp [activeFor]
  by_cases h1 : 1 < book.availableCopies
  · have h2 : ¬ (book.availableCopies - 1 ≤ 0) := by omega
    simp [issueBook, Book.findById, User.findById, hb1, hu1, hf1, h1, h2]
  · have h2 : book.availableCopies - 1 ≤ 0 := by omega
    simp [issueBook, Book.findById, hb1, h1, h2]

/-- A successful `issueBook` leaves an issued loan for the pair in the ledger. -/
theorem issueBook_leaves_active (s : Store) (now : Int) (lag : Nat) (bookId userId : Nat)
    (h : (issueBook s now lag bookId userId).1.status = 201) :
    HasActiveLoan (issueBook s now lag bookId userId).2 bookId userId := by
  obtain ⟨book, user, -, -, -, -, -, hs⟩ := issueBook_success s now lag bookId userId h
  rw [hs]
  exact ⟨_, List.mem_append_right _ (List.mem_singleton.2 rfl), rfl, rfl, rfl⟩

/-- The answer of `issueBook` for a pair that has an issued loan in the ledger. -/
theorem issueBook_while_active (s : Store) (now : Int) (lag : Nat) (bookId userId : Nat)
    (h : HasActiveLoan s bookId userId) :
    (issueBook s now lag bookId userId).2 = s ∧
    (Book.findById s bookId = none →
      (issueBook s now lag bookId userId).1 = ⟨404, false, "Book not found", none⟩) ∧
    (∀ book, Book.findById s bookId = some book →
      (book.availableCopies ≤ 0 →
        (issueBook s now lag bookId userId).1 =
          ⟨400, false, "Book is not available for issue", none⟩) ∧
      (0 < book.availableCopies → User.findById s userId = none →
        (issueBook s now lag bookId userId).1 = ⟨404, false, "User not found", none⟩) ∧
      (0 < book.availableCopies → User.findById s userId ≠ none →
        (issueBook s now lag bookId userId).1 =
          ⟨400, false, "User has already borrowed this book", none⟩)) := by
  obtain ⟨a, hf⟩ := (find_activeFor_isSome s bookId userId).1 h
  refine ⟨?_, ?_, ?_⟩
  · cases hb : Book.findById s bookId with
    | none => simp [issueBook, hb]
    | some book =>
      by_cases ha : book.availableCopies ≤ 0
      · simp [issueBook, hb, ha]
      · cases hu : User.findById s userId with
        | none => simp [issueBook, hb, ha, hu]
        | some user => simp [issueBook, hb, ha, hu, hf]
  · intro hb
    simp [issueBook, hb]
  · intro book hb
    refine ⟨?_, ?_, ?_⟩
    · intro ha
      simp [issueBook, hb, ha]
    · intro ha hu
      simp [issueBook, hb, not_le.2 ha, hu]
    · intro ha hu
      cases hu1 : User.findById s userId with
      | none => exact absurd hu1 hu
      | some user => simp [issueBook, hb, not_le.2 ha, hu1, hf]

/-- C5 (amended): `issueBook` and `returnBook` keep the ledger with at most one issued loan
per pair `(bookId, userId)`; a successful `issueBook` leaves an issued loan for its pair in
the ledger; and as long as the ledger holds an issued loan for a pair (before that loan is
returned, whatever was served in between), every `issueBook` for the pair fails and leaves
the store unchanged, hence adds no loan: with 400 'User has already borrowed this book'
when the book is stored with an available copy and the user is stored, with 400 'Book is
not available for issue' when the book is stored without an available copy (the check that
comes first), and with 404 when the book or the user is not stored. -/
theorem no_double_borrow (s : Store) :
    (AtMostOneActive s →
      (∀ now lag bookId userId, AtMostOneActive (issueBook s now lag bookId userId).2) ∧
      (∀ now assignmentId, AtMostOneActive (returnBook s now assignmentId).2)) ∧
    (∀ now lag bookId userId, (issueBook s now lag bookId userId).1.status = 201 →
      HasActiveLoan (issueBook s now lag bookId userId).2 bookId userId) ∧
    (∀ now lag bookId userId, HasActiveLoan s bookId userId →
      (issueBook s now lag bookId userId).2 = s ∧
      (Book.findById s bookId = none →
        (issueBook s now lag bookId userId).1 = ⟨404, false, "Book not found", none⟩) ∧
      (∀ book, Book.findById s bookId = some book →
        (book.availableCopies ≤ 0 →
          (issueBook s now lag bookId userId).1 =
            ⟨400, false, "Book is not available for issue", none⟩) ∧
        (0 < book.availableCopies → User.findById s userId = none →
          (issueBook s now lag bookId userId).1 = ⟨404, false, "User not found", none⟩) ∧
        (0 < book.availableCopies → User.findById s userId ≠ none →
          (issueBook s now lag bookId userId).1 =
            ⟨400, false, "User has already borrowed this book", none⟩))) :=
  ⟨fun h => ⟨fun now lag bookId userId => issueBook_atMostOne s now lag bookId userId h,
      fun now assignmentId => returnBook_atMostOne s now assignmentId h⟩,
   fun now lag bookId userId h => issueBook_leaves_active s now lag bookId userId h,
   fun now lag bookId userId h => issueBook_while_active s now lag bookId userId h⟩

/-- Counterexample to C5 as stated: on a store whose book has a single copy, the first
`issueBook` succeeds and the second one, for the same book and user and before any return,
is answered 'Book is not available for issue', not 'User has already borrowed this book'. -/
theorem second_issue_of_last_copy :
    (issueBook lastCopyStore 3000 0 1 2).1.status = 201 ∧
    HasActiveLoan (issueBook lastCopyStore 3000 0 1 2).2 1 2 ∧
    (issueBook (issueBook lastCopyStore 3000 0 1 2).2 4000 0 1 2).1.status = 400 ∧
    (issueBook (issueBook lastCopyStore 3000 0 1 2).2 4000 0 1 2).1.message =
      "Book is not available for issue" ∧
    (issueBook (issueBook lastCopyStore 3000 0 1 2).2 4000 0 1 2).1.message ≠
      "User has already borrowed this book" := by
  decide

theorem sampleStore_atMostOne : AtMostOneActive sampleStore := by
  intro b u
  simp only [sampleStore, sampleLoan, List.countP_cons, List.countP_nil, activeFor]
  split_ifs <;> simp_all
  omega

/-- Witness for C5 (amended): the sample store has at most one active loan per pair and
keeps it through an issue and a return; an issue on the shelf store leaves an issued loan;
on the sample store, where user 4 holds an issued loan of book 1 (one copy still
available) and of book 2 (no copy available), a further issue of book 1 to user 4 is
answered 'User has already borrowed this book' and one of book 2 'Book is not available
for issue', both leaving the store as it is. -/
theorem no_double_borrow_witness :
    (AtMostOneActive sampleStore ∧
      AtMostOneActive (issueBook sampleStore 3000 0 1 3).2 ∧
      AtMostOneActive (returnBook sampleStore 3000 6).2) ∧
    ((issueBook shelfStore 3000 0 1 2).1.status = 201 ∧
      HasActiveLoan (issueBook shelfStore 3000 0 1 2).2 1 2) ∧
    (HasActiveLoan sampleStore 1 4 ∧
      (issueBook sampleStore 4000 0 1 4).2 = sampleStore ∧
      (issueBook sampleStore 4000 0 1 4).1 =
        ⟨400, false, "User has already borrowed this book", none⟩) ∧
    (HasActiveLoan sampleStore 2 4 ∧
      (issueBook sampleStore 4000 0 2 4).2 = sampleStore ∧
      (issueBook sampleStore 4000 0 2 4).1 =
        ⟨400, false, "Book is not available for issue", none⟩) :=
  ⟨⟨sampleStore_atMostOne,
     ((no_double_borrow sampleStore).1 sampleStore_atMostOne).1 3000 0 1 3,
     ((no_double_borrow sampleStore).1 sampleStore_atMostOne).2 3000 6⟩,
   ⟨by decide, (no_double_borrow shelfStore).2.1 3000 0 1 2 (by decide)⟩,
   ⟨by decide, ((no_double_borrow sampleStore).2.2 4000 0 1 4 (by decide)).1,
     (((no_double_borrow sampleStore).2.2 4000 0 1 4 (by decide)).2.2
       (sampleBook 1 3 2) (by decide)).2.2 (by decide) (by decide)⟩,
   ⟨by decide, ((no_double_borrow sampleStore).2.2 4000 0 2 4 (by decide)).1,
     (((no_double_borrow sampleStore).2.2 4000 0 2 4 (by decide)).2.2
       (sampleBook 2 1 0) (by decide)).1 (by decide)⟩⟩

/-! ## Returning a loan -/

/-- The answer and the store of `returnBook` on a stored loan that is not returned yet and
whose save is accepted. -/
theorem returnBook_found (s : Store) (now : Int) (assignmentId : Nat) (loan : Assignment)
    (hl : Assignment.findById s assignmentId = some loan) (hst : loan.status = Status.issued)
    (hv : Assignment.validate
      { loan with status := Status.returned, returnDate := some now } = true) :
    (Book.findById s loan.bookId = none →
      (returnBook s now assignmentId).1.status = 200 ∧
      (returnBook s now assignmentId).1.message = "Book returned successfully" ∧
      (returnBook s now assignmentId).2 =
        { s with
          assignments := updateOne (fun x => x._id == loan._id)
            (fun _ => { loan with status := Status.returned, returnDate := some now })
            s.assignments }) ∧
    (∀ book, Book.findById s loan.bookId = some book →
      Book.validate { book with availableCopies := book.availableCopies + 1 } = false →
      (returnBook s now assignmentId).1.status = 500 ∧
      (returnBook s now assignmentId).2 =
        { s with
          assignments := updateOne (fun x => x._id == loan._id)
            (fun _ => { loan with status := Status.returned, returnDate := some now })
            s.assignments }) ∧
    (∀ book, Book.findById s loan.bookId = some book →
      Book.validate { book with availableCopies := book.availableCopies + 1 } = true →
      (returnBook s now assignmentId).1.status = 200 ∧
      (returnBook s now assignmentId).1.message = "Book returned successfully" ∧
      (returnBook s now assignmentId).2 =
        { s with
          books := updateOne (fun x => x._id == book._id)
            (fun _ => { book with availableCopies := book.availableCopies + 1 }) s.books,
          assignments := updateOne (fun x => x._id == loan._id)
            (fun _ => { loan with status := Status.returned, returnDate := some now })
            s.assignments }) := by
  have hst' : ¬ loan.status = Status.returned := by rw [hst]; decide
  refine ⟨?_, ?_, ?_⟩
  · intro hb
    have hb' : List.find? (fun b => b._id == loan.bookId) s.books = none := hb
    refine ⟨?_, ?_, ?_⟩ <;>
    simp [returnBook, hl, hst', Assignment.save, hv, returned_preSave, Book.findById, hb']
  · intro book hb hbv
    have hb' : List.find? (fun b => b._id == loan.bookId) s.books = some book := hb
    refine ⟨?_, ?_⟩ <;>
    simp [returnBook, hl, hst', Assignment.save, hv, returned_preSave, Book.findById, hb',
      Book.save, hbv]
  · intro book hb hbv
    have hb' : List.find? (fun b => b._id == loan.bookId) s.books = some book := hb
    refine ⟨?_, ?_, ?_⟩ <;>
    simp [returnBook, hl, hst', Assignment.save, hv, returned_preSave, Book.findById, hb',
      Book.save, hbv, Book.preSave_of_validate _ hbv]

/-- The loan that a successful `issueBook` sends back is the one it appended, provided no
stored loan already carries the fresh id. -/
theorem issueBook_data (s : Store) (now : Int) (lag : Nat) (bookId userId : Nat)
    (hfresh : ∀ a ∈ s.assignments, a._id ≠ s.nextId)
    (h : (issueBook s now lag bookId userId).1.status = 201) :
    (issueBook s now lag bookId userId).1.data = some (Doc.assignment
      { _id := s.nextId, bookId := bookId, userId := userId, issueDate := now,
        dueDate := addDays (now + lag) 14, returnDate := none, status := Status.issued }) ∧
    Assignment.findById (issueBook s now lag bookId userId).2 s.nextId = some
      { _id := s.nextId, bookId := bookId, userId := userId, issueDate := now,
        dueDate := addDays (now + lag) 14, returnDate := none, status := Status.issued } := by
  obtain ⟨book, user, hb, ha, hu, hf, hv, hs⟩ := issueBook_success s now lag bookId userId h
  have hnone : List.find? (fun a => a._id == s.nextId) s.assignments = none := by
    rw [List.find?_eq_none]
    intro a ha
    simpa using hfresh a ha
  have hfind : Assignment.findById (issueBook s now lag bookId userId).2 s.nextId = some
      { _id := s.nextId, bookId := bookId, userId := userId, issueDate := now,
        dueDate := addDays (now + lag) 14, returnDate := none, status := Status.issued } := by
    rw [hs]
    simp [Assignment.findById, List.find?_append, hnone]
  refine ⟨?_, hfind⟩
  have hdata : (issueBook s now lag bookId userId).1.data =
      (Assignment.findById (issueBook s now lag bookId userId).2 s.nextId).map Doc.assignment := by
    simp [issueBook, hb, not_le.2 ha, hu, hf, insert_newLoan s now lag bookId userId hf,
      Book.save, hv, Book.preSave_of_validate _ hv]
  rw [hdata, hfind]
  rfl

/-- C6: on a store whose books are within their bounds (and whose loans do not carry the
next fresh id), when `issueBook` succeeds and sends back the loan `L` it created, a
`returnBook` of `L` made right after, at a time not before the issue, succeeds and leaves
the books as they were before the issue: the book has its `availableCopies` and
`totalCopies` back. -/
theorem issue_then_return_restores (s : Store) (now : Int) (lag : Nat) (bookId userId : Nat)
    (now' : Int) (L : Assignment)
    (hbounds : ∀ b ∈ s.books, 0 ≤ b.availableCopies ∧ b.availableCopies ≤ b.totalCopies)
    (hfresh : ∀ a ∈ s.assignments, a._id ≠ s.nextId)
    (hclock : now ≤ now')
    (h : (issueBook s now lag bookId userId).1.status = 201)
    (hL : (issueBook s now lag bookId userId).1.data = some (Doc.assignment L)) :
    (returnBook (issueBook s now lag bookId userId).2 now' L._id).1.status = 200 ∧
    (returnBook (issueBook s now lag bookId userId).2 now' L._id).2.books = s.books ∧
    ∃ book, Book.findById s bookId = some book ∧
      Book.findById (issueBook s now lag bookId userId).2 bookId =
        some { book with availableCopies := book.availableCopies - 1 } ∧
      Book.findById (returnBook (issueBook s now lag bookId userId).2 now' L._id).2 bookId =
        some book := by
  obtain ⟨hdata, hfind⟩ := issueBook_data s now lag bookId userId hfresh h
  rw [hdata] at hL
  simp only [Option.some.injEq, Doc.assignment.injEq] at hL
  subst hL
  obtain ⟨book, user, hb, ha, hu, hf, hv, hs⟩ := issueBook_success s now lag bookId userId h
  obtain ⟨pre, post, hl, hpre, hid⟩ := Book.findById_split_books s bookId book hb
  have hbnd := hbounds book (List.mem_of_find?_eq_some hb)
  have hbooks : (issueBook s now lag bookId userId).2.books =
      pre ++ { book with availableCopies := book.availableCopies - 1 } :: post := by
    rw [hs, hl]
    exact updateOne_append _ _ pre post book (by simpa [hid] using hpre) (by simp)
  have hb1 : Book.findById (issueBook s now lag bookId userId).2 bookId =
      some { book with availableCopies := book.availableCopies - 1 } := by
    unfold Book.findById
    rw [hbooks, find_append_first _ pre post _ (by simpa using hpre)]
    simp [hid]
  have hval : Assignment.validate
      { ({ _id := s.nextId, bookId := bookId, userId := userId, issueDate := now,
           dueDate := addDays (now + lag) 14, returnDate := none,
           status := Status.issued } : Assignment) with
        status := Status.returned, returnDate := some now' } = true := by
    simp only [Assignment.validate, addDays, msPerDay, Bool.and_eq_true, decide_eq_true_eq]
    omega
  simp only [Book.validate, Bool.and_eq_true, decide_eq_true_eq] at hv
  have hbv : Book.validate
      { ({ book with availableCopies := book.availableCopies - 1 } : Book) with
        availableCopies := book.availableCopies - 1 + 1 } = true := by
    simp only [Book.validate, Bool.and_eq_true, decide_eq_true_eq]
    omega
  obtain ⟨hst, -, hstore⟩ := (returnBook_found _ now' s.nextId _ hfind rfl hval).2.2 _ hb1 hbv
  have hback : ({ book with availableCopies := book.availableCopies - 1 + 1 } : Book) = book := by
    cases book
    simp
  have hfinal : (returnBook (issueBook s now lag bookId userId).2 now' s.nextId).2.books =
      s.books := by
    rw [hstore]
    simp only
    rw [hbooks, updateOne_append _ _ pre post _ (by simpa [hid] using hpre) (by simp), hl]
    simp only [hback]
  refine ⟨hst, hfinal, book, hb, hb1, ?_⟩
  unfold Book.findById
  rw [hfinal]
  exact hb

/-- Witness for C6 on the shelf store (total 3, available 3): issue at time 3000, return
at time 5000. -/
theorem issue_then_return_restores_witness :
    (returnBook (issueBook shelfStore 3000 0 1 2).2 5000 3).1.status = 200 ∧
    (returnBook (issueBook shelfStore 3000 0 1 2).2 5000 3).2.books = shelfStore.books ∧
    ∃ book, Book.findById shelfStore 1 = some book ∧
      Book.findById (issueBook shelfStore 3000 0 1 2).2 1 =
        some { book with availableCopies := book.availableCopies - 1 } ∧
      Book.findById (returnBook (issueBook shelfStore 3000 0 1 2).2 5000 3).2 1 =
        some book :=
  issue_then_return_restores shelfStore 3000 0 1 2 5000
    { _id := 3, bookId := 1, userId := 2, issueDate := 3000, dueDate := addDays 3000 14,
      returnDate := none, status := Status.issued }
    (by decide) (by decide) (by decide) (by decide) (by decide)

/-- Controller `returnBook` on a loan that is already returned. -/
theorem returnBook_of_returned (s : Store) (now : Int) (assignmentId : Nat) (loan : Assignment)
    (hl : Assignment.findById s assignmentId = some loan)
    (hst : loan.status = Status.returned) :
    returnBook s now assignmentId =
      (⟨400, false, "Book has already been returned", none⟩, s) := by
  simp [returnBook, hl, hst]

theorem Assignment.findById_id (s : Store) (id : Nat) (loan : Assignment)
    (hl : Assignment.findById s id = some loan) : loan._id = id := by
  have := List.find?_some hl
  simpa using this

/-- After the loan found under an id has been rewritten, the rewritten loan is found
under that id. -/
theorem Assignment.findById_rewritten (s s1 : Store) (id : Nat) (loan loan' : Assignment)
    (hl : Assignment.findById s id = some loan) (hid : loan'._id = loan._id)
    (hs1 : s1.assignments =
      updateOne (fun x => x._id == loan._id) (fun _ => loan') s.assignments) :
    Assignment.findById s1 id = some loan' := by
  have hlid := Assignment.findById_id s id loan hl
  obtain ⟨pre, post, hsplit, hpre, hx⟩ := find_split _ _ _ hl
  unfold Assignment.findById
  rw [hs1, hsplit, updateOne_append _ _ pre post loan (by simpa [hlid] using hpre)
    (by simp), find_append_first _ pre post _ hpre]
  simp [hid, hlid]

/-- The loan document after `returnBook` has saved it. -/
theorem returnBook_loan (s : Store) (now : Int) (assignmentId : Nat) (loan : Assignment)
    (hl : Assignment.findById s assignmentId = some loan) (hst : loan.status = Status.issued)
    (hv : Assignment.validate
      { loan with status := Status.returned, returnDate := some now } = true) :
    Assignment.findById (returnBook s now assignmentId).2 assignmentId =
      some { loan with status := Status.returned, returnDate := some now } := by
  obtain ⟨h1, h2, h3⟩ := returnBook_found s now assignmentId loan hl hst hv
  refine Assignment.findById_rewritten s _ assignmentId loan
    { loan with status := Status.returned, returnDate := some now } hl rfl ?_
  cases hb : Book.findById s loan.bookId with
  | none => rw [(h1 hb).2.2]
  | some book =>
    by_cases hbv : Book.validate { book with availableCopies := book.availableCopies + 1 } = true
    · rw [(h3 book hb hbv).2.2]
    · simp only [Bool.not_eq_true] at hbv
      rw [(h2 book hb hbv).2]

theorem returned_validate (loan : Assignment) (now : Int)
    (hvalid : loan.issueDate < loan.dueDate) (hclock : loan.issueDate ≤ now) :
    Assignment.validate { loan with status := Status.returned, returnDate := some now } = true := by
  simp only [Assignment.validate, Bool.and_eq_true, decide_eq_true_eq]
  exact ⟨hvalid, hclock⟩

/-- C7: for every stored loan `L` (whose dates satisfy the schema rule
`dueDate > issueDate`), when `returnBook` is called for `L` at a time not before its issue
date and then called again, the second call is answered 400 'Book has already been
returned' and leaves the store exactly as the first call left it. -/
theorem returnBook_twice (s : Store) (now now' : Int) (assignmentId : Nat) (L : Assignment)
    (hL : Assignment.findById s assignmentId = some L)
    (hvalid : L.issueDate < L.dueDate) (hclock : L.issueDate ≤ now) :
    (returnBook (returnBook s now assignmentId).2 now' assignmentId).1.status = 400 ∧
    (returnBook (returnBook s now assignmentId).2 now' assignmentId).1.message =
      "Book has already been returned" ∧
    (returnBook (returnBook s now assignmentId).2 now' assignmentId).2 =
      (returnBook s now assignmentId).2 := by
  cases hst : L.status with
  | returned =>
    rw [returnBook_of_returned s now assignmentId L hL hst,
      returnBook_of_returned s now' assignmentId L hL hst]
    exact ⟨rfl, rfl, rfl⟩
  | issued =>
    have hv := returned_validate L now hvalid hclock
    have hfound := returnBook_loan s now assignmentId L hL hst hv
    rw [returnBook_of_returned _ now' assignmentId _ hfound rfl]
    exact ⟨rfl, rfl, rfl⟩

/-- Witness for C7 on the sample store: loan 6 (issued at 1000) is returned at 3000 and
the call is repeated at 4000. -/
theorem returnBook_twice_witness :
    (returnBook sampleStore 3000 6).1.status = 200 ∧
    (returnBook (returnBook sampleStore 3000 6).2 4000 6).1.status = 400 ∧
    (returnBook (returnBook sampleStore 3000 6).2 4000 6).1.message =
      "Book has already been returned" ∧
    (returnBook (returnBook sampleStore 3000 6).2 4000 6).2 =
      (returnBook sampleStore 3000 6).2 :=
  ⟨by decide,
   returnBook_twice sampleStore 3000 4000 6 (sampleLoan 6 1 4 Status.issued none)
    (by decide) (by decide) (by decide)⟩

/-- C8: for every stored issued loan `L` (whose dates satisfy the schema rule
`dueDate > issueDate`) whose `bookId` is the id of no book of the store, `returnBook`
called for `L` at a time not before its issue date is answered 200: the loan becomes
`returned` with `returnDate` the time of the call, and the books are left unchanged. -/
theorem returnBook_missing_book (s : Store) (now : Int) (assignmentId : Nat) (L : Assignment)
    (hL : Assignment.findById s assignmentId = some L) (hst : L.status = Status.issued)
    (hbook : Book.findById s L.bookId = none)
    (hvalid : L.issueDate < L.dueDate) (hclock : L.issueDate ≤ now) :
    (returnBook s now assignmentId).1.status = 200 ∧
    (returnBook s now assignmentId).1.message = "Book returned successfully" ∧
    Assignment.findById (returnBook s now assignmentId).2 assignmentId =
      some { L with status := Status.returned, returnDate := some now } ∧
    (returnBook s now assignmentId).2.books = s.books ∧
    (returnBook s now assignmentId).2.users = s.users := by
  have hv := returned_validate L now hvalid hclock
  obtain ⟨h1, h2, h3⟩ := (returnBook_found s now assignmentId L hL hst hv).1 hbook
  refine ⟨h1, h2, returnBook_loan s now assignmentId L hL hst hv, ?_, ?_⟩ <;> rw [h3]

/-- Witness for C8: loan 5 of the orphan store refers to book 9, which is not stored. -/
theorem returnBook_missing_book_witness :
    (returnBook orphanStore 3000 5).1.status = 200 ∧
    (returnBook orphanStore 3000 5).1.message = "Book returned successfully" ∧
    Assignment.findById (returnBook orphanStore 3000 5).2 5 =
      some { sampleLoan 5 9 2 Status.issued none with
        status := Status.returned, returnDate := some 3000 } ∧
    (returnBook orphanStore 3000 5).2.books = orphanStore.books ∧
    (returnBook orphanStore 3000 5).2.users = orphanStore.users :=
  returnBook_missing_book orphanStore 3000 5 (sampleLoan 5 9 2 Status.issued none)
    (by decide) (by decide) (by decide) (by decide) (by decide)

/-! ## The status of a loan -/

/-- Position by position, `updateOne` keeps an element or rewrites the first match. -/
theorem getElem?_updateOne {α : Type} (p : α → Bool) (f : α → α) (l : List α) (i : Nat)
    (a : α) (h : l[i]? = some a) :
    (updateOne p f l)[i]? = some a ∨
      (l.find? p = some a ∧ (updateOne p f l)[i]? = some (f a)) := by
  induction l generalizing i with
  | nil => simp at h
  | cons y ys ih =>
    by_cases hy : p y = true
    · cases i with
      | zero =>
        right
        simp only [List.getElem?_cons_zero, Option.some.injEq] at h
        subst h
        simp [updateOne, hy]
      | succ j =>
        left
        simp only [List.getElem?_cons_succ] at h
        simp [updateOne, hy, h]
    · cases i with
      | zero =>
        left
        simp only [List.getElem?_cons_zero, Option.some.injEq] at h
        subst h
        simp [updateOne, hy]
      | succ j =>
        simp only [List.getElem?_cons_succ] at h
        rcases ih j h with h1 | ⟨h1, h2⟩
        · left
          simp [updateOne, hy, h1]
        · right
          simp [updateOne, hy, h1, h2]

theorem createBook_assignments (rules : TextRules) (s : Store) (body : BookBody) :
    (createBook rules s body).2.assignments = s.assignments := by
  unfold createBook
  split
  · rfl
  · dsimp only
    split
    · rfl
    · rename_i s1 hs1
      rw [(Book.insert_book_eq_some _ _ _ _ hs1).2]

theorem updateBookCopies_assignments (rules : TextRules) (s : Store) (id : Nat)
    (body : BookUpdate) (book : Book) :
    (updateBookCopies rules s id body book).2.assignments = s.assignments := by
  rw [updateBookCopies_store]

theorem updateBook_assignments (rules : TextRules) (s : Store) (id : Nat) (body : BookUpdate) :
    (updateBook rules s id body).2.assignments = s.assignments := by
  unfold updateBook
  split
  · rfl
  · split
    · split
      · rfl
      · exact updateBookCopies_assignments rules s id body _
    · exact updateBookCopies_assignments rules s id body _

theorem deleteBook_assignments (s : Store) (id : Nat) :
    (deleteBook s id).2.assignments = s.assignments := by
  unfold deleteBook
  split
  · rfl
  · dsimp only
    split <;> rfl

theorem createUser_assignments (rules : TextRules) (s : Store) (body : UserBody) :
    (createUser rules s body).2.assignments = s.assignments := by
  unfold createUser
  split
  · rfl
  · dsimp only
    split
    · rfl
    · rename_i s1 hs1
      unfold User.insert at hs1
      split at hs1
      · split at hs1
        · simp at hs1
        · simp only [Option.some.injEq] at hs1
          subst hs1
          rfl
      · simp at hs1

theorem updateUserFields_assignments (rules : TextRules) (s : Store) (id : Nat)
    (body : UserUpdate) (user : User) :
    (updateUserFields rules s id body user).2.assignments = s.assignments := by
  unfold updateUserFields
  dsimp only
  split
  · rfl
  · rename_i s1 hs1
    unfold User.findByIdAndUpdate at hs1
    split at hs1
    · split at hs1
      · simp at hs1
      · simp only [Option.some.injEq] at hs1
        subst hs1
        rfl
    · simp at hs1

theorem updateUser_assignments (rules : TextRules) (s : Store) (id : Nat) (body : UserUpdate) :
    (updateUser rules s id body).2.assignments = s.assignments := by
  unfold updateUser
  split
  · rfl
  · split
    · split
      · rfl
      · exact updateUserFields_assignments rules s id body _
    · exact updateUserFields_assignments rules s id body _

theorem deleteUser_assignments (s : Store) (id : Nat) :
    (deleteUser s id).2.assignments = s.assignments := by
  unfold deleteUser
  split
  · rfl
  · dsimp only
    split <;> rfl

/-- What one request does to the ledger: nothing, or `issueBook` appends an issued loan,
or `returnBook` rewrites the issued loan it found as returned. -/
theorem step_assignments (rules : TextRules) (s : Store) (op : Op) :
    (step rules s op).2.assignments = s.assignments ∨
    (∃ now lag bookId userId, op = Op.issueBook now lag bookId userId ∧
      (step rules s op).2.assignments = s.assignments ++
        [{ _id := s.nextId, bookId := bookId, userId := userId, issueDate := now,
           dueDate := addDays (now + lag) 14, returnDate := none,
           status := Status.issued }]) ∨
    (∃ now assignmentId loan, op = Op.returnBook now assignmentId ∧
      Assignment.findById s assignmentId = some loan ∧ loan.status = Status.issued ∧
      (step rules s op).2.assignments =
        updateOne (fun x => x._id == loan._id)
          (fun _ => { loan with status := Status.returned, returnDate := some now })
          s.assignments) := by
  cases op with
  | issueBook now lag bookId userId =>
    rcases issueBook_store s now lag bookId userId with hs | ⟨book, -, -, -, hcase⟩
    · left; simp only [step]; rw [hs]
    · right; left
      refine ⟨now, lag, bookId, userId, rfl, ?_⟩
      simp only [step]
      rcases hcase with ⟨-, hs⟩ | ⟨-, -, hs⟩ <;> rw [hs]
  | returnBook now assignmentId =>
    rcases returnBook_store s now assignmentId with hs | ⟨loan, hl, hst, -, hcase⟩
    · left; simp only [step]; rw [hs]
    · right; right
      refine ⟨now, assignmentId, loan, rfl, hl, hst, ?_⟩
      simp only [step]
      rcases hcase with ⟨-, -, hs⟩ | ⟨book, -, -, -, hs⟩ | ⟨book, -, -, -, hs⟩ <;> rw [hs]
  | createBook body => left; exact createBook_assignments rules s body
  | updateBook id body => left; exact updateBook_assignments rules s id body
  | deleteBook id => left; exact deleteBook_assignments s id
  | createUser body => left; exact createUser_assignments rules s body
  | updateUser id body => left; exact updateUser_assignments rules s id body
  | deleteUser id => left; exact deleteUser_assignments s id

/-- C9: through any one request to a controller (`issueBook`, `returnBook`, `createBook`,
`updateBook`, `deleteBook`, `createUser`, `updateUser`, `deleteUser`), a loan stored at
position `i` of the ledger is still stored at position `i`; if it was `returned` it is
unchanged (status, `returnDate` and every other field); if its status changed, the request
was a `returnBook` of that loan and the change went from `issued` to `returned`; and a loan
that the request added was added by `issueBook` and has status `issued`. -/
theorem loan_status_machine (rules : TextRules) (s : Store) (op : Op) :
    (∀ (i : Nat) (a : Assignment), s.assignments[i]? = some a →
      ∃ a', (step rules s op).2.assignments[i]? = some a' ∧
        (a.status = Status.returned → a' = a) ∧
        (a'.status ≠ a.status →
          a.status = Status.issued ∧ a'.status = Status.returned ∧
          ∃ now, op = Op.returnBook now a._id)) ∧
    (∀ (i : Nat) (a' : Assignment), s.assignments.length ≤ i →
      (step rules s op).2.assignments[i]? = some a' →
      a'.status = Status.issued ∧
      ∃ now lag bookId userId, op = Op.issueBook now lag bookId userId) := by
  rcases step_assignments rules s op with hs | ⟨now, lag, bookId, userId, hop, hs⟩ |
    ⟨now, assignmentId, loan, hop, hl, hst, hs⟩
  · rw [hs]
    refine ⟨fun i a h => ⟨a, h, fun _ => rfl, fun hne => absurd rfl hne⟩, ?_⟩
    intro i a' hi h
    rw [List.getElem?_eq_none hi] at h
    cases h
  · rw [hs]
    refine ⟨?_, ?_⟩
    · intro i a h
      refine ⟨a, ?_, fun _ => rfl, fun hne => absurd rfl hne⟩
      rw [List.getElem?_append_left (List.getElem?_eq_some.1 h).1]
      exact h
    · intro i a' hi h
      rw [List.getElem?_append_right hi] at h
      have hlt : i - s.assignments.length < 1 := by
        by_contra hge
        rw [List.getElem?_eq_none (by simp only [List.length_singleton]; omega)] at h
        cases h
      have h0 : i - s.assignments.length = 0 := by omega
      rw [h0] at h
      simp only [List.getElem?_cons_zero, Option.some.injEq] at h
      subst h
      exact ⟨rfl, now, lag, bookId, userId, hop⟩
  · rw [hs]
    refine ⟨?_, ?_⟩
    · intro i a h
      rcases getElem?_updateOne (fun x => x._id == loan._id)
          (fun _ => { loan with status := Status.returned, returnDate := some now })
          s.assignments i a h with h1 | ⟨h1, h2⟩
      · exact ⟨a, h1, fun _ => rfl, fun hne => absurd rfl hne⟩
      · have hlid := Assignment.findById_id s assignmentId loan hl
        have hfind : s.assignments.find? (fun x => x._id == loan._id) = some loan := by
          rw [hlid]; exact hl
        rw [hfind] at h1
        simp only [Option.some.injEq] at h1
        subst h1
        refine ⟨_, h2, ?_, ?_⟩
        · intro hr
          rw [hst] at hr
          cases hr
        · intro _
          exact ⟨hst, rfl, now, by rw [hop, hlid]⟩
    · intro i a' hi h
      rw [← updateOne_length (fun x => x._id == loan._id)
        (fun _ => { loan with status := Status.returned, returnDate := some now })
        s.assignments] at hi
      rw [List.getElem?_eq_none hi] at h
      cases h

/-- Witness for C9 on the sample store: the returned loan at position 2 goes unchanged
through a `returnBook` of it, the issued loan at position 1 becomes `returned` through a
`returnBook` of it, and the loan added at position 3 by an `issueBook` is `issued`. -/
theorem loan_status_machine_witness :
    (∃ a', (step TextRules.permissive sampleStore (Op.returnBook 3000 7)).2.assignments[2]?
        = some a' ∧
      (Status.returned = Status.returned → a' = sampleLoan 7 1 3 Status.returned (some 2000)) ∧
      (a'.status ≠ Status.returned →
        Status.returned = Status.issued ∧ a'.status = Status.returned ∧
        ∃ now, Op.returnBook 3000 7 = Op.returnBook now 7)) ∧
    ((step TextRules.permissive sampleStore (Op.returnBook 3000 6)).2.assignments[1]? =
      some { sampleLoan 6 1 4 Status.issued none with
        status := Status.returned, returnDate := some 3000 }) ∧
    (({ _id := 8, bookId := 1, userId := 3, issueDate := 3000, dueDate := addDays 3000 14,
        returnDate := none, status := Status.issued } : Assignment).status = Status.issued ∧
      ∃ now lag bookId userId, Op.issueBook 3000 0 1 3 = Op.issueBook now lag bookId userId) :=
  ⟨(loan_status_machine TextRules.permissive sampleStore (Op.returnBook 3000 7)).1 2
      (sampleLoan 7 1 3 Status.returned (some 2000)) (by decide),
   by decide,
   (loan_status_machine TextRules.permissive sampleStore (Op.issueBook 3000 0 1 3)).2 3
      ({ _id := 8, bookId := 1, userId := 3, issueDate := 3000, dueDate := addDays 3000 14,
          returnDate := none, status := Status.issued } : Assignment) (by decide) (by decide)⟩

/-! ## The delete guard -/

theorem countP_activeForBook_pos (s : Store) (id : Nat) :
    0 < s.assignments.countP (activeForBook id) ↔
      ∃ a ∈ s.assignments, a.bookId = id ∧ a.status = Status.issued := by
  rw [List.countP_pos_iff]
  simp only [activeForBook_iff]

theorem countP_activeForUser_pos (s : Store) (id : Nat) :
    0 < s.assignments.countP (activeForUser id) ↔
      ∃ a ∈ s.assignments, a.userId = id ∧ a.status = Status.issued := by
  rw [List.countP_pos_iff]
  simp [activeForUser]

theorem User.findById_split_users (s : Store) (id : Nat) (user : User)
    (h : User.findById s id = some user) :
    ∃ pre post, s.users = pre ++ user :: post ∧ (∀ u ∈ pre, u._id ≠ id) ∧ user._id = id := by
  obtain ⟨pre, post, hl, hpre, hx⟩ := find_split _ _ _ h
  refine ⟨pre, post, hl, ?_, by simpa using hx⟩
  intro u hu
  simpa using hpre u hu

/-- Controller `deleteBook` on a stored book. -/
theorem deleteBook_guard (s : Store) (id : Nat) (book : Book)
    (hb : Book.findById s id = some book) :
    ((∃ a ∈ s.assignments, a.bookId = id ∧ a.status = Status.issued) →
      (deleteBook s id).1.status = 400 ∧
      (deleteBook s id).1.message = "Cannot delete book with active assignments" ∧
      (deleteBook s id).2 = s) ∧
    ((¬ ∃ a ∈ s.assignments, a.bookId = id ∧ a.status = Status.issued) →
      (deleteBook s id).1.status = 200 ∧
      (deleteBook s id).1.message = "Book deleted successfully" ∧
      (∃ pre post, s.books = pre ++ book :: post ∧ (deleteBook s id).2.books = pre ++ post) ∧
      (deleteBook s id).2.users = s.users ∧
      (deleteBook s id).2.assignments = s.assignments) := by
  constructor
  · intro h
    have hpos := (countP_activeForBook_pos s id).2 h
    simp [deleteBook, hb, hpos]
  · intro h
    have hz : ¬ 0 < s.assignments.countP (activeForBook id) :=
      fun hpos => h ((countP_activeForBook_pos s id).1 hpos)
    obtain ⟨pre, post, hl, hpre, hid⟩ := Book.findById_split_books s id book hb
    have hz' : s.assignments.countP (activeForBook id) = 0 := by omega
    refine ⟨?_, ?_, ⟨pre, post, hl, ?_⟩, ?_, ?_⟩
    · simp [deleteBook, hb, hz']
    · simp [deleteBook, hb, hz']
    · have he : (deleteBook s id).2.books = s.books.eraseP (fun b => b._id == id) := by
        simp [deleteBook, hb, hz']
      rw [he, hl]
      exact eraseP_append_first _ pre post book (by simpa using hpre) (by simpa using hid)
    · simp [deleteBook, hb, hz']
    · simp [deleteBook, hb, hz']

/-- Controller `deleteUser` on a stored user. -/
theorem deleteUser_guard (s : Store) (id : Nat) (user : User)
    (hu : User.findById s id = some user) :
    ((∃ a ∈ s.assignments, a.userId = id ∧ a.status = Status.issued) →
      (deleteUser s id).1.status = 400 ∧
      (deleteUser s id).1.message = "Cannot delete user with active book assignments" ∧
      (deleteUser s id).2 = s) ∧
    ((¬ ∃ a ∈ s.assignments, a.userId = id ∧ a.status = Status.issued) →
      (deleteUser s id).1.status = 200 ∧
      (deleteUser s id).1.message = "User deleted successfully" ∧
      (∃ pre post, s.users = pre ++ user :: post ∧ (deleteUser s id).2.users = pre ++ post) ∧
      (deleteUser s id).2.books = s.books ∧
      (deleteUser s id).2.assignments = s.assignments) := by
  constructor
  · intro h
    have hpos := (countP_activeForUser_pos s id).2 h
    simp [deleteUser, hu, hpos]
  · intro h
    have hz : ¬ 0 < s.assignments.countP (activeForUser id) :=
      fun hpos => h ((countP_activeForUser_pos s id).1 hpos)
    obtain ⟨pre, post, hl, hpre, hid⟩ := User.findById_split_users s id user hu
    have hz' : s.assignments.countP (activeForUser id) = 0 := by omega
    refine ⟨?_, ?_, ⟨pre, post, hl, ?_⟩, ?_, ?_⟩
    · simp [deleteUser, hu, hz']
    · simp [deleteUser, hu, hz']
    · have he : (deleteUser s id).2.users = s.users.eraseP (fun u => u._id == id) := by
        simp [deleteUser, hu, hz']
      rw [he, hl]
      exact eraseP_append_first _ pre post user (by simpa using hpre) (by simpa using hid)
    · simp [deleteUser, hu, hz']
    · simp [deleteUser, hu, hz']

/-- C10: for a stored book (resp. user), `deleteBook` (resp. `deleteUser`) is answered 400
'Cannot delete book with active assignments' (resp. 'Cannot delete user with active book
assignments') exactly when some loan with status `issued` refers to it, and then the store
is unchanged; when no issued loan refers to it, whatever returned loans do, the call is
answered 200 and removes that book (resp. user) and nothing else: the other books and users
and the whole ledger stay. -/
theorem delete_guard (s : Store) (id : Nat) :
    (∀ book, Book.findById s id = some book →
      ((deleteBook s id).1.status = 400 ↔
        ∃ a ∈ s.assignments, a.bookId = id ∧ a.status = Status.issued) ∧
      ((∃ a ∈ s.assignments, a.bookId = id ∧ a.status = Status.issued) →
        (deleteBook s id).1.message = "Cannot delete book with active assignments" ∧
        (deleteBook s id).2 = s) ∧
      ((¬ ∃ a ∈ s.assignments, a.bookId = id ∧ a.status = Status.issued) →
        (deleteBook s id).1.status = 200 ∧
        (∃ pre post, s.books = pre ++ book :: post ∧
          (deleteBook s id).2.books = pre ++ post) ∧
        (deleteBook s id).2.users = s.users ∧
        (deleteBook s id).2.assignments = s.assignments)) ∧
    (∀ user, User.findById s id = some user →
      ((deleteUser s id).1.status = 400 ↔
        ∃ a ∈ s.assignments, a.userId = id ∧ a.status = Status.issued) ∧
      ((∃ a ∈ s.assignments, a.userId = id ∧ a.status = Status.issued) →
        (deleteUser s id).1.message = "Cannot delete user with active book assignments" ∧
        (deleteUser s id).2 = s) ∧
      ((¬ ∃ a ∈ s.assignments, a.userId = id ∧ a.status = Status.issued) →
        (deleteUser s id).1.status = 200 ∧
        (∃ pre post, s.users = pre ++ user :: post ∧
          (deleteUser s id).2.users = pre ++ post) ∧
        (deleteUser s id).2.books = s.books ∧
        (deleteUser s id).2.assignments = s.assignments)) := by
  constructor
  · intro book hb
    obtain ⟨h1, h2⟩ := deleteBook_guard s id book hb
    refine ⟨⟨?_, fun h => (h1 h).1⟩, fun h => (h1 h).2, fun h => ?_⟩
    · intro hst
      by_contra hn
      rw [(h2 hn).1] at hst
      cases hst
    · exact ⟨(h2 h).1, (h2 h).2.2⟩
  · intro user hu
    obtain ⟨h1, h2⟩ := deleteUser_guard s id user hu
    refine ⟨⟨?_, fun h => (h1 h).1⟩, fun h => (h1 h).2, fun h => ?_⟩
    · intro hst
      by_contra hn
      rw [(h2 hn).1] at hst
      cases hst
    · exact ⟨(h2 h).1, (h2 h).2.2⟩

/-- Witness for C10 on the sample store: book 1 has an issued loan and cannot be deleted;
user 3 has only a returned loan and is deleted, the ledger staying whole. -/
theorem delete_guard_witness :
    ((deleteBook sampleStore 1).1.message = "Cannot delete book with active assignments" ∧
      (deleteBook sampleStore 1).2 = sampleStore) ∧
    ((deleteUser sampleStore 3).1.status = 200 ∧
      (∃ pre post, sampleStore.users = pre ++ sampleUser 3 :: post ∧
        (deleteUser sampleStore 3).2.users = pre ++ post) ∧
      (deleteUser sampleStore 3).2.books = sampleStore.books ∧
      (deleteUser sampleStore 3).2.assignments = sampleStore.assignments) :=
  ⟨((delete_guard sampleStore 1).1 (sampleBook 1 3 2) (by decide)).2.1 (by decide),
   ((delete_guard sampleStore 3).2 (sampleUser 3) (by decide)).2.2 (by decide)⟩

/-! ## Failed preconditions change nothing -/

theorem issueBook_failed_precondition (s : Store) (now : Int) (lag : Nat) (bookId userId : Nat)
    (h : (issueBook s now lag bookId userId).1.status = 404 ∨
      (issueBook s now lag bookId userId).1.status = 400) :
    (issueBook s now lag bookId userId).2 = s := by
  unfold issueBook at h ⊢
  split
  · rfl
  · split
    · rfl
    · split
      · rfl
      · split
        · rfl
        · dsimp only at h ⊢
          split
          · rfl
          · split
            · rename_i h1 h2 h3 h4 h5 h6 h7 h8
              simp [*] at h
            · rename_i h1 h2 h3 h4 h5 h6 h7 h8
              simp [*] at h

theorem returnBook_failed_precondition (s : Store) (now : Int) (assignmentId : Nat)
    (h : (returnBook s now assignmentId).1.status = 404 ∨
      (returnBook s now assignmentId).1.status = 400) :
    (returnBook s now assignmentId).2 = s := by
  unfold returnBook at h ⊢
  split
  · rfl
  · split
    · rfl
    · split
      · rfl
      · split
        · simp [*] at h
        · split
          · simp [*] at h
          · simp [*] at h

theorem deleteBook_failed_precondition (s : Store) (id : Nat)
    (h : (deleteBook s id).1.status = 404 ∨ (deleteBook s id).1.status = 400) :
    (deleteBook s id).2 = s := by
  unfold deleteBook at h ⊢
  split
  · rfl
  · dsimp only at h ⊢
    split
    · rfl
    · simp [*] at h

theorem deleteUser_failed_precondition (s : Store) (id : Nat)
    (h : (deleteUser s id).1.status = 404 ∨ (deleteUser s id).1.status = 400) :
    (deleteUser s id).2 = s := by
  unfold deleteUser at h ⊢
  split
  · rfl
  · dsimp only at h ⊢
    split
    · rfl
    · simp [*] at h

theorem updateBookCopies_failed_precondition (rules : TextRules) (s : Store) (id : Nat)
    (body : BookUpdate) (book : Book)
    (h : (updateBookCopies rules s id body book).1.status = 404 ∨
      (updateBookCopies rules s id body book).1.status = 400) :
    (updateBookCopies rules s id body book).2 = s := by
  unfold updateBookCopies at h ⊢
  dsimp only at h ⊢
  split at h
  · rename_i hc
    rw [if_pos hc]
  · rename_i hc
    rw [if_neg hc]
    split at h
    · rfl
    · simp at h

/-- The controller `updateBook` on a stored book either stops at the ISBN check or runs
its tail. -/
theorem updateBook_cases (rules : TextRules) (s : Store) (id : Nat) (body : BookUpdate)
    (book : Book) (hb : Book.findById s id = some book) :
    updateBook rules s id body =
        (⟨400, false, "Book with this ISBN already exists", none⟩, s) ∨
      updateBook rules s id body = updateBookCopies rules s id body book := by
  unfold updateBook
  rw [hb]
  dsimp only
  split
  · split
    · left; rfl
    · right; rfl
  · right; rfl

theorem updateBook_failed_precondition (rules : TextRules) (s : Store) (id : Nat)
    (body : BookUpdate)
    (h : (updateBook rules s id body).1.status = 404 ∨
      (updateBook rules s id body).1.status = 400) :
    (updateBook rules s id body).2 = s := by
  cases hb : Book.findById s id with
  | none => simp [updateBook, hb]
  | some book =>
    rcases updateBook_cases rules s id body book hb with k | k
    · rw [k]
    · rw [k] at h ⊢
      exact updateBookCopies_failed_precondition rules s id body book h

/-- C11: whenever `issueBook`, `returnBook`, `deleteBook`, `deleteUser` or `updateBook`
answers 404 or 400, the store it leaves (books, users, ledger) is the store it was given. -/
theorem failed_precondition_changes_nothing (rules : TextRules) (s : Store) :
    (∀ now lag bookId userId,
      (issueBook s now lag bookId userId).1.status = 404 ∨
        (issueBook s now lag bookId userId).1.status = 400 →
      (issueBook s now lag bookId userId).2 = s) ∧
    (∀ now assignmentId,
      (returnBook s now assignmentId).1.status = 404 ∨
        (returnBook s now assignmentId).1.status = 400 →
      (returnBook s now assignmentId).2 = s) ∧
    (∀ id, (deleteBook s id).1.status = 404 ∨ (deleteBook s id).1.status = 400 →
      (deleteBook s id).2 = s) ∧
    (∀ id, (deleteUser s id).1.status = 404 ∨ (deleteUser s id).1.status = 400 →
      (deleteUser s id).2 = s) ∧
    (∀ id body,
      (updateBook rules s id body).1.status = 404 ∨
        (updateBook rules s id body).1.status = 400 →
      (updateBook rules s id body).2 = s) :=
  ⟨fun now lag bookId userId h => issueBook_failed_precondition s now lag bookId userId h,
   fun now assignmentId h => returnBook_failed_precondition s now assignmentId h,
   fun id h => deleteBook_failed_precondition s id h,
   fun id h => deleteUser_failed_precondition s id h,
   fun id body h => updateBook_failed_precondition rules s id body h⟩

/-- Witness for C11 on the sample store: an issue of the book without a free copy (400), a
return of a returned loan (400), a delete of a book and of a user with an issued loan
(400) and an update of an unknown book (404). -/
theorem failed_precondition_changes_nothing_witness :
    (issueBook sampleStore 3000 0 2 3).2 = sampleStore ∧
    (returnBook sampleStore 3000 7).2 = sampleStore ∧
    (deleteBook sampleStore 1).2 = sampleStore ∧
    (deleteUser sampleStore 4).2 = sampleStore ∧
    (updateBook TextRules.permissive sampleStore 9 ⟨none, none, none, some 5, none⟩).2 =
      sampleStore :=
  ⟨(failed_precondition_changes_nothing TextRules.permissive sampleStore).1 3000 0 2 3
      (Or.inr (by decide)),
   (failed_precondition_changes_nothing TextRules.permissive sampleStore).2.1 3000 7
      (Or.inr (by decide)),
   (failed_precondition_changes_nothing TextRules.permissive sampleStore).2.2.1 1
      (Or.inr (by decide)),
   (failed_precondition_changes_nothing TextRules.permissive sampleStore).2.2.2.1 4
      (Or.inr (by decide)),
   (failed_precondition_changes_nothing TextRules.permissive sampleStore).2.2.2.2 9
      ⟨none, none, none, some 5, none⟩ (Or.inl (by decide))⟩

/-! ## Requests that overlap, storage calls that fail -/

/-- A request that runs on its own, with no storage call throwing, is `issueBook`. -/
theorem IssuePc.run_alone (s : Store) (req : IssueRequest) :
    IssuePc.run req s IssuePc.findBook sixCalls =
    (IssuePc.done (issueBook s req.now req.lag req.bookId req.userId).1,
      (issueBook s req.now req.lag req.bookId req.userId).2) := by
  unfold sixCalls
  cases hb : Book.findById s req.bookId with
  | none => simp [IssuePc.run, IssuePc.step, issueBook, hb]
  | some book =>
    by_cases ha : book.availableCopies ≤ 0
    · simp [IssuePc.run, IssuePc.step, issueBook, hb, ha]
    · cases hu : User.findById s req.userId with
      | none => simp [IssuePc.run, IssuePc.step, issueBook, hb, ha, hu]
      | some user =>
        cases hf : s.assignments.find? (activeFor req.bookId req.userId) with
        | some a => simp [IssuePc.run, IssuePc.step, issueBook, hb, ha, hu, hf]
        | none =>
          have hins := insert_newLoan s req.now req.lag req.bookId req.userId hf
          by_cases hv : Book.validate { book with availableCopies := book.availableCopies - 1 } = true
          · simp [IssuePc.run, IssuePc.step, issueBook, hb, ha, hu, hf, hins, Book.save, hv]
          · simp [IssuePc.run, IssuePc.step, issueBook, hb, ha, hu, hf, hins, Book.save, hv]

/-- A request whose four checks pass, whose loan is inserted and whose `book.save()` then
fails: the answer and the store it leaves. -/
theorem IssuePc.run_book_save_fails (s : Store) (req : IssueRequest) (o : Outcome)
    (book : Book) (user : User)
    (hb : Book.findById s req.bookId = some book) (ha : 0 < book.availableCopies)
    (hu : User.findById s req.userId = some user)
    (hf : s.assignments.find? (activeFor req.bookId req.userId) = none)
    (hfail : o = Outcome.throws ∨
      Book.validate { book with availableCopies := book.availableCopies - 1 } = false) :
    IssuePc.run req s IssuePc.findBook
        [Outcome.ok, Outcome.ok, Outcome.ok, Outcome.ok, o] =
      (IssuePc.done ⟨500, false, "Error issuing book", none⟩,
        { s with
          assignments := s.assignments ++
            [{ _id := s.nextId, bookId := req.bookId, userId := req.userId,
               issueDate := req.now, dueDate := addDays (req.now + req.lag) 14,
               returnDate := none, status := Status.issued }],
          nextId := s.nextId + 1 }) := by
  have hins := insert_newLoan s req.now req.lag req.bookId req.userId hf
  have ha' : ¬ book.availableCopies ≤ 0 := not_le.2 ha
  rcases hfail with ho | hv
  · subst ho
    simp [IssuePc.run, IssuePc.step, hb, ha', hu, hf, hins]
  · cases o with
    | throws => simp [IssuePc.run, IssuePc.step, hb, ha', hu, hf, hins]
    | ok => simp [IssuePc.run, IssuePc.step, hb, ha', hu, hf, hins, Book.save, hv]

/-- C12 (amended): on a store that satisfies the inventory-ledger invariant, when
`issueBook` passes its four checks and inserts the loan but the following `book.save()`
fails (it throws, or the document is rejected), the request is answered 500 and leaves
the store with the new issued loan and the books unchanged: for the book of the loan
`totalCopies - availableCopies` is one less than the number of its issued loans, and for
every other book the invariant still holds. -/
theorem issue_without_decrement (s : Store) (req : IssueRequest) (o : Outcome)
    (book : Book) (user : User)
    (hinv : ∀ b ∈ s.books, b.totalCopies - b.availableCopies = (issuedCount s b._id : Int))
    (hb : Book.findById s req.bookId = some book) (ha : 0 < book.availableCopies)
    (hu : User.findById s req.userId = some user)
    (hf : ¬ HasActiveLoan s req.bookId req.userId)
    (hfail : o = Outcome.throws ∨
      Book.validate { book with availableCopies := book.availableCopies - 1 } = false) :
    (IssuePc.run req s IssuePc.findBook
        [Outcome.ok, Outcome.ok, Outcome.ok, Outcome.ok, o]).1 =
      IssuePc.done ⟨500, false, "Error issuing book", none⟩ ∧
    (IssuePc.run req s IssuePc.findBook
        [Outcome.ok, Outcome.ok, Outcome.ok, Outcome.ok, o]).2.books = s.books ∧
    (∃ loan : Assignment,
      (IssuePc.run req s IssuePc.findBook
        [Outcome.ok, Outcome.ok, Outcome.ok, Outcome.ok, o]).2.assignments =
          s.assignments ++ [loan] ∧
      loan.bookId = req.bookId ∧ loan.userId = req.userId ∧ loan.status = Status.issued) ∧
    (∀ b ∈ (IssuePc.run req s IssuePc.findBook
        [Outcome.ok, Outcome.ok, Outcome.ok, Outcome.ok, o]).2.books,
      b.totalCopies - b.availableCopies + (if b._id = req.bookId then 1 else 0) =
        (issuedCount (IssuePc.run req s IssuePc.findBook
          [Outcome.ok, Outcome.ok, Outcome.ok, Outcome.ok, o]).2 b._id : Int)) := by
  have hf' := (find_activeFor_none s req.bookId req.userId).1 hf
  rw [IssuePc.run_book_save_fails s req o book user hb ha hu hf' hfail]
  refine ⟨rfl, rfl, ⟨_, rfl, rfl, rfl, rfl⟩, ?_⟩
  intro b hbm
  have hled := hinv b hbm
  simp only [issuedCount, countP_append_loan] at hled ⊢
  by_cases hid : b._id = req.bookId
  · have hact : activeForBook req.bookId
        { _id := s.nextId, bookId := req.bookId, userId := req.userId,
          issueDate := req.now, dueDate := addDays (req.now + req.lag) 14,
          returnDate := none, status := Status.issued } = true := by
      simp [activeForBook]
    rw [hid] at hled
    simp only [hid, hact, if_true]
    push_cast
    omega
  · have : activeForBook b._id
        { _id := s.nextId, bookId := req.bookId, userId := req.userId,
          issueDate := req.now, dueDate := addDays (req.now + req.lag) 14,
          returnDate := none, status := Status.issued } = false := by
      simp [activeForBook, Ne.symm hid]
    simp only [this, hid, if_false]
    simp only [Bool.false_eq_true, if_false, add_zero]
    exact hled

/-- Counterexample to C12 as stated: the shelf store satisfies the invariant; the request
inserts its loan, `book.save()` throws, the answer is 500, and the store left behind does
not satisfy the invariant. -/
theorem book_save_throws_breaks_ledger :
    LedgerInv shelfStore ∧
    (IssuePc.run ⟨3000, 0, 1, 2⟩ shelfStore IssuePc.findBook
        [Outcome.ok, Outcome.ok, Outcome.ok, Outcome.ok, Outcome.throws]).1 =
      IssuePc.done ⟨500, false, "Error issuing book", none⟩ ∧
    ¬ LedgerInv (IssuePc.run ⟨3000, 0, 1, 2⟩ shelfStore IssuePc.findBook
        [Outcome.ok, Outcome.ok, Outcome.ok, Outcome.ok, Outcome.throws]).2 := by
  decide

/-- Witness for C12 (amended) on the shelf store: after the failed `book.save()` the book
still has 3 of 3 copies available and one issued loan. -/
theorem issue_without_decrement_witness :
    (IssuePc.run ⟨3000, 0, 1, 2⟩ shelfStore IssuePc.findBook
        [Outcome.ok, Outcome.ok, Outcome.ok, Outcome.ok, Outcome.throws]).1 =
      IssuePc.done ⟨500, false, "Error issuing book", none⟩ ∧
    (IssuePc.run ⟨3000, 0, 1, 2⟩ shelfStore IssuePc.findBook
        [Outcome.ok, Outcome.ok, Outcome.ok, Outcome.ok, Outcome.throws]).2.books =
      shelfStore.books ∧
    (∃ loan : Assignment,
      (IssuePc.run ⟨3000, 0, 1, 2⟩ shelfStore IssuePc.findBook
        [Outcome.ok, Outcome.ok, Outcome.ok, Outcome.ok, Outcome.throws]).2.assignments =
          shelfStore.assignments ++ [loan] ∧
      loan.bookId = 1 ∧ loan.userId = 2 ∧ loan.status = Status.issued) ∧
    (∀ b ∈ (IssuePc.run ⟨3000, 0, 1, 2⟩ shelfStore IssuePc.findBook
        [Outcome.ok, Outcome.ok, Outcome.ok, Outcome.ok, Outcome.throws]).2.books,
      b.totalCopies - b.availableCopies + (if b._id = 1 then 1 else 0) =
        (issuedCount (IssuePc.run ⟨3000, 0, 1, 2⟩ shelfStore IssuePc.findBook
          [Outcome.ok, Outcome.ok, Outcome.ok, Outcome.ok, Outcome.throws]).2 b._id : Int)) :=
  issue_without_decrement shelfStore ⟨3000, 0, 1, 2⟩ Outcome.throws (sampleBook 1 3 3)
    (sampleUser 2) (by decide) (by decide) (by decide) (by decide) (by decide)
    (Or.inl rfl)

/-- A request suspended at the insert of its loan, while an issued loan for its pair is
stored: the unique index rejects the insert and the `catch` block answers 500. -/
theorem IssuePc.step_insert_rejected (req : IssueRequest) (s : Store) (book : Book)
    (h : HasActiveLoan s req.bookId req.userId) :
    IssuePc.step req s Outcome.ok (IssuePc.saveLoan book) =
      (IssuePc.done ⟨500, false, "Error issuing book", none⟩, s) := by
  obtain ⟨a, ha, hb, hu, hst⟩ := h
  have hany : s.assignments.any (activeFor req.bookId req.userId) = true := by
    rw [List.any_eq_true]
    exact ⟨a, ha, (activeFor_iff _ _ _).2 ⟨hb, hu, hst⟩⟩
  simp [IssuePc.step, Assignment.insert, newLoan_validate, Assignment.preSave, hany]

/-- C13, the code at the failing input: two `issueBook` requests for the same book and
user overlap on the shelf store; both pass the duplicate-loan check, the left one inserts
its loan, and the insert of the right one is rejected by the unique index: the right
request is answered 500 'Error issuing book', the answer of every failed storage call,
and not a 400. -/
theorem duplicate_insert_answered_500 :
    (Race.run ⟨3000, 0, 1, 2⟩ ⟨3000, 0, 1, 2⟩ (Race.start shelfStore)
      (readsThenInserts.take 7)).right = IssuePc.saveLoan (sampleBook 1 3 3) ∧
    HasActiveLoan (Race.run ⟨3000, 0, 1, 2⟩ ⟨3000, 0, 1, 2⟩ (Race.start shelfStore)
      (readsThenInserts.take 7)).store 1 2 ∧
    (Race.run ⟨3000, 0, 1, 2⟩ ⟨3000, 0, 1, 2⟩ (Race.start shelfStore)
      readsThenInserts).right = IssuePc.done ⟨500, false, "Error issuing book", none⟩ ∧
    (IssuePc.step ⟨3000, 0, 1, 2⟩ shelfStore Outcome.throws (IssuePc.saveLoan
      (sampleBook 1 3 3))).1 = IssuePc.done ⟨500, false, "Error issuing book", none⟩ := by
  decide

theorem Race.run_append (reqL reqR : IssueRequest) (c : Race) (ts us : List Turn) :
    Race.run reqL reqR c (ts ++ us) = Race.run reqL reqR (Race.run reqL reqR c ts) us := by
  induction ts generalizing c with
  | nil => rfl
  | cons t ts ih => exact ih _

/-- While only the left request takes turns, it runs as it would on its own. -/
theorem Race.run_left_turns (reqL reqR : IssueRequest) (c : Race) (os : List Outcome) :
    Race.run reqL reqR c (os.map Turn.left) =
      { store := (IssuePc.run reqL c.store c.left os).2,
        left := (IssuePc.run reqL c.store c.left os).1,
        right := c.right } := by
  induction os generalizing c with
  | nil => rfl
  | cons o os ih =>
    simp only [List.map_cons, Race.run, IssuePc.run]
    rw [ih]
    rfl

/-- While only the right request takes turns, it runs as it would on its own. -/
theorem Race.run_right_turns (reqL reqR : IssueRequest) (c : Race) (os : List Outcome) :
    Race.run reqL reqR c (os.map Turn.right) =
      { store := (IssuePc.run reqR c.store c.right os).2,
        left := c.left,
        right := (IssuePc.run reqR c.store c.right os).1 } := by
  induction os generalizing c with
  | nil => rfl
  | cons o os ih =>
    simp only [List.map_cons, Race.run, IssuePc.run]
    rw [ih]
    rfl

/-- Two requests that do not overlap are two calls of `issueBook`, one after the other. -/
theorem Race.run_oneAfterTheOther (reqL reqR : IssueRequest) (s : Store) :
    Race.run reqL reqR (Race.start s) oneAfterTheOther =
      { store := (issueBook (issueBook s reqL.now reqL.lag reqL.bookId reqL.userId).2
          reqR.now reqR.lag reqR.bookId reqR.userId).2,
        left := IssuePc.done (issueBook s reqL.now reqL.lag reqL.bookId reqL.userId).1,
        right := IssuePc.done (issueBook
          (issueBook s reqL.now reqL.lag reqL.bookId reqL.userId).2
          reqR.now reqR.lag reqR.bookId reqR.userId).1 } := by
  unfold oneAfterTheOther
  rw [Race.run_append, Race.run_left_turns, Race.run_right_turns]
  simp only [Race.start, IssuePc.run_alone]

/-- The answer of `issueBook` when its four checks pass and the book document is valid. -/
theorem issueBook_checks_pass (s : Store) (now : Int) (lag : Nat) (bookId userId : Nat)
    (book : Book) (user : User)
    (hb : Book.findById s bookId = some book) (ha : 0 < book.availableCopies)
    (hu : User.findById s userId = some user)
    (hf : s.assignments.find? (activeFor bookId userId) = none)
    (hv : Book.validate { book with availableCopies := book.availableCopies - 1 } = true) :
    issueBook s now lag bookId userId =
      (⟨201, true, "Book issued successfully",
        (Assignment.findById (issueBook s now lag bookId userId).2 s.nextId).map
          Doc.assignment⟩,
       { books := updateOne (fun x => x._id == book._id)
            (fun _ => { book with availableCopies := book.availableCopies - 1 }) s.books,
         users := s.users,
         assignments := s.assignments ++
            [{ _id := s.nextId, bookId := bookId, userId := userId, issueDate := now,
               dueDate := addDays (now + lag) 14, returnDate := none,
               status := Status.issued }],
         nextId := s.nextId + 1 }) := by
  simp [issueBook, hb, not_le.2 ha, hu, hf, insert_newLoan s now lag bookId userId hf,
    Book.save, hv, Book.preSave_of_validate _ hv]

/-- Two requests for a book with `availableCopies = 1` that do not overlap, the first
passing its user and duplicate-loan checks: the first is answered 201 and the second 400
'Book is not available for issue'; one loan is added and the book is left with
`availableCopies = 0`. -/
theorem oneAfterTheOther_last_copy (s : Store) (reqL reqR : IssueRequest)
    (book : Book) (user : User)
    (hb : Book.findById s reqL.bookId = some book) (hsame : reqR.bookId = reqL.bookId)
    (hone : book.availableCopies = 1)
    (htotal : 1 ≤ book.totalCopies ∧ book.totalCopies ≤ 1000)
    (hu : User.findById s reqL.userId = some user)
    (hf : ¬ HasActiveLoan s reqL.bookId reqL.userId) :
    (∃ data, (Race.run reqL reqR (Race.start s) oneAfterTheOther).left =
      IssuePc.done ⟨201, true, "Book issued successfully", data⟩) ∧
    (Race.run reqL reqR (Race.start s) oneAfterTheOther).right =
      IssuePc.done ⟨400, false, "Book is not available for issue", none⟩ ∧
    (∃ loan : Assignment,
      (Race.run reqL reqR (Race.start s) oneAfterTheOther).store.assignments =
        s.assignments ++ [loan] ∧
      loan.bookId = reqL.bookId ∧ loan.userId = reqL.userId ∧
      loan.status = Status.issued) ∧
    Book.findById (Race.run reqL reqR (Race.start s) oneAfterTheOther).store reqL.bookId =
      some { book with availableCopies := 0 } := by
  have hf' := (find_activeFor_none s reqL.bookId reqL.userId).1 hf
  have hv : Book.validate { book with availableCopies := book.availableCopies - 1 } = true := by
    simp only [Book.validate, Bool.and_eq_true, decide_eq_true_eq]
    omega
  have hfirst := issueBook_checks_pass s reqL.now reqL.lag reqL.bookId reqL.userId book user
    hb (by omega) hu hf' hv
  obtain ⟨pre, post, hl, hpre, hid⟩ := Book.findById_split_books s reqL.bookId book hb
  have hbooks : updateOne (fun x => x._id == book._id)
      (fun _ => { book with availableCopies := book.availableCopies - 1 }) s.books =
      pre ++ { book with availableCopies := book.availableCopies - 1 } :: post := by
    rw [hl]
    exact updateOne_append _ _ pre post book (by simpa [hid] using hpre) (by simp)
  have hb1 : Book.findById (issueBook s reqL.now reqL.lag reqL.bookId reqL.userId).2
      reqL.bookId = some { book with availableCopies := book.availableCopies - 1 } := by
    rw [hfirst]
    unfold Book.findById
    simp only
    rw [hbooks, find_append_first _ pre post _ (by simpa using hpre)]
    simp [hid]
  have hsecond : issueBook (issueBook s reqL.now reqL.lag reqL.bookId reqL.userId).2
      reqR.now reqR.lag reqR.bookId reqR.userId =
      (⟨400, false, "Book is not available for issue", none⟩,
        (issueBook s reqL.now reqL.lag reqL.bookId reqL.userId).2) := by
    rw [hsame]
    have hle : book.availableCopies - 1 ≤ 0 := by omega
    generalize (issueBook s reqL.now reqL.lag reqL.bookId reqL.userId).2 = s1 at hb1 ⊢
    simp [issueBook, hb1, hle]
  rw [Race.run_oneAfterTheOther, hsecond]
  refine ⟨⟨_, by rw [hfirst]⟩, rfl, ?_, ?_⟩
  · simp only
    rw [hfirst]
    exact ⟨_, rfl, rfl, rfl, rfl⟩
  · simp only
    rw [hb1, hone]
    rfl

/-! ## Two requests for the last copy -/

/-- After the document found under an id has been rewritten, the rewritten document is
found under that id. -/
theorem find_updateOne_id (books : List Book) (id : Nat) (book b : Book)
    (hb : books.find? (fun x => x._id == id) = some book) (hid : b._id = id) :
    (updateOne (fun x => x._id == id) (fun _ => b) books).find? (fun x => x._id == id) =
      some b := by
  obtain ⟨pre, post, hl, hpre, hx⟩ := find_split _ _ _ hb
  rw [hl, updateOne_append _ _ pre post book hpre hx, find_append_first _ pre post _ hpre]
  simp [hid]

/-- The document found under an id carries that id. -/
theorem Book.findById_book_id (s : Store) (id : Nat) (book : Book)
    (hb : Book.findById s id = some book) : book._id = id := by
  have h := List.find?_some hb
  simpa using h

/-- An accepted save of the book with one copy less, by a request that read the book
with one available copy: the book is then found with no copy left. -/
theorem Book.save_last_copy (st st1 : Store) (bookId : Nat) (book cur : Book)
    (hid : book._id = bookId) (hone : book.availableCopies = 1)
    (hcur : Book.findById st bookId = some cur)
    (h : Book.save st { book with availableCopies := book.availableCopies - 1 } = some st1) :
    Book.findById st1 bookId = some { book with availableCopies := 0 } ∧
      st1.users = st.users ∧ st1.assignments = st.assignments := by
  obtain ⟨hv, rfl⟩ := Book.save_book_eq_some _ _ _ h
  refine ⟨?_, rfl, rfl⟩
  subst hid
  have hfind := find_updateOne_id st.books book._id cur
    ({ book with availableCopies := book.availableCopies - 1 } : Book) hcur rfl
  unfold Book.findById
  rw [hone] at hfind ⊢
  exact hfind

/-- The first storage call of `issueBook`, `Book.findById`, and the check that follows. -/
theorem IssuePc.step_findBook (req : IssueRequest) (st : Store) :
    (Book.findById st req.bookId = none ∧
      IssuePc.step req st Outcome.ok IssuePc.findBook =
        (IssuePc.done ⟨404, false, "Book not found", none⟩, st)) ∨
    ∃ b, Book.findById st req.bookId = some b ∧
      ((b.availableCopies ≤ 0 ∧
        IssuePc.step req st Outcome.ok IssuePc.findBook =
          (IssuePc.done ⟨400, false, "Book is not available for issue", none⟩, st)) ∨
       (0 < b.availableCopies ∧
        IssuePc.step req st Outcome.ok IssuePc.findBook = (IssuePc.findUser b, st))) := by
  cases hb : Book.findById st req.bookId with
  | none => left; simp [IssuePc.step, hb]
  | some b =>
    right
    refine ⟨b, rfl, ?_⟩
    by_cases ha : b.availableCopies ≤ 0
    · left; simp [IssuePc.step, hb, ha]
    · right; exact ⟨not_le.1 ha, by simp [IssuePc.step, hb, ha]⟩

/-- The second storage call of `issueBook`, `User.findById`. -/
theorem IssuePc.step_findUser (req : IssueRequest) (st : Store) (x : Book) :
    (User.findById st req.userId = none ∧
      IssuePc.step req st Outcome.ok (IssuePc.findUser x) =
        (IssuePc.done ⟨404, false, "User not found", none⟩, st)) ∨
    (User.findById st req.userId ≠ none ∧
      IssuePc.step req st Outcome.ok (IssuePc.findUser x) = (IssuePc.findLoan x, st)) := by
  cases hu : User.findById st req.userId with
  | none => left; simp [IssuePc.step, hu]
  | some u => right; simp [IssuePc.step, hu]

/-- The third storage call of `issueBook`, `Assignment.findOne`. -/
theorem IssuePc.step_findLoan (req : IssueRequest) (st : Store) (x : Book) :
    (HasActiveLoan st req.bookId req.userId ∧
      IssuePc.step req st Outcome.ok (IssuePc.findLoan x) =
        (IssuePc.done ⟨400, false, "User has already borrowed this book", none⟩, st)) ∨
    (¬ HasActiveLoan st req.bookId req.userId ∧
      IssuePc.step req st Outcome.ok (IssuePc.findLoan x) = (IssuePc.saveLoan x, st)) := by
  cases hf : st.assignments.find? (activeFor req.bookId req.userId) with
  | some a =>
    left
    exact ⟨(find_activeFor_isSome st _ _).2 ⟨a, hf⟩, by simp [IssuePc.step, hf]⟩
  | none =>
    right
    exact ⟨(find_activeFor_none st _ _).2 hf, by simp [IssuePc.step, hf]⟩

/-- The fourth storage call of `issueBook`, the insert of the loan. -/
theorem IssuePc.step_saveLoan (req : IssueRequest) (st : Store) (x : Book) :
    (HasActiveLoan st req.bookId req.userId ∧
      IssuePc.step req st Outcome.ok (IssuePc.saveLoan x) =
        (IssuePc.done ⟨500, false, "Error issuing book", none⟩, st)) ∨
    (¬ HasActiveLoan st req.bookId req.userId ∧
      ∃ loan : Assignment, loan.bookId = req.bookId ∧ loan.userId = req.userId ∧
        loan.status = Status.issued ∧
        IssuePc.step req st Outcome.ok (IssuePc.saveLoan x) =
          (IssuePc.saveBook x loan,
            { st with assignments := st.assignments ++ [loan], nextId := st.nextId + 1 })) := by
  by_cases h : HasActiveLoan st req.bookId req.userId
  · left
    exact ⟨h, IssuePc.step_insert_rejected req st x h⟩
  · right
    have hf := (find_activeFor_none st _ _).1 h
    refine ⟨h, (⟨st.nextId, req.bookId, req.userId, req.now,
      addDays (req.now + req.lag) 14, none, Status.issued⟩ : Assignment), rfl, rfl, rfl, ?_⟩
    simp [IssuePc.step, insert_newLoan st req.now req.lag req.bookId req.userId hf]

/-- The fifth storage call of `issueBook`, the save of the book. -/
theorem IssuePc.step_saveBook (req : IssueRequest) (st : Store) (x : Book) (l : Assignment) :
    (Book.save st { x with availableCopies := x.availableCopies - 1 } = none ∧
      IssuePc.step req st Outcome.ok (IssuePc.saveBook x l) =
        (IssuePc.done ⟨500, false, "Error issuing book", none⟩, st)) ∨
    (∃ st1, Book.save st { x with availableCopies := x.availableCopies - 1 } = some st1 ∧
      IssuePc.step req st Outcome.ok (IssuePc.saveBook x l) = (IssuePc.populate l, st1)) := by
  cases hs : Book.save st { x with availableCopies := x.availableCopies - 1 } with
  | none => left; simp [IssuePc.step, hs]
  | some st1 => right; exact ⟨st1, rfl, by simp [IssuePc.step, hs]⟩

/-- The sixth storage call of `issueBook`, the `populate` of the response. -/
theorem IssuePc.step_populate (req : IssueRequest) (st : Store) (l : Assignment) :
    IssuePc.step req st Outcome.ok (IssuePc.populate l) =
      (IssuePc.done ⟨201, true, "Book issued successfully",
        (Assignment.findById st l._id).map Doc.assignment⟩, st) := by
  simp [IssuePc.step]

/-- A request that has answered makes no storage call. -/
theorem IssuePc.step_done (req : IssueRequest) (st : Store) (o : Outcome) (res : Response) :
    IssuePc.step req st o (IssuePc.done res) = (IssuePc.done res, st) := by
  cases o <;> simp [IssuePc.step]

/-- A storage call that throws ends the request and leaves the store as it is. -/
theorem IssuePc.step_throws (req : IssueRequest) (st : Store) (a : IssuePc) :
    ∃ res, IssuePc.step req st Outcome.throws a = (IssuePc.done res, st) := by
  cases a with
  | done res => exact ⟨res, by simp [IssuePc.step]⟩
  | findBook => exact ⟨⟨500, false, "Error issuing book", none⟩, by simp [IssuePc.step]⟩
  | findUser x => exact ⟨⟨500, false, "Error issuing book", none⟩, by simp [IssuePc.step]⟩
  | findLoan x => exact ⟨⟨500, false, "Error issuing book", none⟩, by simp [IssuePc.step]⟩
  | saveLoan x => exact ⟨⟨500, false, "Error issuing book", none⟩, by simp [IssuePc.step]⟩
  | saveBook x l => exact ⟨⟨500, false, "Error issuing book", none⟩, by simp [IssuePc.step]⟩
  | populate l => exact ⟨⟨500, false, "Error issuing book", none⟩, by simp [IssuePc.step]⟩

/-- One storage call of a request keeps `PairBounds`, whether it throws or not. -/
theorem PairBounds.preserved (bookId : Nat) (book : Book) (req : IssueRequest) (st : Store)
    (a b : IssuePc) (o : Outcome)
    (hreq : req.bookId = bookId) (hid : book._id = bookId) (hone : book.availableCopies = 1)
    (h : PairBounds bookId book st a b) :
    PairBounds bookId book (IssuePc.step req st o a).2 (IssuePc.step req st o a).1 b := by
  obtain ⟨hst, ha, hb⟩ := h
  have hdone : ∀ res, PairBounds bookId book st (IssuePc.done res) b :=
    fun res => ⟨hst, by simp [IssuePc.snapshot], hb⟩
  cases o with
  | throws =>
    obtain ⟨res, hres⟩ := IssuePc.step_throws req st a
    rw [hres]
    exact hdone res
  | ok =>
    cases a with
    | findBook =>
      rcases IssuePc.step_findBook req st with ⟨-, hs⟩ | ⟨x, hx, ⟨-, hs⟩ | ⟨hpos, hs⟩⟩
      · rw [hs]; exact hdone _
      · rw [hs]; exact hdone _
      · rw [hs]
        refine ⟨hst, ?_, hb⟩
        intro y hy
        simp only [IssuePc.snapshot, Option.some.injEq] at hy
        subst hy
        rw [hreq] at hx
        rcases hst with h1 | h1
        · rw [h1] at hx
          exact (Option.some.inj hx).symm
        · rw [h1] at hx
          have := Option.some.inj hx
          subst this
          simp at hpos
    | findUser x =>
      rcases IssuePc.step_findUser req st x with ⟨-, hs⟩ | ⟨-, hs⟩
      · rw [hs]; exact hdone _
      · rw [hs]; exact ⟨hst, ha, hb⟩
    | findLoan x =>
      rcases IssuePc.step_findLoan req st x with ⟨-, hs⟩ | ⟨-, hs⟩
      · rw [hs]; exact hdone _
      · rw [hs]; exact ⟨hst, ha, hb⟩
    | saveLoan x =>
      rcases IssuePc.step_saveLoan req st x with ⟨-, hs⟩ | ⟨-, loan, -, -, -, hs⟩
      · rw [hs]; exact hdone _
      · rw [hs]; exact ⟨hst, ha, hb⟩
    | saveBook x l =>
      rcases IssuePc.step_saveBook req st x l with ⟨-, hs⟩ | ⟨st1, hsave, hs⟩
      · rw [hs]; exact hdone _
      · rw [hs]
        have hx : x = book := ha x rfl
        subst hx
        have hcur : ∃ cur, Book.findById st bookId = some cur := by
          rcases hst with h1 | h1 <;> exact ⟨_, h1⟩
        obtain ⟨cur, hcur⟩ := hcur
        exact ⟨Or.inr (Book.save_last_copy st st1 bookId x cur hid hone hcur hsave).1,
          by simp [IssuePc.snapshot], hb⟩
    | populate l =>
      rw [IssuePc.step_populate]; exact hdone _
    | done res =>
      rw [IssuePc.step_done]; exact hdone _

theorem IssuePc.committed_of_saved (a : IssuePc) (h : a.saved) : a.committed := by
  cases a <;> simp_all [IssuePc.saved, IssuePc.committed]

/-- The invariant `PairInv` read from the side of the other request. -/
theorem PairInv.mirror {s0 : Store} {bookId : Nat} {book : Book} {reqA reqB : IssueRequest}
    {st : Store} {a b : IssuePc} (h : PairInv s0 bookId book reqA reqB st a b) :
    PairInv s0 bookId book reqB reqA st b a :=
  { users := h.users
    stored := h.stored.imp id (fun k => ⟨k.1, k.2.symm⟩)
    snapA := h.snapB
    snapB := h.snapA
    loanA := h.loanB
    loanB := h.loanA
    doneA := h.doneB
    doneB := h.doneA }

/-- How a storage call of the request `reqA` carries `PairInv` over. -/
theorem PairInv.advance {s0 : Store} {bookId : Nat} {book : Book} {reqA reqB : IssueRequest}
    {st : Store} {a b : IssuePc} (h : PairInv s0 bookId book reqA reqB st a b)
    (st1 : Store) (a1 : IssuePc)
    (husers : st1.users = st.users)
    (hstored : Book.findById st1 bookId = some book ∨
      (Book.findById st1 bookId = some { book with availableCopies := 0 } ∧
        (a1.saved ∨ b.saved)))
    (hsnap : ∀ x, a1.snapshot = some x → x = book)
    (hcommit : a.committed → a1.committed)
    (hloans : ∀ u, HasActiveLoan st1 bookId u →
      HasActiveLoan st bookId u ∨ (u = reqA.userId ∧ a1.committed))
    (hdone : ∀ res, a1 = IssuePc.done res →
      res.status = 201 ∨ (b.committed ∧ LostRace (reqA.userId = reqB.userId) res)) :
    PairInv s0 bookId book reqA reqB st1 a1 b :=
  { users := husers.trans h.users
    stored := hstored
    snapA := hsnap
    snapB := h.snapB
    loanA := by
      intro hl
      rcases hloans _ hl with hold | ⟨-, hc⟩
      · rcases h.loanA hold with hc | hc
        · exact Or.inl (hcommit hc)
        · exact Or.inr hc
      · exact Or.inl hc
    loanB := by
      intro hl
      rcases hloans _ hl with hold | ⟨hu, hc⟩
      · rcases h.loanB hold with hc | ⟨hc, hu⟩
        · exact Or.inl hc
        · exact Or.inr ⟨hcommit hc, hu⟩
      · exact Or.inr ⟨hc, hu⟩
    doneA := hdone
    doneB := by
      intro res hres
      rcases h.doneB res hres with h1 | ⟨hc, hl⟩
      · exact Or.inl h1
      · exact Or.inr ⟨hcommit hc, hl⟩ }

/-- How a storage call that leaves the store as it is carries `PairInv` over. -/
theorem PairInv.advance_same {s0 : Store} {bookId : Nat} {book : Book}
    {reqA reqB : IssueRequest} {st : Store} {a b : IssuePc}
    (h : PairInv s0 bookId book reqA reqB st a b) (a1 : IssuePc)
    (hsaved : a.saved → a1.saved)
    (hsnap : ∀ x, a1.snapshot = some x → x = book)
    (hcommit : a.committed → a1.committed)
    (hdone : ∀ res, a1 = IssuePc.done res →
      res.status = 201 ∨ (b.committed ∧ LostRace (reqA.userId = reqB.userId) res)) :
    PairInv s0 bookId book reqA reqB st a1 b :=
  h.advance st a1 rfl
    (h.stored.imp id (fun k => ⟨k.1, k.2.imp hsaved id⟩))
    hsnap hcommit (fun _ hl => Or.inl hl) hdone

/-- One storage call of the request `reqA` that does not throw keeps `PairInv`. -/
theorem PairInv.preserved_ok (s0 : Store) (bookId : Nat) (book : Book) (reqA reqB : IssueRequest)
    (st : Store) (a b : IssuePc)
    (hreq : reqA.bookId = bookId) (hid : book._id = bookId)
    (hone : book.availableCopies = 1) (hvalid : book.validate = true)
    (huser : User.findById s0 reqA.userId ≠ none)
    (h : PairInv s0 bookId book reqA reqB st a b) :
    PairInv s0 bookId book reqA reqB
      (IssuePc.step reqA st Outcome.ok a).2 (IssuePc.step reqA st Outcome.ok a).1 b := by
  cases a with
  | findBook =>
    rcases IssuePc.step_findBook reqA st with ⟨hx, -⟩ | ⟨x, hx, ⟨hle, hs⟩ | ⟨hpos, hs⟩⟩
    · rw [hreq] at hx
      rcases h.stored with h1 | ⟨h1, -⟩ <;> rw [h1] at hx <;> cases hx
    · rw [hs]
      rw [hreq] at hx
      have hb : b.committed := by
        rcases h.stored with h1 | ⟨-, h2 | h2⟩
        · rw [h1] at hx
          have := Option.some.inj hx
          subst this
          omega
        · exact absurd h2 (by simp [IssuePc.saved])
        · exact IssuePc.committed_of_saved b h2
      refine h.advance_same _ (by simp [IssuePc.saved]) (by simp [IssuePc.snapshot])
        (by simp [IssuePc.committed]) ?_
      intro res hres
      cases hres
      exact Or.inr ⟨hb, Or.inl rfl⟩
    · rw [hs]
      rw [hreq] at hx
      have hxb : x = book := by
        rcases h.stored with h1 | ⟨h1, -⟩
        · rw [h1] at hx
          exact (Option.some.inj hx).symm
        · rw [h1] at hx
          have := Option.some.inj hx
          subst this
          simp at hpos
      refine h.advance_same _ (by simp [IssuePc.saved]) ?_ (by simp [IssuePc.committed])
        (by intro res hres; cases hres)
      intro y hy
      simp only [IssuePc.snapshot, Option.some.injEq] at hy
      rw [← hy, hxb]
  | findUser x =>
    rcases IssuePc.step_findUser reqA st x with ⟨hx, -⟩ | ⟨-, hs⟩
    · exfalso
      apply huser
      unfold User.findById at hx ⊢
      rw [← h.users]
      exact hx
    · rw [hs]
      exact h.advance_same _ (by simp [IssuePc.saved]) h.snapA (by simp [IssuePc.committed])
        (by intro res hres; cases hres)
  | findLoan x =>
    rcases IssuePc.step_findLoan reqA st x with ⟨hl, hs⟩ | ⟨-, hs⟩
    · rw [hs]
      rw [hreq] at hl
      have hb : b.committed ∧ reqA.userId = reqB.userId := by
        rcases h.loanA hl with hc | hc
        · exact absurd hc (by simp [IssuePc.committed])
        · exact hc
      refine h.advance_same _ (by simp [IssuePc.saved]) (by simp [IssuePc.snapshot])
        (by simp [IssuePc.committed]) ?_
      intro res hres
      cases hres
      exact Or.inr ⟨hb.1, Or.inr ⟨hb.2, Or.inl rfl⟩⟩
    · rw [hs]
      exact h.advance_same _ (by simp [IssuePc.saved]) h.snapA (by simp [IssuePc.committed])
        (by intro res hres; cases hres)
  | saveLoan x =>
    rcases IssuePc.step_saveLoan reqA st x with ⟨hl, hs⟩ | ⟨-, loan, hlb, hlu, hlst, hs⟩
    · rw [hs]
      rw [hreq] at hl
      have hb : b.committed ∧ reqA.userId = reqB.userId := by
        rcases h.loanA hl with hc | hc
        · exact absurd hc (by simp [IssuePc.committed])
        · exact hc
      refine h.advance_same _ (by simp [IssuePc.saved]) (by simp [IssuePc.snapshot])
        (by simp [IssuePc.committed]) ?_
      intro res hres
      cases hres
      exact Or.inr ⟨hb.1, Or.inr ⟨hb.2, Or.inr rfl⟩⟩
    · rw [hs]
      refine h.advance _ _ rfl ?_ h.snapA (by simp [IssuePc.committed]) ?_
        (by intro res hres; cases hres)
      · rcases h.stored with h1 | ⟨h1, h2 | h2⟩
        · exact Or.inl h1
        · exact absurd h2 (by simp [IssuePc.saved])
        · exact Or.inr ⟨h1, Or.inr h2⟩
      · rintro u ⟨l, hmem, hb1, hu1, hst1⟩
        simp only [List.mem_append, List.mem_singleton] at hmem
        rcases hmem with hmem | hmem
        · exact Or.inl ⟨l, hmem, hb1, hu1, hst1⟩
        · subst hmem
          exact Or.inr ⟨by rw [← hu1, hlu], by simp [IssuePc.committed]⟩
  | saveBook x l =>
    have hxb : x = book := h.snapA x rfl
    subst hxb
    have hcur : ∃ cur, Book.findById st bookId = some cur := by
      rcases h.stored with h1 | ⟨h1, -⟩ <;> exact ⟨_, h1⟩
    obtain ⟨cur, hcur⟩ := hcur
    rcases IssuePc.step_saveBook reqA st x l with ⟨hx, -⟩ | ⟨st1, hsave, hs⟩
    · exfalso
      have hv : Book.validate { x with availableCopies := x.availableCopies - 1 } = true := by
        simp only [Book.validate, Bool.and_eq_true, decide_eq_true_eq] at hvalid ⊢
        omega
      simp [Book.save, hv] at hx
    · rw [hs]
      obtain ⟨hfound, husers, hloans⟩ :=
        Book.save_last_copy st st1 bookId x cur hid hone hcur hsave
      refine h.advance _ _ husers (Or.inr ⟨hfound, Or.inl (by simp [IssuePc.saved])⟩)
        (by simp [IssuePc.snapshot]) (by simp [IssuePc.committed]) ?_
        (by intro res hres; cases hres)
      intro u hl
      left
      unfold HasActiveLoan at hl ⊢
      rw [hloans] at hl
      exact hl
  | populate l =>
    rw [IssuePc.step_populate]
    refine h.advance_same _ (by simp [IssuePc.saved]) (by simp [IssuePc.snapshot])
      (by simp [IssuePc.committed]) ?_
    intro res hres
    cases hres
    exact Or.inl rfl
  | done res =>
    rw [IssuePc.step_done]
    exact h

/-- The invariant `PairBounds` read from the side of the other request. -/
theorem PairBounds.flip {bookId : Nat} {book : Book} {st : Store} {a b : IssuePc}
    (h : PairBounds bookId book st a b) : PairBounds bookId book st b a :=
  ⟨h.stored, h.snapB, h.snapA⟩

/-- Every schedule of two requests for the book keeps `PairBounds`, storage calls that
throw included. -/
theorem Race.run_bounds (reqL reqR : IssueRequest) (bookId : Nat) (book : Book)
    (hL : reqL.bookId = bookId) (hR : reqR.bookId = bookId) (hid : book._id = bookId)
    (hone : book.availableCopies = 1) (sched : List Turn) (c : Race)
    (h : PairBounds bookId book c.store c.left c.right) :
    PairBounds bookId book (Race.run reqL reqR c sched).store
      (Race.run reqL reqR c sched).left (Race.run reqL reqR c sched).right := by
  induction sched generalizing c with
  | nil => exact h
  | cons t ts ih =>
    apply ih
    cases t with
    | left o =>
      exact PairBounds.preserved bookId book reqL c.store c.left c.right o hL hid hone h
    | right o =>
      exact (PairBounds.preserved bookId book reqR c.store c.right c.left o hR hid hone
        h.flip).flip

/-- Every schedule of two requests for the book in which no storage call throws keeps
`PairInv`. -/
theorem Race.run_pairInv (s0 : Store) (reqL reqR : IssueRequest) (bookId : Nat) (book : Book)
    (hL : reqL.bookId = bookId) (hR : reqR.bookId = bookId) (hid : book._id = bookId)
    (hone : book.availableCopies = 1) (hvalid : book.validate = true)
    (huL : User.findById s0 reqL.userId ≠ none) (huR : User.findById s0 reqR.userId ≠ none)
    (sched : List Turn) (hok : ∀ t ∈ sched, t.outcome = Outcome.ok) (c : Race)
    (h : PairInv s0 bookId book reqL reqR c.store c.left c.right) :
    PairInv s0 bookId book reqL reqR (Race.run reqL reqR c sched).store
      (Race.run reqL reqR c sched).left (Race.run reqL reqR c sched).right := by
  induction sched generalizing c with
  | nil => exact h
  | cons t ts ih =>
    apply ih (fun u hu => hok u (List.mem_cons_of_mem _ hu))
    have ht := hok t (List.mem_cons_self _ _)
    cases t with
    | left o =>
      simp only [Turn.outcome] at ht
      subst ht
      exact PairInv.preserved_ok s0 bookId book reqL reqR c.store c.left c.right hL hid hone
        hvalid huL h
    | right o =>
      simp only [Turn.outcome] at ht
      subst ht
      exact (PairInv.preserved_ok s0 bookId book reqR reqL c.store c.right c.left hR hid hone
        hvalid huR h.mirror).mirror

theorem IssuePc.stage_le (a : IssuePc) : a.stage ≤ 6 := by
  cases a <;> simp [IssuePc.stage]

/-- A request that has made its six storage calls has answered. -/
theorem IssuePc.done_of_stage (a : IssuePc) (h : 6 ≤ a.stage) : ∃ res, a = IssuePc.done res := by
  cases a <;> simp [IssuePc.stage] at h
  exact ⟨_, rfl⟩

/-- Every storage call brings a request one call further, or to its answer. -/
theorem IssuePc.stage_step (req : IssueRequest) (st : Store) (o : Outcome) (a : IssuePc) :
    min 6 (a.stage + 1) ≤ (IssuePc.step req st o a).1.stage := by
  cases o with
  | throws =>
    obtain ⟨res, hres⟩ := IssuePc.step_throws req st a
    rw [hres]
    simp [IssuePc.stage]
  | ok =>
    cases a with
    | findBook =>
      rcases IssuePc.step_findBook req st with ⟨-, hs⟩ | ⟨x, -, ⟨-, hs⟩ | ⟨-, hs⟩⟩ <;>
        rw [hs] <;> simp [IssuePc.stage]
    | findUser x =>
      rcases IssuePc.step_findUser req st x with ⟨-, hs⟩ | ⟨-, hs⟩ <;>
        rw [hs] <;> simp [IssuePc.stage]
    | findLoan x =>
      rcases IssuePc.step_findLoan req st x with ⟨-, hs⟩ | ⟨-, hs⟩ <;>
        rw [hs] <;> simp [IssuePc.stage]
    | saveLoan x =>
      rcases IssuePc.step_saveLoan req st x with ⟨-, hs⟩ | ⟨-, loan, -, -, -, hs⟩ <;>
        rw [hs] <;> simp [IssuePc.stage]
    | saveBook x l =>
      rcases IssuePc.step_saveBook req st x l with ⟨-, hs⟩ | ⟨st1, -, hs⟩ <;>
        rw [hs] <;> simp [IssuePc.stage]
    | populate l => rw [IssuePc.step_populate]; simp [IssuePc.stage]
    | done res => rw [IssuePc.step_done]; simp [IssuePc.stage]

/-- After `n` turns of its own the left request has made `n` storage calls, or answered. -/
theorem Race.run_stage_left (reqL reqR : IssueRequest) (sched : List Turn) (c : Race) :
    min 6 (c.left.stage + sched.countP Turn.isLeft) ≤
      (Race.run reqL reqR c sched).left.stage := by
  induction sched generalizing c with
  | nil => simp [Race.run]
  | cons t ts ih =>
    have h := ih (Race.step reqL reqR c t)
    simp only [Race.run]
    cases t with
    | left o =>
      have hs := IssuePc.stage_step reqL c.store o c.left
      simp only [Race.step] at h ⊢
      simp only [List.countP_cons, Turn.isLeft, if_true]
      omega
    | right o =>
      simp only [Race.step] at h
      simp only [List.countP_cons, Turn.isLeft]
      simpa using h

/-- After `n` turns of its own the right request has made `n` storage calls, or answered. -/
theorem Race.run_stage_right (reqL reqR : IssueRequest) (sched : List Turn) (c : Race) :
    min 6 (c.right.stage + sched.countP Turn.isRight) ≤
      (Race.run reqL reqR c sched).right.stage := by
  induction sched generalizing c with
  | nil => simp [Race.run]
  | cons t ts ih =>
    have h := ih (Race.step reqL reqR c t)
    simp only [Race.run]
    cases t with
    | left o =>
      simp only [Race.step] at h
      simp only [List.countP_cons, Turn.isRight]
      simpa using h
    | right o =>
      have hs := IssuePc.stage_step reqR c.store o c.right
      simp only [Race.step] at h ⊢
      simp only [List.countP_cons, Turn.isRight, if_true]
      omega

/-- C14 (amended): two `issueBook` requests for a book that is stored within its schema
rules with `availableCopies = 1`, both users stored and neither holding an issued loan of
the book.  (1) Under every interleaving of their storage calls, calls that throw included,
the book is stored at every moment with `availableCopies` 0 or 1: it never drops below 0.
(2) Once each request has had six turns, both have answered.  (3) Under every interleaving
in which no storage call throws, at least one request is answered 201, and a request that
is not answered 201 is answered 400 'Book is not available for issue' or, when both
requests name the same user, 400 'User has already borrowed this book' or 500 'Error
issuing book'; both may be answered 201.  (4) When the requests do not overlap, the first
is answered 201 and the second 400 'Book is not available for issue', one loan is added
and the book is left with `availableCopies = 0`. -/
theorem last_copy_under_interleaving (s : Store) (reqL reqR : IssueRequest) (book : Book)
    (hb : Book.findById s reqL.bookId = some book) (hsame : reqR.bookId = reqL.bookId)
    (hone : book.availableCopies = 1)
    (htotal : 1 ≤ book.totalCopies ∧ book.totalCopies ≤ 1000)
    (huL : User.findById s reqL.userId ≠ none) (huR : User.findById s reqR.userId ≠ none)
    (hfL : ¬ HasActiveLoan s reqL.bookId reqL.userId)
    (hfR : ¬ HasActiveLoan s reqR.bookId reqR.userId) :
    (∀ sched : List Turn, ∃ b,
      Book.findById (Race.run reqL reqR (Race.start s) sched).store reqL.bookId = some b ∧
      0 ≤ b.availableCopies ∧ b.availableCopies ≤ 1) ∧
    (∀ sched : List Turn, 6 ≤ sched.countP Turn.isLeft → 6 ≤ sched.countP Turn.isRight →
      (∃ resL, (Race.run reqL reqR (Race.start s) sched).left = IssuePc.done resL) ∧
      (∃ resR, (Race.run reqL reqR (Race.start s) sched).right = IssuePc.done resR)) ∧
    (∀ (sched : List Turn) (resL resR : Response),
      (∀ t ∈ sched, t.outcome = Outcome.ok) →
      (Race.run reqL reqR (Race.start s) sched).left = IssuePc.done resL →
      (Race.run reqL reqR (Race.start s) sched).right = IssuePc.done resR →
      (resL.status = 201 ∨ resR.status = 201) ∧
      (resL.status = 201 ∨
        resL = ⟨400, false, "Book is not available for issue", none⟩ ∨
        (reqL.userId = reqR.userId ∧
          (resL = ⟨400, false, "User has already borrowed this book", none⟩ ∨
            resL = ⟨500, false, "Error issuing book", none⟩))) ∧
      (resR.status = 201 ∨
        resR = ⟨400, false, "Book is not available for issue", none⟩ ∨
        (reqL.userId = reqR.userId ∧
          (resR = ⟨400, false, "User has already borrowed this book", none⟩ ∨
            resR = ⟨500, false, "Error issuing book", none⟩)))) ∧
    ((∃ data, (Race.run reqL reqR (Race.start s) oneAfterTheOther).left =
        IssuePc.done ⟨201, true, "Book issued successfully", data⟩) ∧
      (Race.run reqL reqR (Race.start s) oneAfterTheOther).right =
        IssuePc.done ⟨400, false, "Book is not available for issue", none⟩ ∧
      (∃ loan : Assignment,
        (Race.run reqL reqR (Race.start s) oneAfterTheOther).store.assignments =
          s.assignments ++ [loan] ∧
        loan.bookId = reqL.bookId ∧ loan.userId = reqL.userId ∧
        loan.status = Status.issued) ∧
      Book.findById (Race.run reqL reqR (Race.start s) oneAfterTheOther).store reqL.bookId =
        some { book with availableCopies := 0 }) := by
  have hid : book._id = reqL.bookId := Book.findById_book_id s _ book hb
  have hvalid : book.validate = true := by
    simp only [Book.validate, Bool.and_eq_true, decide_eq_true_eq]
    omega
  refine ⟨?_, ?_, ?_, ?_⟩
  · intro sched
    have h0 : PairBounds reqL.bookId book (Race.start s).store (Race.start s).left
        (Race.start s).right :=
      ⟨Or.inl hb, by simp [Race.start, IssuePc.snapshot],
        by simp [Race.start, IssuePc.snapshot]⟩
    have h := Race.run_bounds reqL reqR reqL.bookId book rfl hsame hid hone sched _ h0
    rcases h.stored with h1 | h1
    · exact ⟨_, h1, by omega, by omega⟩
    · exact ⟨_, h1, le_refl _, zero_le_one⟩
  · intro sched hl hr
    have h1 := Race.run_stage_left reqL reqR sched (Race.start s)
    have h2 := Race.run_stage_right reqL reqR sched (Race.start s)
    simp only [Race.start, IssuePc.stage, zero_add] at h1 h2
    exact ⟨IssuePc.done_of_stage _ (by simpa [Race.start] using le_trans (le_min (le_refl 6) hl) h1),
      IssuePc.done_of_stage _ (by simpa [Race.start] using le_trans (le_min (le_refl 6) hr) h2)⟩
  · intro sched resL resR hok hresL hresR
    have h0 : PairInv s reqL.bookId book reqL reqR (Race.start s).store (Race.start s).left
        (Race.start s).right :=
      { users := rfl
        stored := Or.inl hb
        snapA := by simp [Race.start, IssuePc.snapshot]
        snapB := by simp [Race.start, IssuePc.snapshot]
        loanA := fun hl => absurd hl hfL
        loanB := fun hl => absurd (hsame ▸ hl) hfR
        doneA := by simp [Race.start]
        doneB := by simp [Race.start] }
    have h := Race.run_pairInv s reqL reqR reqL.bookId book rfl hsame hid hone hvalid huL huR
      sched hok _ h0
    have hA := h.doneA resL hresL
    have hB := h.doneB resR hresR
    rw [hresR] at hA
    rw [hresL] at hB
    simp only [IssuePc.committed] at hA hB
    refine ⟨?_, ?_, ?_⟩
    · rcases hA with hA | ⟨hA, -⟩
      · exact Or.inl hA
      · exact Or.inr hA
    · rcases hA with hA | ⟨-, hA⟩
      · exact Or.inl hA
      · exact Or.inr hA
    · rcases hB with hB | ⟨-, hB | ⟨hu, hB⟩⟩
      · exact Or.inl hB
      · exact Or.inr (Or.inl hB)
      · exact Or.inr (Or.inr ⟨hu.symm, hB⟩)
  · cases hu : User.findById s reqL.userId with
    | none => exact absurd hu huL
    | some user => exact oneAfterTheOther_last_copy s reqL reqR book user hb hsame hone htotal hu hfL

/-- Counterexample to C14 as stated: on a store whose book has a single copy, two requests
of two users overlap, both reading the book before either saves it; both are answered 201
and two issued loans are recorded for the one copy. -/
theorem overlapping_issues_both_succeed :
    (Book.findById raceStore 1).map (fun b => b.availableCopies) = some 1 ∧
    (Race.run ⟨3000, 0, 1, 2⟩ ⟨3000, 0, 1, 3⟩ (Race.start raceStore)
      bothReadFirst).left.answer.map (fun r => r.status) = some 201 ∧
    (Race.run ⟨3000, 0, 1, 2⟩ ⟨3000, 0, 1, 3⟩ (Race.start raceStore)
      bothReadFirst).right.answer.map (fun r => r.status) = some 201 ∧
    issuedCount (Race.run ⟨3000, 0, 1, 2⟩ ⟨3000, 0, 1, 3⟩ (Race.start raceStore)
      bothReadFirst).store 1 = 2 ∧
    (Book.findById (Race.run ⟨3000, 0, 1, 2⟩ ⟨3000, 0, 1, 3⟩ (Race.start raceStore)
      bothReadFirst).store 1).map (fun b => (b.totalCopies, b.availableCopies)) =
      some (1, 0) := by
  decide

/-- Witness for C14 (amended) on the store with a single copy and two users, for the
schedule in which both requests read the book before either saves it (the book ends with
`availableCopies` 0 or 1, both requests have answered, at least one with 201) and for the
schedule in which they do not overlap (201, then 400). -/
theorem last_copy_under_interleaving_witness :
    (∃ b, Book.findById (Race.run ⟨3000, 0, 1, 2⟩ ⟨3000, 0, 1, 3⟩ (Race.start raceStore)
        bothReadFirst).store 1 = some b ∧ 0 ≤ b.availableCopies ∧ b.availableCopies ≤ 1) ∧
    ((∃ resL, (Race.run ⟨3000, 0, 1, 2⟩ ⟨3000, 0, 1, 3⟩ (Race.start raceStore)
        bothReadFirst).left = IssuePc.done resL) ∧
      (∃ resR, (Race.run ⟨3000, 0, 1, 2⟩ ⟨3000, 0, 1, 3⟩ (Race.start raceStore)
        bothReadFirst).right = IssuePc.done resR)) ∧
    (∀ resL resR : Response,
      (Race.run ⟨3000, 0, 1, 2⟩ ⟨3000, 0, 1, 3⟩ (Race.start raceStore)
        bothReadFirst).left = IssuePc.done resL →
      (Race.run ⟨3000, 0, 1, 2⟩ ⟨3000, 0, 1, 3⟩ (Race.start raceStore)
        bothReadFirst).right = IssuePc.done resR →
      resL.status = 201 ∨ resR.status = 201) ∧
    ((∃ data, (Race.run ⟨3000, 0, 1, 2⟩ ⟨3000, 0, 1, 3⟩ (Race.start raceStore)
        oneAfterTheOther).left = IssuePc.done ⟨201, true, "Book issued successfully", data⟩) ∧
      (Race.run ⟨3000, 0, 1, 2⟩ ⟨3000, 0, 1, 3⟩ (Race.start raceStore)
        oneAfterTheOther).right =
        IssuePc.done ⟨400, false, "Book is not available for issue", none⟩ ∧
      (∃ loan : Assignment,
        (Race.run ⟨3000, 0, 1, 2⟩ ⟨3000, 0, 1, 3⟩ (Race.start raceStore)
          oneAfterTheOther).store.assignments = raceStore.assignments ++ [loan] ∧
        loan.bookId = 1 ∧ loan.userId = 2 ∧ loan.status = Status.issued) ∧
      Book.findById (Race.run ⟨3000, 0, 1, 2⟩ ⟨3000, 0, 1, 3⟩ (Race.start raceStore)
        oneAfterTheOther).store 1 = some { sampleBook 1 1 1 with availableCopies := 0 }) :=
  ⟨(last_copy_under_interleaving raceStore ⟨3000, 0, 1, 2⟩ ⟨3000, 0, 1, 3⟩ (sampleBook 1 1 1)
      (by decide) (by decide) (by decide) (by decide) (by decide) (by decide) (by decide)
      (by decide)).1 bothReadFirst,
   (last_copy_under_interleaving raceStore ⟨3000, 0, 1, 2⟩ ⟨3000, 0, 1, 3⟩ (sampleBook 1 1 1)
      (by decide) (by decide) (by decide) (by decide) (by decide) (by decide) (by decide)
      (by decide)).2.1 bothReadFirst (by decide) (by decide),
   fun resL resR hL hR =>
    ((last_copy_under_interleaving raceStore ⟨3000, 0, 1, 2⟩ ⟨3000, 0, 1, 3⟩
      (sampleBook 1 1 1) (by decide) (by decide) (by decide) (by decide) (by decide)
      (by decide) (by decide) (by decide)).2.2.1 bothReadFirst resL resR (by decide) hL hR).1,
   (last_copy_under_interleaving raceStore ⟨3000, 0, 1, 2⟩ ⟨3000, 0, 1, 3⟩ (sampleBook 1 1 1)
      (by decide) (by decide) (by decide) (by decide) (by decide) (by decide) (by decide)
      (by decide)).2.2.2⟩

/-! ## Dates of a loan -/

/-- The dates of the loan that a successful `issueBook` appends: the due date is 14 days
after the second clock reading. -/
theorem issueBook_dates (s : Store) (now : Int) (lag : Nat) (bookId userId : Nat)
    (h : (issueBook s now lag bookId userId).1.status = 201) :
    ∃ loan : Assignment,
      (issueBook s now lag bookId userId).2.assignments = s.assignments ++ [loan] ∧
      loan.issueDate = now ∧
      loan.dueDate - loan.issueDate = 14 * 24 * 60 * 60 * 1000 + lag ∧
      loan.issueDate < loan.dueDate := by
  obtain ⟨book, user, -, -, -, -, -, hs⟩ := issueBook_success s now lag bookId userId h
  refine ⟨_, by rw [hs], rfl, ?_, ?_⟩
  · simp only [addDays, msPerDay]
    omega
  · simp only [addDays, msPerDay]
    omega

/-- C15, the code at the failing input: on the shelf store, when the clock advances by one
millisecond between the two `new Date()` of `issueBook`, the call succeeds and the loan it
creates has `dueDate - issueDate = 14 * 24 * 60 * 60 * 1000 + 1`, not 14 days exactly. -/
theorem dueDate_from_second_clock_reading :
    (issueBook shelfStore 3000 1 1 2).1.status = 201 ∧
    (issueBook shelfStore 3000 1 1 2).2.assignments.map
        (fun a => (a.issueDate, a.dueDate - a.issueDate)) =
      [(3000, 14 * 24 * 60 * 60 * 1000 + 1)] ∧
    (issueBook shelfStore 3000 0 1 2).2.assignments.map
        (fun a => (a.issueDate, a.dueDate - a.issueDate)) =
      [(3000, 14 * 24 * 60 * 60 * 1000)] := by
  decide

/-! ## Overdue loans -/

/-- The model of `Math.ceil(a / b)` is the ceiling of the exact quotient. -/
theorem ceilDiv_eq_ceil (a b : Int) (hb : 0 < b) : ceilDiv a b = ⌈(a : ℚ) / (b : ℚ)⌉ := by
  unfold ceilDiv
  symm
  rw [Int.ceil_eq_iff]
  have hbq : (0 : ℚ) < b := by exact_mod_cast hb
  have hdiv : (a : ℚ) / b = (a / b : Int) + ((a % b : Int) : ℚ) / b := by
    have := Int.ediv_add_emod a b
    field_simp
    have h2 : ((b * (a / b) + a % b : Int) : ℚ) = a := by
      exact_mod_cast congrArg (fun x : Int => (x : ℚ)) this
    push_cast at h2
    linarith
  have hr0 : 0 ≤ a % b := Int.emod_nonneg a (ne_of_gt hb)
  have hr1 : a % b < b := Int.emod_lt_of_pos a hb
  split
  · rename_i h
    rw [hdiv, h]
    simp
  · rename_i h
    have hpos : 0 < a % b := lt_of_le_of_ne hr0 (Ne.symm h)
    have h1 : (0 : ℚ) < ((a % b : Int) : ℚ) / b := div_pos (by exact_mod_cast hpos) hbq
    have h2 : ((a % b : Int) : ℚ) / b < 1 := by
      rw [div_lt_one hbq]
      exact_mod_cast hr1
    rw [hdiv]
    push_cast
    constructor <;> linarith

theorem Status.eq_issued_of_ne_returned (st : Status) (h : ¬ st = Status.returned) :
    st = Status.issued := by
  cases st with
  | issued => rfl
  | returned => exact absurd rfl h

/-- When `isOverdue` is true. -/
theorem isOverdue_eq_true (a : Assignment) (now : Int) :
    a.isOverdue now = true ↔ a.status = Status.issued ∧ now > a.dueDate := by
  unfold Assignment.isOverdue
  by_cases hst : a.status = Status.returned
  · simp [hst]
  · simp [hst, Status.eq_issued_of_ne_returned _ hst]

/-- C16: the derived `isOverdue` of a loan at the current time `now` is true exactly when
the loan has status `issued` and `now > dueDate`; it is false for every returned loan and
false when `now = dueDate`. -/
theorem isOverdue_iff (a : Assignment) (now : Int) :
    (a.isOverdue now = true ↔ a.status = Status.issued ∧ now > a.dueDate) ∧
    (a.status = Status.returned → a.isOverdue now = false) ∧
    (now = a.dueDate → a.isOverdue now = false) := by
  refine ⟨isOverdue_eq_true a now, ?_, ?_⟩
  · intro hst
    simp [Assignment.isOverdue, hst]
  · intro hnow
    simp [Assignment.isOverdue, hnow]

/-- Witness for C16 on the sample loans (due at `1000 + 14` days): the issued loan is
overdue one millisecond after its due date and not at its due date; the returned one never. -/
theorem isOverdue_iff_witness :
    (sampleLoan 6 1 4 Status.issued none).isOverdue (addDays 1000 14 + 1) = true ∧
    (sampleLoan 7 1 3 Status.returned (some 2000)).isOverdue (addDays 1000 14 + 1) = false ∧
    (sampleLoan 6 1 4 Status.issued none).isOverdue (addDays 1000 14) = false :=
  ⟨(isOverdue_iff (sampleLoan 6 1 4 Status.issued none) (addDays 1000 14 + 1)).1.2
      ⟨by decide, by decide⟩,
   (isOverdue_iff (sampleLoan 7 1 3 Status.returned (some 2000)) (addDays 1000 14 + 1)).2.1
      (by decide),
   (isOverdue_iff (sampleLoan 6 1 4 Status.issued none) (addDays 1000 14)).2.2 (by decide)⟩

/-- A `returnBook` that is answered 200 found an issued loan and saved it as returned. -/
theorem returnBook_ok_loan (s : Store) (now : Int) (assignmentId : Nat)
    (h : (returnBook s now assignmentId).1.status = 200) :
    ∃ loan, Assignment.findById s assignmentId = some loan ∧
      Assignment.findById (returnBook s now assignmentId).2 assignmentId =
        some { loan with status := Status.returned, returnDate := some now } := by
  cases hl : Assignment.findById s assignmentId with
  | none => simp [returnBook, hl] at h
  | some loan =>
    by_cases hst : loan.status = Status.returned
    · simp [returnBook, hl, hst] at h
    · by_cases hv : Assignment.validate
          { loan with status := Status.returned, returnDate := some now } = true
      · exact ⟨loan, rfl, returnBook_loan s now assignmentId loan hl
          (Status.eq_issued_of_ne_returned _ hst) hv⟩
      · simp [returnBook, hl, hst, Assignment.save, hv] at h

theorem daysOverdue_of_overdue (a : Assignment) (now : Int) (lag : Nat)
    (h : a.isOverdue now = true) :
    a.daysOverdue now lag = ceilDiv (now + lag - a.dueDate) (1000 * 60 * 60 * 24) := by
  obtain ⟨hst, hnow⟩ := (isOverdue_eq_true a now).1 h
  have hnr : ¬ a.status = Status.returned := by rw [hst]; decide
  have habs : |now + (lag : Int) - a.dueDate| = now + lag - a.dueDate :=
    abs_of_nonneg (by omega)
  simp [Assignment.daysOverdue, hnr, h, habs]

/-- C17: the derived `daysOverdue` of a loan is 0 when the loan is returned or not overdue,
and otherwise the ceiling of (current time - `dueDate`) / 86 400 000, the current time
being the clock reading `now + lag` at which the difference is taken (`now` itself when
the two readings of the getter coincide); an issued loan due exactly 10 days before `now`
has `daysOverdue = 10`, and a loan that `returnBook` has returned has `daysOverdue = 0`. -/
theorem daysOverdue_spec (a : Assignment) (now : Int) (lag : Nat) :
    (a.status = Status.returned → a.daysOverdue now lag = 0) ∧
    (a.isOverdue now = false → a.daysOverdue now lag = 0) ∧
    (a.isOverdue now = true →
      a.daysOverdue now lag = ⌈((now + lag - a.dueDate : Int) : ℚ) / 86400000⌉) ∧
    (a.isOverdue now = true →
      a.daysOverdue now 0 = ⌈((now - a.dueDate : Int) : ℚ) / 86400000⌉) ∧
    (a.status = Status.issued → a.dueDate = now - 10 * 86400000 →
      a.isOverdue now = true ∧ a.daysOverdue now 0 = 10) ∧
    (∀ (s : Store) (t : Int) (assignmentId : Nat) (L : Assignment),
      (returnBook s t assignmentId).1.status = 200 →
      Assignment.findById (returnBook s t assignmentId).2 assignmentId = some L →
      L.daysOverdue now lag = 0) := by
  refine ⟨?_, ?_, ?_, ?_, ?_, ?_⟩
  · intro hst
    simp [Assignment.daysOverdue, hst]
  · intro hno
    simp [Assignment.daysOverdue, hno]
  · intro h
    rw [daysOverdue_of_overdue a now lag h, ceilDiv_eq_ceil _ _ (by norm_num)]
    norm_num
  · intro h
    rw [daysOverdue_of_overdue a now 0 h, ceilDiv_eq_ceil _ _ (by norm_num)]
    norm_num
  · intro hst hdue
    have hov : a.isOverdue now = true := (isOverdue_eq_true a now).2 ⟨hst, by omega⟩
    refine ⟨hov, ?_⟩
    rw [daysOverdue_of_overdue a now 0 hov, hdue]
    unfold ceilDiv
    have hd : now + ((0 : Nat) : Int) - (now - 10 * 86400000) = 10 * 86400000 := by
      push_cast
      ring
    rw [hd]
    decide
  · intro s t assignmentId L hok hL
    obtain ⟨loan, -, hfound⟩ := returnBook_ok_loan s t assignmentId hok
    rw [hfound] at hL
    simp only [Option.some.injEq] at hL
    subst hL
    simp [Assignment.daysOverdue]

/-- Witness for C17 on the sample loan 6 (issued, due at `1000 + 14` days): ten days after
its due date it has 10 days overdue, and after `returnBook` it has 0. -/
theorem daysOverdue_spec_witness :
    ((sampleLoan 6 1 4 Status.issued none).isOverdue (addDays 1000 24) = true ∧
      (sampleLoan 6 1 4 Status.issued none).daysOverdue (addDays 1000 24) 0 = 10) ∧
    (sampleLoan 7 1 3 Status.returned (some 2000)).daysOverdue (addDays 1000 24) 0 = 0 ∧
    ({ sampleLoan 6 1 4 Status.issued none with
        status := Status.returned, returnDate := some 3000 } : Assignment).daysOverdue
      (addDays 1000 24) 0 = 0 :=
  ⟨(daysOverdue_spec (sampleLoan 6 1 4 Status.issued none) (addDays 1000 24) 0).2.2.2.2.1
      (by decide) (by decide),
   (daysOverdue_spec (sampleLoan 7 1 3 Status.returned (some 2000)) (addDays 1000 24) 0).1
      (by decide),
   (daysOverdue_spec (sampleLoan 6 1 4 Status.issued none) (addDays 1000 24) 0).2.2.2.2.2
      sampleStore 3000 6 _ (by decide) (by decide)⟩

/-! ## The default due date -/

/-- A new loan without `dueDate` fails the `required` validator, which runs before the
`pre('save')` hook that would supply the default. -/
theorem saveNew_without_dueDate (s : Store) (now : Int) (f : AssignmentFields)
    (h : f.dueDate = none) : Assignment.saveNew s now f = none := by
  simp [Assignment.saveNew, Assignment.construct, AssignmentDraft.validate, h]

/-- The hook alone turns a missing `dueDate` into `issueDate + 14 * 24 * 60 * 60 * 1000`,
which is after `issueDate`, and keeps a `dueDate` that is there. -/
theorem preSave_dueDate (d : AssignmentDraft) (now : Int) :
    (d.dueDate = none →
      (d.preSave now).dueDate = some (d.issueDate + 14 * 24 * 60 * 60 * 1000) ∧
      d.issueDate < d.issueDate + 14 * 24 * 60 * 60 * 1000) ∧
    (∀ due, d.dueDate = some due → (d.preSave now).dueDate = some due) := by
  constructor
  · intro h
    refine ⟨?_, by omega⟩
    unfold AssignmentDraft.preSave
    simp only [h]
    split <;> rfl
  · intro due h
    unfold AssignmentDraft.preSave
    simp only [h]
    split <;> simp [h]

/-- On a draft that carries a `dueDate`, the hook acts as on the stored document. -/
theorem preSave_toAssignment (d : AssignmentDraft) (now : Int) (due : Int)
    (h : d.dueDate = some due) :
    (d.preSave now).toAssignment = some (Assignment.preSave now
      { _id := d._id, bookId := d.bookId, userId := d.userId, issueDate := d.issueDate,
        dueDate := due, returnDate := d.returnDate, status := d.status }) := by
  unfold AssignmentDraft.preSave Assignment.preSave
  simp only [h]
  split <;> simp [AssignmentDraft.toAssignment, h]

/-- Saving a new loan that carries a `dueDate` is the insert that `issueBook` makes. -/
theorem saveNew_eq_insert (s : Store) (now : Int) (f : AssignmentFields) (due : Int)
    (h : f.dueDate = some due) :
    Assignment.saveNew s now f = Assignment.insert s now
      { _id := s.nextId, bookId := f.bookId, userId := f.userId,
        issueDate := f.issueDate.getD now, dueDate := due, returnDate := f.returnDate,
        status := f.status.getD Status.issued } := by
  unfold Assignment.saveNew Assignment.insert
  have hd : (Assignment.construct s.nextId now f).dueDate = some due := h
  have hval : (Assignment.construct s.nextId now f).validate =
      Assignment.validate
        { _id := s.nextId, bookId := f.bookId, userId := f.userId,
          issueDate := f.issueDate.getD now, dueDate := due, returnDate := f.returnDate,
          status := f.status.getD Status.issued } := by
    simp [AssignmentDraft.validate, Assignment.validate, Assignment.construct, h]
  simp only [hval, preSave_toAssignment _ now due hd]
  rfl

/-- A new loan that supplies a `dueDate` after its `issueDate` is stored with that
`dueDate`; one whose `dueDate` is not after its `issueDate` is rejected. -/
theorem saveNew_with_dueDate (s s1 : Store) (now : Int) (f : AssignmentFields) (due : Int)
    (h : f.dueDate = some due) :
    (due ≤ f.issueDate.getD now → Assignment.saveNew s now f = none) ∧
    (Assignment.saveNew s now f = some s1 →
      ∃ loan : Assignment, s1.assignments = s.assignments ++ [loan] ∧ loan.dueDate = due ∧
        loan.issueDate = f.issueDate.getD now ∧ loan.issueDate < loan.dueDate) := by
  rw [saveNew_eq_insert s now f due h]
  constructor
  · intro hle
    simp [Assignment.insert, Assignment.validate, not_lt.2 hle]
  · intro hs
    have hv : Assignment.validate
        { _id := s.nextId, bookId := f.bookId, userId := f.userId,
          issueDate := f.issueDate.getD now, dueDate := due, returnDate := f.returnDate,
          status := f.status.getD Status.issued } = true := by
      by_contra hn
      simp [Assignment.insert, hn] at hs
    simp only [Assignment.validate, Bool.and_eq_true, decide_eq_true_eq] at hv
    rw [Assignment.insert_loan_eq_some _ _ _ _ hs]
    refine ⟨_, rfl, ?_, ?_, ?_⟩ <;>
    · unfold Assignment.preSave
      split
      · first | rfl | exact hv.1
      · first | rfl | exact hv.1

/-- C18, the code at the failing input: a new loan for book 1 and user 2 with
`issueDate = 1000` and no `dueDate` is saved on the shelf store.  The hook would set
`dueDate = 1000 + 14 * 24 * 60 * 60 * 1000`, but the save is rejected before the hook
runs, so no loan with the default due date is stored.  A supplied `dueDate` is kept, and
one that is not after `issueDate` is rejected. -/
theorem default_dueDate_not_reached :
    Assignment.saveNew shelfStore 3000 ⟨1, 2, some 1000, none, none, none⟩ = none ∧
    ((Assignment.construct 3 3000 ⟨1, 2, some 1000, none, none, none⟩).preSave 3000).dueDate =
      some (1000 + 14 * 24 * 60 * 60 * 1000) ∧
    (Assignment.saveNew shelfStore 3000 ⟨1, 2, some 1000, some 5000, none, none⟩).map
        (fun s => s.assignments.map (fun a => a.dueDate)) = some [5000] ∧
    Assignment.saveNew shelfStore 3000 ⟨1, 2, some 1000, some 1000, none, none⟩ = none := by
  decide

/-! ## Updating the number of copies -/

/-- When no other book carries the ISBN of the request, `updateBook` runs its tail. -/
theorem updateBook_of_isbn_free (rules : TextRules) (s : Store) (id : Nat) (body : BookUpdate)
    (book : Book) (hb : Book.findById s id = some book)
    (hfree : ∀ x ∈ s.books, some x.isbn = body.isbn.map rules.trim → x._id = id) :
    updateBook rules s id body = updateBookCopies rules s id body book := by
  unfold updateBook
  rw [hb]
  dsimp only
  split
  · have hnone : s.books.find?
        (fun b => some b.isbn == body.isbn.map rules.trim && b._id != id) = none := by
      rw [List.find?_eq_none]
      intro x hx hp
      simp only [Bool.and_eq_true, beq_iff_eq, bne_iff_ne, ne_eq] at hp
      exact hp.2 (hfree x hx hp.1)
    rw [hnone]
  · rfl

/-- The tail of `updateBook` answers 400 when the new number of available copies is
negative, and 500 otherwise: the update is rejected. -/
theorem updateBookCopies_answer (rules : TextRules) (s : Store) (id : Nat) (body : BookUpdate)
    (book : Book) :
    updateBookCopies rules s id body book =
      if (match body.totalCopies with
          | some t => if t != 0 then t - (book.totalCopies - book.availableCopies)
              else book.availableCopies
          | none => book.availableCopies) < 0 then
        (⟨400, false, "Cannot reduce total copies below currently issued books", none⟩, s)
      else (⟨500, false, "Error updating book", none⟩, s) := by
  unfold updateBookCopies
  dsimp only
  split
  · rfl
  · rw [Book.findByIdAndUpdate_eq_none]

/-- C19 (what the code does): for a stored book and a requested `totalCopies = t` in
1..1000 (no other book carrying the ISBN of the request), `updateBook` answers 400 'Cannot
reduce total copies below currently issued books' when `t < issued`, where
`issued = totalCopies - availableCopies`; otherwise it answers 500 'Error updating book',
not 200, because the update is rejected by the validator of `availableCopies`; so does a
request without `totalCopies` on a book whose `availableCopies` is not negative.  Whatever
the request, the store is left as it was: the book keeps its `totalCopies` and its
`availableCopies` and never gets `t` and `t - issued`. -/
theorem updateBook_never_writes (rules : TextRules) (s : Store) (id : Nat) (book : Book)
    (hb : Book.findById s id = some book) :
    (∀ (body : BookUpdate) (t : Int), body.totalCopies = some t → 1 ≤ t → t ≤ 1000 →
      (∀ x ∈ s.books, some x.isbn = body.isbn.map rules.trim → x._id = id) →
      (t < book.totalCopies - book.availableCopies →
        updateBook rules s id body =
          (⟨400, false, "Cannot reduce total copies below currently issued books", none⟩, s)) ∧
      (¬ t < book.totalCopies - book.availableCopies →
        updateBook rules s id body = (⟨500, false, "Error updating book", none⟩, s))) ∧
    (∀ (body : BookUpdate), body.totalCopies = none → 0 ≤ book.availableCopies →
      (∀ x ∈ s.books, some x.isbn = body.isbn.map rules.trim → x._id = id) →
      updateBook rules s id body = (⟨500, false, "Error updating book", none⟩, s)) ∧
    (∀ (body : BookUpdate), (updateBook rules s id body).2 = s ∧
      Book.findById (updateBook rules s id body).2 id = some book) := by
  refine ⟨?_, ?_, ?_⟩
  · intro body t ht h1 _ hfree
    have ht0 : (t != 0) = true := by
      simp only [bne_iff_ne, ne_eq]
      omega
    rw [updateBook_of_isbn_free rules s id body book hb hfree, updateBookCopies_answer, ht]
    simp only [ht0, if_true]
    constructor
    · intro hlt
      rw [if_pos (by omega)]
    · intro hlt
      rw [if_neg (by omega)]
  · intro body ht havail hfree
    rw [updateBook_of_isbn_free rules s id body book hb hfree, updateBookCopies_answer, ht]
    simp only
    rw [if_neg (by omega)]
  · intro body
    rw [updateBook_store]
    exact ⟨rfl, hb⟩

/-- Witness for C19 on the shelf store after one issue (total 3, available 2, one copy
issued): a request for 5 copies is answered 500 and the book keeps 3 and 2; a request
without `totalCopies`, for a new title, is answered 500 as well. -/
theorem updateBook_never_writes_witness :
    Book.findById (issueBook shelfStore 3000 0 1 2).2 1 = some (sampleBook 1 3 2) ∧
    updateBook TextRules.permissive (issueBook shelfStore 3000 0 1 2).2 1
        ⟨none, none, none, some 5, none⟩ =
      (⟨500, false, "Error updating book", none⟩, (issueBook shelfStore 3000 0 1 2).2) ∧
    updateBook TextRules.permissive (issueBook shelfStore 3000 0 1 2).2 1
        ⟨some "Dune Messiah", none, none, none, none⟩ =
      (⟨500, false, "Error updating book", none⟩, (issueBook shelfStore 3000 0 1 2).2) ∧
    Book.findById (updateBook TextRules.permissive (issueBook shelfStore 3000 0 1 2).2 1
        ⟨none, none, none, some 5, none⟩).2 1 = some (sampleBook 1 3 2) :=
  ⟨by decide,
   ((updateBook_never_writes TextRules.permissive (issueBook shelfStore 3000 0 1 2).2 1
      (sampleBook 1 3 2) (by decide)).1 ⟨none, none, none, some 5, none⟩ 5 rfl
      (by decide) (by decide) (by decide)).2 (by decide),
   (updateBook_never_writes TextRules.permissive (issueBook shelfStore 3000 0 1 2).2 1
      (sampleBook 1 3 2) (by decide)).2.1 ⟨some "Dune Messiah", none, none, none, none⟩ rfl
      (by decide) (by decide),
   ((updateBook_never_writes TextRules.permissive (issueBook shelfStore 3000 0 1 2).2 1
      (sampleBook 1 3 2) (by decide)).2.2 ⟨none, none, none, some 5, none⟩).2⟩

/-! ## Pagination -/

/-- With a positive page size, the page number is below the page count exactly when items
lie beyond the page. -/
theorem lt_ceilDiv_iff (page limit total : Int) (hl : 0 < limit) :
    page < ceilDiv total limit ↔ page * limit < total := by
  unfold ceilDiv
  have hdiv := Int.ediv_add_emod total limit
  have hr0 : 0 ≤ total % limit := Int.emod_nonneg total (ne_of_gt hl)
  have hr1 : total % limit < limit := Int.emod_lt_of_pos total hl
  split
  · rename_i h0
    rw [h0, add_zero] at hdiv
    constructor
    · intro h
      have := mul_lt_mul_of_pos_right h hl
      rw [← hdiv]
      linarith [mul_comm limit (total / limit)]
    · intro h
      rw [← hdiv, mul_comm limit (total / limit)] at h
      exact lt_of_mul_lt_mul_right h (le_of_lt hl)
  · rename_i h0
    have hpos : 0 < total % limit := lt_of_le_of_ne hr0 (Ne.symm h0)
    constructor
    · intro h
      have hle : page ≤ total / limit := by omega
      have := mul_le_mul_of_nonneg_right hle (le_of_lt hl)
      rw [← hdiv]
      linarith [mul_comm limit (total / limit)]
    · intro h
      by_contra hn
      have hge : total / limit + 1 ≤ page := by omega
      have := mul_le_mul_of_nonneg_right hge (le_of_lt hl)
      rw [← hdiv] at h
      nlinarith [mul_comm limit (total / limit)]

/-- C20: for integers `page`, `total` and `limit >= 1` (so for `page >= 1`, `total >= 0`),
with `totalPages = ceil(total / limit)`: the reported `hasNextPage` (of `getPaginationInfo` and
of the controllers) holds exactly when `page * limit < total`, `hasPrevPage` exactly when
`page > 1`, and `getPaginationInfo` returns `nextPage = page + 1` exactly when
`hasNextPage` (else null) and `prevPage = page - 1` exactly when `hasPrevPage` (else
null). -/
theorem pagination_consistent (page limit total : Int) (hlimit : 1 ≤ limit) :
    (getPaginationInfo page limit total).totalPages = ⌈(total : ℚ) / (limit : ℚ)⌉ ∧
    (pageReport page limit total).totalPages = ⌈(total : ℚ) / (limit : ℚ)⌉ ∧
    ((getPaginationInfo page limit total).hasNextPage = true ↔ page * limit < total) ∧
    ((pageReport page limit total).hasNextPage = true ↔ page * limit < total) ∧
    ((getPaginationInfo page limit total).hasPrevPage = true ↔ page > 1) ∧
    ((pageReport page limit total).hasPrevPage = true ↔ page > 1) ∧
    (getPaginationInfo page limit total).nextPage =
      (if (getPaginationInfo page limit total).hasNextPage = true then some (page + 1)
       else none) ∧
    (getPaginationInfo page limit total).prevPage =
      (if (getPaginationInfo page limit total).hasPrevPage = true then some (page - 1)
       else none) := by
  have hl : 0 < limit := by omega
  refine ⟨ceilDiv_eq_ceil total limit hl, ceilDiv_eq_ceil total limit hl, ?_, ?_, ?_, ?_, ?_, ?_⟩
  · simp only [getPaginationInfo, decide_eq_true_eq]
    exact lt_ceilDiv_iff page limit total hl
  · simp only [pageReport, decide_eq_true_eq]
    exact lt_ceilDiv_iff page limit total hl
  · simp [getPaginationInfo]
  · simp [pageReport]
  · simp [getPaginationInfo]
  · simp [getPaginationInfo]

/-- Witness for C20: 25 items in pages of 10; page 2 has a next and a previous page, page 3
is the last one. -/
theorem pagination_consistent_witness :
    ((getPaginationInfo 2 10 25).hasNextPage = true ↔ (2 : Int) * 10 < 25) ∧
    (getPaginationInfo 2 10 25).nextPage = some 3 ∧
    (getPaginationInfo 2 10 25).prevPage = some 1 ∧
    ((getPaginationInfo 3 10 25).hasNextPage = true ↔ (3 : Int) * 10 < 25) ∧
    (getPaginationInfo 3 10 25).nextPage = none ∧
    (getPaginationInfo 3 10 25).totalPages = 3 :=
  ⟨(pagination_consistent 2 10 25 (by decide)).2.2.1,
   by decide, by decide,
   (pagination_consistent 3 10 25 (by decide)).2.2.1,
   by decide, by decide⟩

end Lms
